import Mathlib

/-!
P2P file sharing: tracker metadata store and parallel downloader

A shallow embedding of `tracker.cpp` and `client.cpp`.

* `std::map<K, V>` is an association list kept in key order (`mapFind`,
  `mapInsert`, `mapErase`, `mapIndex` for `find`, assignment through
  `operator[]`, `erase` and reading through `operator[]`).
* `ArrayList<T>` is a `List T`; `add` appends at the end.
* Every tracker handler runs under the tracker mutexes, so a handler is one
  atomic transition of `TrackerState`.
* `computeSHA1` (OpenSSL) is a parameter `sha1` of the downloader.
* `Tracker.Checked` holds the handlers once more with the bounds check of
  `ArrayList::get` on every access; `none` is the exit `Index out of bounds`.
* The `istringstream` that parses a plan is a list of characters with `failbit`
  (`IStream`, `extractString`, `extractInt`).
-/

namespace P2P

/-! ## `std::map` -/

/-- The key comparison of a `std::map`: `std::less<K>`. -/
class KeyOrder (K : Type) where
  less : K → K → Bool

/-- Keys of type `std::string` compare character by character. -/
instance : KeyOrder String := ⟨fun a b => decide (a.data < b.data)⟩

/-- Keys of type `int` (socket descriptors, chunk indices). -/
instance : KeyOrder Int := ⟨fun a b => decide (a < b)⟩

/-- The lookup `m.find(k)`: the value stored under `k`, if any. -/
def mapFind {K V : Type} [DecidableEq K] : List (K × V) → K → Option V
  | [], _ => none
  | (k', v) :: rest, k => if k = k' then some v else mapFind rest k

/-- The assignment `m[k] = v`: overwrite the entry of `k`, or insert it at its place in
    key order. -/
def mapInsert {K V : Type} [DecidableEq K] [KeyOrder K]
    (k : K) (v : V) : List (K × V) → List (K × V)
  | [] => [(k, v)]
  | (k', v') :: rest =>
    if k = k' then (k, v) :: rest
    else if KeyOrder.less k k' then (k, v) :: (k', v') :: rest
    else (k', v') :: mapInsert k v rest

/-- The call `m.erase(k)`. -/
def mapErase {K V : Type} [DecidableEq K] (k : K) (m : List (K × V)) : List (K × V) :=
  m.filter (fun p => decide (p.1 ≠ k))

/-- Reading `m[k]`: the stored value, or a default-constructed value that is
    inserted under `k` when the key is absent. -/
def mapIndex {K V : Type} [DecidableEq K] [KeyOrder K]
    (m : List (K × V)) (k : K) (dflt : V) : V × List (K × V) :=
  match mapFind m k with
  | some v => (v, m)
  | none => (dflt, mapInsert k dflt m)

/-! ## `ArrayList` -/

namespace ArrayList

/-- The search loop `for (i = 0; i < size(); ++i) if (get(i) == x) { index = i; break; }`:
    the first index holding `x`. -/
def indexOfFirst {α : Type} [DecidableEq α] : List α → α → Option Nat
  | [], _ => none
  | a :: rest, x => if a = x then some 0 else (indexOfFirst rest x).map (· + 1)

/-- The method `ArrayList::removeAt(index)`; an index out of range leaves the list as is. -/
def removeAt {α : Type} : List α → Nat → List α
  | [], _ => []
  | _ :: rest, 0 => rest
  | a :: rest, i + 1 => a :: removeAt rest i

/-- The inner loop of `ArrayList::sort`: `n` adjacent comparisons from the front,
    swapping whenever `compare(array[j], array[j+1])` is false. -/
def sortInner {α : Type} (compare : α → α → Bool) : Nat → List α → List α
  | n + 1, a :: b :: rest =>
    if compare a b then a :: sortInner compare n (b :: rest)
    else b :: sortInner compare n (a :: rest)
  | _, l => l

/-- The method `ArrayList::sort(compare)`: pass `i` (for `i < count - 1`) makes
    `count - i - 1` adjacent comparisons. -/
def sort {α : Type} (compare : α → α → Bool) (l : List α) : List α :=
  (List.range (l.length - 1)).foldl
    (fun acc i => sortInner compare (l.length - i - 1) acc) l

end ArrayList

/-! ## Tracker -/

namespace Tracker

def CHUNK_SIZE : Nat := 512 * 1024

inductive CommandType where
  | CREATE_USER | LOGIN | CREATE_GROUP | JOIN_GROUP | LEAVE_GROUP | LIST_GROUPS
  | LIST_REQUESTS | ACCEPT_REQUEST | LIST_FILES | UPLOAD_FILE | DOWNLOAD_FILE
  | SHUTDOWN | QUIT | UNKNOWN
  deriving DecidableEq, Repr

def getCommandType (command : String) : CommandType :=
  if command = "create_user" then .CREATE_USER
  else if command = "login" then .LOGIN
  else if command = "create_group" then .CREATE_GROUP
  else if command = "join_group" then .JOIN_GROUP
  else if command = "leave_group" then .LEAVE_GROUP
  else if command = "list_groups" then .LIST_GROUPS
  else if command = "list_requests" then .LIST_REQUESTS
  else if command = "accept_request" then .ACCEPT_REQUEST
  else if command = "list_files" then .LIST_FILES
  else if command = "upload_file" then .UPLOAD_FILE
  else if command = "download_file" then .DOWNLOAD_FILE
  else if command = "shutdown" then .SHUTDOWN
  else if command = "quit" then .QUIT
  else .UNKNOWN

structure UserInfo where
  userId : String
  password : String
  isLoggedIn : Bool
  ip : String
  port : Int
  deriving DecidableEq, Repr

structure Group where
  groupId : String
  ownerId : String
  members : List String
  pendingRequests : List String
  deriving DecidableEq, Repr

structure File where
  fileName : String
  fileSize : String
  fileSha1 : String
  chunkSha1s : List String
  /-- userId -> list of chunk indices -/
  userChunks : List (String × List Int)
  deriving DecidableEq, Repr

/-- The tracker's global tables and the server-running flag. -/
structure TrackerState where
  users : List (String × UserInfo)
  groups : List (String × Group)
  clientUserMap : List (Int × String)
  groupFiles : List (String × List File)
  userIpPortMap : List (String × (String × Int))
  serverRunning : Bool
  deriving DecidableEq, Repr

/-- The tables as the process starts. -/
def init : TrackerState :=
  { users := [], groups := [], clientUserMap := [], groupFiles := [],
    userIpPortMap := [], serverRunning := true }

/-- The characters `strtol` skips before the number. -/
def isSpaceChar (c : Char) : Bool :=
  c.toNat = 32 || (9 ≤ c.toNat && c.toNat ≤ 13)

/-- The function `myAtoi`: `stoi` (leading blanks, optional sign, decimal digits), with 0 for
    a token without digits or with a value outside `int`. -/
def myAtoi (s : String) : Int :=
  let cs := s.toList.dropWhile isSpaceChar
  let signed : Bool × List Char :=
    match cs with
    | '-' :: r => (true, r)
    | '+' :: r => (false, r)
    | r => (false, r)
  let digs := signed.2.takeWhile Char.isDigit
  if digs.isEmpty then 0
  else
    let n : Int := digs.foldl (fun acc c => acc * 10 + ((c.toNat : Int) - 48)) 0
    let v : Int := if signed.1 then -n else n
    if v < -2147483648 ∨ 2147483647 < v then 0 else v

/-- The chunk indices `0 .. n-1` added by the loop `for (i = 0; i < n; ++i) add(i)`. -/
def allChunkIndices (n : Nat) : List Int :=
  (List.range n).map Int.ofNat

def handleCreateUser (tokens : List String) (_clientSock : Int) (s : TrackerState) :
    TrackerState × String :=
  match tokens with
  | [_, userId, password] =>
    match mapFind s.users userId with
    | some _ => (s, "Error: User already exists.")
    | none =>
      ({ s with users := (mapInsert userId
            { userId := userId, password := password, isLoggedIn := false, ip := "", port := 0 }
            s.users) },
        "User created successfully.")
  | _ => (s, "Usage: create_user <user_id> <password>")

def handleLogin (tokens : List String) (clientSock : Int) (s : TrackerState) :
    TrackerState × String :=
  match tokens with
  | [_, userId, password, ip, portTok] =>
    let port := myAtoi portTok
    match mapFind s.users userId with
    | none => (s, "Error: User does not exist.")
    | some u =>
      if u.password ≠ password then (s, "Error: Incorrect password.")
      else if u.isLoggedIn then (s, "Error: User already logged in.")
      else
        ({ s with
            users := mapInsert userId { u with isLoggedIn := true, ip := ip, port := port } s.users
            clientUserMap := mapInsert clientSock userId s.clientUserMap
            userIpPortMap := mapInsert userId (ip, port) s.userIpPortMap },
          "Login successful.")
  | _ => (s, "Usage: login <user_id> <password> <ip> <port>")

def handleCreateGroup (tokens : List String) (clientSock : Int) (s : TrackerState) :
    TrackerState × String :=
  match tokens with
  | [_, groupId] =>
    match mapFind s.groups groupId with
    | some _ => (s, "Error: Group already exists.")
    | none =>
      match mapFind s.clientUserMap clientSock with
      | none => (s, "Error: Please login first.")
      | some userId =>
        ({ s with groups := (mapInsert groupId
              { groupId := groupId, ownerId := userId, members := [userId],
                pendingRequests := [] } s.groups) },
          "Group created successfully.")
  | _ => (s, "Usage: create_group <group_id>")

def handleJoinGroup (tokens : List String) (clientSock : Int) (s : TrackerState) :
    TrackerState × String :=
  match tokens with
  | [_, groupId] =>
    match mapFind s.groups groupId with
    | none => (s, "Error: Group does not exist.")
    | some group =>
      match mapFind s.clientUserMap clientSock with
      | none => (s, "Error: Please login first.")
      | some userId =>
        match ArrayList.indexOfFirst group.members userId with
        | some _ => (s, "Error: Already a member of the group.")
        | none =>
          ({ s with groups := (mapInsert groupId
                { group with pendingRequests := group.pendingRequests ++ [userId] } s.groups) },
            "Join request sent to group owner.")
  | _ => (s, "Usage: join_group <group_id>")

def handleLeaveGroup (tokens : List String) (clientSock : Int) (s : TrackerState) :
    TrackerState × String :=
  match tokens with
  | [_, groupId] =>
    match mapFind s.groups groupId with
    | none => (s, "Error: Group does not exist.")
    | some group =>
      match mapFind s.clientUserMap clientSock with
      | none => (s, "Error: Please login first.")
      | some userId =>
        match ArrayList.indexOfFirst group.members userId with
        | none => (s, "Error: Not a member of the group.")
        | some memberIndex =>
          ({ s with groups := (mapInsert groupId
                { group with members := ArrayList.removeAt group.members memberIndex } s.groups) },
            "Left the group successfully.")
  | _ => (s, "Usage: leave_group <group_id>")

def handleListGroups (_tokens : List String) (_clientSock : Int) (s : TrackerState) :
    TrackerState × String :=
  if s.groups.isEmpty then (s, "No groups available.")
  else (s, s.groups.foldl (fun acc g => acc ++ g.1 ++ "\n") "Available groups:\n")

def handleListRequests (tokens : List String) (clientSock : Int) (s : TrackerState) :
    TrackerState × String :=
  match tokens with
  | [_, groupId] =>
    match mapFind s.groups groupId with
    | none => (s, "Error: Group does not exist.")
    | some group =>
      match mapFind s.clientUserMap clientSock with
      | none => (s, "Error: Please login first.")
      | some userId =>
        if group.ownerId ≠ userId then
          (s, "Error: Only group owner can view pending requests.")
        else if group.pendingRequests.isEmpty then (s, "No pending requests.")
        else (s, group.pendingRequests.foldl (fun acc r => acc ++ r ++ "\n") "Pending requests:\n")
  | _ => (s, "Usage: list_requests <group_id>")

def handleAcceptRequest (tokens : List String) (clientSock : Int) (s : TrackerState) :
    TrackerState × String :=
  match tokens with
  | [_, groupId, userIdToAccept] =>
    match mapFind s.groups groupId with
    | none => (s, "Error: Group does not exist.")
    | some group =>
      match mapFind s.clientUserMap clientSock with
      | none => (s, "Error: Please login first.")
      | some userId =>
        if group.ownerId ≠ userId then (s, "Error: Only group owner can accept requests.")
        else
          match ArrayList.indexOfFirst group.pendingRequests userIdToAccept with
          | none => (s, "Error: No such pending request.")
          | some requestIndex =>
            ({ s with groups := (mapInsert groupId
                  { group with
                      members := group.members ++ [userIdToAccept]
                      pendingRequests := ArrayList.removeAt group.pendingRequests requestIndex }
                  s.groups) },
              "User added to the group.")
  | _ => (s, "Usage: accept_request <group_id> <user_id>")

def handleListFiles (tokens : List String) (clientSock : Int) (s : TrackerState) :
    TrackerState × String :=
  match tokens with
  | [_, groupId] =>
    match mapFind s.groups groupId with
    | none => (s, "Error: Group does not exist.")
    | some group =>
      match mapFind s.clientUserMap clientSock with
      | none => (s, "Error: Please login first.")
      | some userId =>
        match ArrayList.indexOfFirst group.members userId with
        | none => (s, "Error: Not a member of the group.")
        | some _ =>
          match mapFind s.groupFiles groupId with
          | none => (s, "No files available in the group.")
          | some files =>
            if files.isEmpty then (s, "No files available in the group.")
            else (s, files.foldl (fun acc f => acc ++ f.fileName ++ "\n")
                      ("Files in group " ++ groupId ++ ":\n"))
  | _ => (s, "Usage: list_files <group_id>")

/-- The loop of `handleUploadFile` looking for a file with the same name and SHA-1:
    the first match and its index. -/
def findExistingFile : List File → String → String → Option (Nat × File)
  | [], _, _ => none
  | f :: rest, fileName, fileSha1 =>
    if f.fileName = fileName ∧ f.fileSha1 = fileSha1 then some (0, f)
    else (findExistingFile rest fileName fileSha1).map (fun r => (r.1 + 1, r.2))

/-- The branch `if (existingFile)` of `handleUploadFile`, applied to the file found:
    a user without an entry gets the indices `0 .. chunkSha1s.size()-1`, where
    `chunkSha1s` are the digests of this request. -/
def addSharer (f : File) (userId : String) (chunkSha1s : List String) : File × String :=
  match mapFind f.userChunks userId with
  | none =>
    ({ f with userChunks := mapInsert userId (allChunkIndices chunkSha1s.length) f.userChunks },
      "File already exists. Added you as a sharer.")
  | some _ => (f, "You are already sharing this file.")

def handleUploadFile (tokens : List String) (clientSock : Int) (s : TrackerState) :
    TrackerState × String :=
  match tokens with
  | _ :: fileName :: fileSize :: fileSha1 :: groupId :: c :: cs =>
    let chunkSha1s := c :: cs
    match mapFind s.groups groupId with
    | none => (s, "Error: Group does not exist.")
    | some group =>
      match mapFind s.clientUserMap clientSock with
      | none => (s, "Error: Please login first.")
      | some userId =>
        match ArrayList.indexOfFirst group.members userId with
        | none => (s, "Error: Not a member of the group.")
        | some _ =>
          let filesRef := mapIndex s.groupFiles groupId []
          let files := filesRef.1
          match findExistingFile files fileName fileSha1 with
          | some (i, existingFile) =>
            let r := addSharer existingFile userId chunkSha1s
            ({ s with groupFiles := mapInsert groupId (files.set i r.1) filesRef.2 }, r.2)
          | none =>
            let newFile : File :=
              { fileName := fileName, fileSize := fileSize, fileSha1 := fileSha1,
                chunkSha1s := chunkSha1s,
                userChunks := mapInsert userId (allChunkIndices chunkSha1s.length) [] }
            ({ s with groupFiles := mapInsert groupId (files ++ [newFile]) filesRef.2 },
              "File uploaded successfully.")
  | _ => (s, "Usage: upload_file <file_name> <file_size> <file_sha1> <group_id> <chunk_sha1s...>")

/-- One holder as printed in the plan: `<uid> <ip> <port>`. -/
structure PeerEntry where
  userId : String
  ip : String
  port : Int
  deriving DecidableEq, Repr

/-- One chunk as printed in the plan: `<idx> <holder_count> <chunk_sha1>` and the holders. -/
structure ChunkEntry where
  chunkIndex : Nat
  chunkSha1 : String
  peers : List PeerEntry
  deriving DecidableEq, Repr

/-- The fields written to the `download_info` response, in the order written. -/
structure DownloadInfo where
  fileSize : String
  totalChunks : Nat
  chunkSize : Nat
  fileSha1 : String
  chunks : List ChunkEntry
  deriving DecidableEq, Repr

/-- The loop of `handleDownloadFile` looking for the file by name: the first match. -/
def findFileByName : List File → String → Option File
  | [], _ => none
  | f :: rest, fileName => if f.fileName = fileName then some f else findFileByName rest fileName

/-- The loop over `targetFile->userChunks` for one chunk: the owners, in key order,
    whose index list holds `chunkIndex`. -/
def peersWithChunk (userChunks : List (String × List Int)) (chunkIndex : Nat) : List String :=
  (userChunks.filter (fun e => e.2.contains (Int.ofNat chunkIndex))).map Prod.fst

/-- The loop over `peersWithChunk` printing each holder's endpoint, read with
    `userIpPortMap[peerUserId]`. -/
def emitPeers : List String → List (String × (String × Int)) →
    List PeerEntry × List (String × (String × Int))
  | [], m => ([], m)
  | peerUserId :: rest, m =>
    let ipPort := mapIndex m peerUserId ("", 0)
    let r := emitPeers rest ipPort.2
    ({ userId := peerUserId, ip := ipPort.1.1, port := ipPort.1.2 } :: r.1, r.2)

/-- The loop `for (i = 0; i < totalChunks; ++i)` of `handleDownloadFile`, from chunk
    `i` on, over the digests still to print. -/
def emitChunks (userChunks : List (String × List Int)) :
    Nat → List String → List (String × (String × Int)) →
    List ChunkEntry × List (String × (String × Int))
  | _, [], m => ([], m)
  | i, sha :: rest, m =>
    let ps := emitPeers (peersWithChunk userChunks i) m
    let r := emitChunks userChunks (i + 1) rest ps.2
    ({ chunkIndex := i, chunkSha1 := sha, peers := ps.1 } :: r.1, r.2)

def renderPeer (p : PeerEntry) : String :=
  p.userId ++ " " ++ p.ip ++ " " ++ toString p.port ++ " "

def renderChunk (c : ChunkEntry) : String :=
  toString c.chunkIndex ++ " " ++ toString c.peers.length ++ " " ++ c.chunkSha1 ++ " " ++
    String.join (c.peers.map renderPeer)

/-- The text accumulated in the `stringstream` of `handleDownloadFile`. -/
def renderDownloadInfo (d : DownloadInfo) : String :=
  "download_info " ++ d.fileSize ++ " " ++ toString d.totalChunks ++ " " ++
    toString d.chunkSize ++ " " ++ d.fileSha1 ++ " " ++ String.join (d.chunks.map renderChunk)

/-- The body of `handleDownloadFile`: the new tables and either the message of the
    branch that returned early or the plan that is printed. -/
def downloadFileCore (tokens : List String) (clientSock : Int) (s : TrackerState) :
    TrackerState × (String ⊕ DownloadInfo) :=
  match tokens with
  | [_, groupId, fileName] =>
    match mapFind s.groups groupId with
    | none => (s, .inl "Error: Group does not exist.")
    | some group =>
      match mapFind s.groupFiles groupId with
      | none => (s, .inl "Error: No files available in the group.")
      | some files =>
        match mapFind s.clientUserMap clientSock with
        | none => (s, .inl "Error: Please login first.")
        | some userId =>
          match ArrayList.indexOfFirst group.members userId with
          | none => (s, .inl "Error: Not a member of the group.")
          | some _ =>
            match findFileByName files fileName with
            | none => (s, .inl "Error: File not found in the group.")
            | some targetFile =>
              let r := emitChunks targetFile.userChunks 0 targetFile.chunkSha1s s.userIpPortMap
              ({ s with userIpPortMap := r.2 },
                .inr { fileSize := targetFile.fileSize
                       totalChunks := targetFile.chunkSha1s.length
                       chunkSize := CHUNK_SIZE
                       fileSha1 := targetFile.fileSha1
                       chunks := r.1 })
  | _ => (s, .inl "Usage: download_file <group_id> <file_name>")

def handleDownloadFile (tokens : List String) (clientSock : Int) (s : TrackerState) :
    TrackerState × String :=
  let r := downloadFileCore tokens clientSock s
  (r.1, match r.2 with
        | .inl msg => msg
        | .inr info => renderDownloadInfo info)

def handleShutdown (_tokens : List String) (_clientSock : Int) (s : TrackerState) :
    TrackerState × String :=
  ({ s with serverRunning := false }, "Tracker is shutting down.")

/-- The dispatcher `handleCommand`: the flag returned (false only to disconnect), the new tables
    and the response. -/
def handleCommand (tokens : List String) (clientSock : Int) (s : TrackerState) :
    Bool × TrackerState × String :=
  match tokens with
  | [] => (true, s, "Invalid command.")
  | commandStr :: _ =>
    match getCommandType commandStr with
    | .CREATE_USER => (true, handleCreateUser tokens clientSock s)
    | .LOGIN => (true, handleLogin tokens clientSock s)
    | .CREATE_GROUP => (true, handleCreateGroup tokens clientSock s)
    | .JOIN_GROUP => (true, handleJoinGroup tokens clientSock s)
    | .LEAVE_GROUP => (true, handleLeaveGroup tokens clientSock s)
    | .LIST_GROUPS => (true, handleListGroups tokens clientSock s)
    | .LIST_REQUESTS => (true, handleListRequests tokens clientSock s)
    | .ACCEPT_REQUEST => (true, handleAcceptRequest tokens clientSock s)
    | .LIST_FILES => (true, handleListFiles tokens clientSock s)
    | .UPLOAD_FILE => (true, handleUploadFile tokens clientSock s)
    | .DOWNLOAD_FILE => (true, handleDownloadFile tokens clientSock s)
    | .SHUTDOWN => (true, handleShutdown tokens clientSock s)
    | .QUIT => (false, s, "Goodbye!")
    | .UNKNOWN => (true, s, "Invalid command.")

/-- The end of `clientHandler`, run when the session loop is left: the user bound
    to the socket is logged out and its endpoint and binding are erased. -/
def sessionCleanup (clientSock : Int) (s : TrackerState) : TrackerState :=
  match mapFind s.clientUserMap clientSock with
  | none => s
  | some userId =>
    { s with
        users :=
          match mapFind s.users userId with
          | some u => mapInsert userId { u with isLoggedIn := false, ip := "", port := 0 } s.users
          | none => s.users
        clientUserMap := mapErase clientSock s.clientUserMap
        userIpPortMap := mapErase userId s.userIpPortMap }

/-- What the tracker reacts to: a command read on a client socket, or the end of
    that client's session. -/
inductive Event where
  | command (tokens : List String) (clientSock : Int)
  | disconnect (clientSock : Int)
  deriving DecidableEq, Repr

def step (s : TrackerState) : Event → TrackerState
  | .command tokens clientSock => (handleCommand tokens clientSock s).2.1
  | .disconnect clientSock => sessionCleanup clientSock s

/-- The tables after a sequence of events. -/
def run (s : TrackerState) (events : List Event) : TrackerState :=
  events.foldl step s

/-- The response to a command issued after a sequence of events from the start. -/
def responseAfter (events : List Event) (tokens : List String) (clientSock : Int) : String :=
  (handleCommand tokens clientSock (run init events)).2.2

/-! ### Properties of the tables and the runs used below -/

/-- Every logged-in user has its login endpoint in `userIpPortMap`. -/
def LoginEndpointInv (s : TrackerState) : Prop :=
  ∀ uid u, mapFind s.users uid = some u → u.isLoggedIn = true →
    mapFind s.userIpPortMap uid = some (u.ip, u.port)

/-- Every group's owner is in its member list. -/
def OwnerIsMember (s : TrackerState) : Prop :=
  ∀ gid g, mapFind s.groups gid = some g → g.ownerId ∈ g.members

/-- The event is a `leave_group` for an existing group, read on a socket bound to
    that group's owner. -/
def ownerLeaves (s : TrackerState) : Event → Bool
  | .command [commandStr, groupId] clientSock =>
    decide (getCommandType commandStr = .LEAVE_GROUP) &&
      (match mapFind s.groups groupId, mapFind s.clientUserMap clientSock with
       | some group, some userId => decide (group.ownerId = userId)
       | _, _ => false)
  | _ => false

/-- No event of the run is a `leave_group` by the owner of the group. -/
def noOwnerLeave : TrackerState → List Event → Bool
  | _, [] => true
  | s, e :: rest => !ownerLeaves s e && noOwnerLeave (step s e) rest

/-- Users `a` (socket 4) and `b` (socket 5) are created and log in. -/
def twoUsers : List Event :=
  [ .command ["create_user", "a", "pw"] 4,
    .command ["create_user", "b", "pw"] 5,
    .command ["login", "a", "pw", "127.0.0.1", "6001"] 4,
    .command ["login", "b", "pw", "127.0.0.1", "6002"] 5 ]

/-- After `twoUsers`, `a` creates group `g`, `b` asks to join and `a` accepts. -/
def twoMembers : List Event :=
  twoUsers ++
  [ .command ["create_group", "g"] 4,
    .command ["join_group", "g"] 5,
    .command ["accept_request", "g", "b"] 4 ]

/-- After `twoMembers`, `a` and `b` upload the same file `f`; then the connection
    of `a` drops. -/
def droppedOwner : List Event :=
  twoMembers ++
  [ .command ["upload_file", "f", "10", "s", "g", "c0"] 4,
    .command ["upload_file", "f", "10", "s", "g", "c0"] 5,
    .disconnect 4 ]

/-- After `twoMembers`, `a` uploads `f` with one chunk digest and `b` uploads the
    same `(f, s)` with two. -/
def longerSecondUpload : List Event :=
  twoMembers ++
  [ .command ["upload_file", "f", "10", "s", "g", "c0"] 4,
    .command ["upload_file", "f", "10", "s", "g", "c0", "c1"] 5 ]

/-- After `twoMembers`, `a` uploads `f` with two chunk digests and `b` uploads the
    same `(f, s)` with one. -/
def shorterSecondUpload : List Event :=
  twoMembers ++
  [ .command ["upload_file", "f", "600000", "s", "g", "c0", "c1"] 4,
    .command ["upload_file", "f", "600000", "s", "g", "c0"] 5 ]

/-- User `a` creates group `g` and leaves it. -/
def ownerLeft : List Event :=
  [ .command ["create_user", "a", "pw"] 4,
    .command ["login", "a", "pw", "127.0.0.1", "6001"] 4,
    .command ["create_group", "g"] 4,
    .command ["leave_group", "g"] 4 ]

/-- After `twoUsers`, `a` creates group `g`. -/
def groupCreated : List Event :=
  twoUsers ++ [ .command ["create_group", "g"] 4 ]

/-- After `groupCreated`, `b` sends `join_group g` twice and `a` accepts `b` once. -/
def joinedTwiceAccepted : List Event :=
  groupCreated ++
  [ .command ["join_group", "g"] 5,
    .command ["join_group", "g"] 5,
    .command ["accept_request", "g", "b"] 4 ]

/-- After `twoMembers`, `a` uploads file `f` with one chunk digest. -/
def fileUploaded : List Event :=
  twoMembers ++ [ .command ["upload_file", "f", "10", "s", "g", "c0"] 4 ]

/-- The plan for `f` after `fileUploaded`. -/
def fileUploadedPlan : DownloadInfo :=
  { fileSize := "10", totalChunks := 1, chunkSize := 524288, fileSha1 := "s",
    chunks := [ { chunkIndex := 0, chunkSha1 := "c0",
                  peers := [ { userId := "a", ip := "127.0.0.1", port := 6001 } ] } ] }

/-- Users `a` and `b` are created; `a` logs in on socket 4, then `b` logs in on the
    same socket; then the session of socket 4 ends. -/
def secondLoginSameSocket : List Event :=
  [ .command ["create_user", "a", "pw"] 4,
    .command ["create_user", "b", "pw"] 4,
    .command ["login", "a", "pw", "127.0.0.1", "6001"] 4,
    .command ["login", "b", "pw", "127.0.0.1", "6001"] 4,
    .disconnect 4 ]

/-- An error response: one that begins with `Error:`. -/
def isErrorResponse (response : String) : Bool :=
  "Error:".data.isPrefixOf response.data

/-- After `joinedTwiceAccepted`, `a` accepts `b` a second time. -/
def acceptedTwice : List Event :=
  joinedTwiceAccepted ++ [ .command ["accept_request", "g", "b"] 4 ]

/-- After `acceptedTwice`, `b` leaves `g`. -/
def acceptedTwiceLeft : List Event :=
  acceptedTwice ++ [ .command ["leave_group", "g"] 5 ]

/-- After `twoMembers`, `a` uploads a file `f` with SHA-1 `s1`. -/
def firstFileNamedF : List Event :=
  twoMembers ++ [ .command ["upload_file", "f", "10", "s1", "g", "c0"] 4 ]

/-- After `firstFileNamedF`, `b` uploads a file with the same name `f` and the
    SHA-1 `s2`. -/
def sameNameTwoFiles : List Event :=
  firstFileNamedF ++ [ .command ["upload_file", "f", "20", "s2", "g", "d0"] 5 ]

/-- The outcome of `handleCommand` is a refusal with an error: the session goes on,
    the tables and the server-running flag are those of `s`, and the response
    begins with `Error:`. -/
def RefusedWithError (s : TrackerState) (r : Bool × TrackerState × String) : Prop :=
  r.1 = true ∧ r.2.1 = s ∧ isErrorResponse r.2.2 = true

/-- The check of `tokens.size()` at the head of the handler of each command:
    `list_groups`, `shutdown` and `quit` have none. -/
def argumentCountOk : CommandType → Nat → Bool
  | .CREATE_USER, n => n == 3
  | .LOGIN, n => n == 5
  | .CREATE_GROUP, n => n == 2
  | .JOIN_GROUP, n => n == 2
  | .LEAVE_GROUP, n => n == 2
  | .LIST_GROUPS, _ => true
  | .LIST_REQUESTS, n => n == 2
  | .ACCEPT_REQUEST, n => n == 3
  | .LIST_FILES, n => n == 2
  | .UPLOAD_FILE, n => decide (6 ≤ n)
  | .DOWNLOAD_FILE, n => n == 3
  | .SHUTDOWN, _ => true
  | .QUIT, _ => true
  | .UNKNOWN, _ => false

/-- The request is rejected for a protocol reason: no token, an unknown command,
    or a number of tokens the handler of the command does not take. -/
def protocolError : List String → Bool
  | [] => true
  | commandStr :: rest => !argumentCountOk (getCommandType commandStr) (rest.length + 1)

/-- A usage line: a response that begins with `Usage:`. -/
def isUsageResponse (response : String) : Bool :=
  "Usage:".data.isPrefixOf response.data

/-- The responses of the branches that carry the command out (or find nothing to
    list, or find the caller sharing the file already): the fixed lines, and the
    lists and the plan by their first words. -/
def isSuccessResponse (response : String) : Bool :=
  response ∈ [ "User created successfully.", "Login successful.",
      "Group created successfully.", "Join request sent to group owner.",
      "Left the group successfully.", "No groups available.", "No pending requests.",
      "User added to the group.", "No files available in the group.",
      "File already exists. Added you as a sharer.", "You are already sharing this file.",
      "File uploaded successfully.", "Tracker is shutting down.", "Goodbye!" ] ||
    "Available groups:\n".data.isPrefixOf response.data ||
    "Pending requests:\n".data.isPrefixOf response.data ||
    "Files in group ".data.isPrefixOf response.data ||
    "download_info ".data.isPrefixOf response.data

/-- The outcome of a handler is a refusal with an `Error:` line that leaves the
    tables as they were, or one of the success responses. -/
def ErrorOrSuccess (s : TrackerState) (r : TrackerState × String) : Prop :=
  (isErrorResponse r.2 = true ∧ r.1 = s) ∨ isSuccessResponse r.2 = true

/-! ### The handlers with the bounds check of `ArrayList::get`

The handlers once more, statement by statement, with every `get(index)` passing
through the check `index < 0 || index >= count`. The result `none` stands for the
branch that prints `Index out of bounds` and exits. -/

namespace Checked

/-- The method `ArrayList::get(index)`. -/
def get {α : Type} (l : List α) (index : Int) : Option α :=
  if index < 0 ∨ index ≥ (l.length : Int) then none else l.get? index.toNat

/-- The loop `for (i = 0; i < l.size(); ++i) if (l.get(i) == x) { index = i; break; }`
    from round `i` on: the index found, if any. The loop makes at most
    `l.size() - i` rounds. -/
def searchFrom {α : Type} [DecidableEq α] (l : List α) (x : α) : Nat → Nat → Option (Option Nat)
  | 0, _ => some none
  | fuel + 1, i =>
    if (i : Int) < (l.length : Int) then
      match get l (i : Int) with
      | none => none
      | some e => if e = x then some (some i) else searchFrom l x fuel (i + 1)
    else some none

/-- The search loop from `i = 0`. -/
def search {α : Type} [DecidableEq α] (l : List α) (x : α) : Option (Option Nat) :=
  searchFrom l x l.length 0

/-- The loop `for (i = 0; i < l.size(); ++i) response += line(l.get(i)) + "\n"` from
    round `i` on. -/
def appendLinesFrom {α : Type} (l : List α) (line : α → String) :
    Nat → Nat → String → Option String
  | 0, _, response => some response
  | fuel + 1, i, response =>
    if (i : Int) < (l.length : Int) then
      match get l (i : Int) with
      | none => none
      | some e => appendLinesFrom l line fuel (i + 1) (response ++ line e ++ "\n")
    else some response

/-- The loop `for (i = 5; i < tokens.size(); ++i) chunkSha1s.add(tokens.get(i))` from
    round `i` on. -/
def collectFrom (tokens : List String) : Nat → Nat → List String → Option (List String)
  | 0, _, chunkSha1s => some chunkSha1s
  | fuel + 1, i, chunkSha1s =>
    if (i : Int) < (tokens.length : Int) then
      match get tokens (i : Int) with
      | none => none
      | some token => collectFrom tokens fuel (i + 1) (chunkSha1s ++ [token])
    else some chunkSha1s

def handleCreateUser (tokens : List String) (_clientSock : Int) (s : TrackerState) :
    Option (TrackerState × String) :=
  if tokens.length ≠ 3 then some (s, "Usage: create_user <user_id> <password>")
  else do
    let userId ← get tokens 1
    let password ← get tokens 2
    match mapFind s.users userId with
    | some _ => pure (s, "Error: User already exists.")
    | none =>
      pure ({ s with users := (mapInsert userId
                { userId := userId, password := password, isLoggedIn := false, ip := "",
                  port := 0 }
                s.users) },
            "User created successfully.")

def handleLogin (tokens : List String) (clientSock : Int) (s : TrackerState) :
    Option (TrackerState × String) :=
  if tokens.length ≠ 5 then some (s, "Usage: login <user_id> <password> <ip> <port>")
  else do
    let userId ← get tokens 1
    let password ← get tokens 2
    let ip ← get tokens 3
    let portTok ← get tokens 4
    let port := myAtoi portTok
    match mapFind s.users userId with
    | none => pure (s, "Error: User does not exist.")
    | some u =>
      if u.password ≠ password then pure (s, "Error: Incorrect password.")
      else if u.isLoggedIn then pure (s, "Error: User already logged in.")
      else
        pure ({ s with
                users := mapInsert userId { u with isLoggedIn := true, ip := ip, port := port }
                  s.users
                clientUserMap := mapInsert clientSock userId s.clientUserMap
                userIpPortMap := mapInsert userId (ip, port) s.userIpPortMap },
              "Login successful.")

def handleCreateGroup (tokens : List String) (clientSock : Int) (s : TrackerState) :
    Option (TrackerState × String) :=
  if tokens.length ≠ 2 then some (s, "Usage: create_group <group_id>")
  else do
    let groupId ← get tokens 1
    match mapFind s.groups groupId with
    | some _ => pure (s, "Error: Group already exists.")
    | none =>
      match mapFind s.clientUserMap clientSock with
      | none => pure (s, "Error: Please login first.")
      | some userId =>
        pure ({ s with groups := (mapInsert groupId
                  { groupId := groupId, ownerId := userId, members := [userId],
                    pendingRequests := [] } s.groups) },
              "Group created successfully.")

def handleJoinGroup (tokens : List String) (clientSock : Int) (s : TrackerState) :
    Option (TrackerState × String) :=
  if tokens.length ≠ 2 then some (s, "Usage: join_group <group_id>")
  else do
    let groupId ← get tokens 1
    match mapFind s.groups groupId with
    | none => pure (s, "Error: Group does not exist.")
    | some group =>
      match mapFind s.clientUserMap clientSock with
      | none => pure (s, "Error: Please login first.")
      | some userId =>
        match ← search group.members userId with
        | some _ => pure (s, "Error: Already a member of the group.")
        | none =>
          pure ({ s with groups := (mapInsert groupId
                    { group with pendingRequests := group.pendingRequests ++ [userId] }
                    s.groups) },
                "Join request sent to group owner.")

def handleLeaveGroup (tokens : List String) (clientSock : Int) (s : TrackerState) :
    Option (TrackerState × String) :=
  if tokens.length ≠ 2 then some (s, "Usage: leave_group <group_id>")
  else do
    let groupId ← get tokens 1
    match mapFind s.groups groupId with
    | none => pure (s, "Error: Group does not exist.")
    | some group =>
      match mapFind s.clientUserMap clientSock with
      | none => pure (s, "Error: Please login first.")
      | some userId =>
        match ← search group.members userId with
        | none => pure (s, "Error: Not a member of the group.")
        | some memberIndex =>
          pure ({ s with groups := (mapInsert groupId
                    { group with members := ArrayList.removeAt group.members memberIndex }
                    s.groups) },
                "Left the group successfully.")

def handleListGroups (_tokens : List String) (_clientSock : Int) (s : TrackerState) :
    Option (TrackerState × String) :=
  if s.groups.isEmpty then some (s, "No groups available.")
  else some (s, s.groups.foldl (fun acc g => acc ++ g.1 ++ "\n") "Available groups:\n")

def handleListRequests (tokens : List String) (clientSock : Int) (s : TrackerState) :
    Option (TrackerState × String) :=
  if tokens.length ≠ 2 then some (s, "Usage: list_requests <group_id>")
  else do
    let groupId ← get tokens 1
    match mapFind s.groups groupId with
    | none => pure (s, "Error: Group does not exist.")
    | some group =>
      match mapFind s.clientUserMap clientSock with
      | none => pure (s, "Error: Please login first.")
      | some userId =>
        if group.ownerId ≠ userId then
          pure (s, "Error: Only group owner can view pending requests.")
        else if group.pendingRequests.isEmpty then pure (s, "No pending requests.")
        else do
          let response ← appendLinesFrom group.pendingRequests (fun r => r)
            group.pendingRequests.length 0 "Pending requests:\n"
          pure (s, response)

def handleAcceptRequest (tokens : List String) (clientSock : Int) (s : TrackerState) :
    Option (TrackerState × String) :=
  if tokens.length ≠ 3 then some (s, "Usage: accept_request <group_id> <user_id>")
  else do
    let groupId ← get tokens 1
    let userIdToAccept ← get tokens 2
    match mapFind s.groups groupId with
    | none => pure (s, "Error: Group does not exist.")
    | some group =>
      match mapFind s.clientUserMap clientSock with
      | none => pure (s, "Error: Please login first.")
      | some userId =>
        if group.ownerId ≠ userId then pure (s, "Error: Only group owner can accept requests.")
        else
          match ← search group.pendingRequests userIdToAccept with
          | none => pure (s, "Error: No such pending request.")
          | some requestIndex =>
            pure ({ s with groups := (mapInsert groupId
                      { group with
                          members := group.members ++ [userIdToAccept]
                          pendingRequests :=
                            ArrayList.removeAt group.pendingRequests requestIndex }
                      s.groups) },
                  "User added to the group.")

def handleListFiles (tokens : List String) (clientSock : Int) (s : TrackerState) :
    Option (TrackerState × String) :=
  if tokens.length ≠ 2 then some (s, "Usage: list_files <group_id>")
  else do
    let groupId ← get tokens 1
    match mapFind s.groups groupId with
    | none => pure (s, "Error: Group does not exist.")
    | some group =>
      match mapFind s.clientUserMap clientSock with
      | none => pure (s, "Error: Please login first.")
      | some userId =>
        match ← search group.members userId with
        | none => pure (s, "Error: Not a member of the group.")
        | some _ =>
          match mapFind s.groupFiles groupId with
          | none => pure (s, "No files available in the group.")
          | some files =>
            if files.isEmpty then pure (s, "No files available in the group.")
            else do
              let response ← appendLinesFrom files (fun f => f.fileName) files.length 0
                ("Files in group " ++ groupId ++ ":\n")
              pure (s, response)

/-- The loop of `handleUploadFile` over `files` from round `i` on: the test reads
    `files.get(i)` once for the name, once more for the SHA-1 when the name matches,
    and a third time for the pointer kept. -/
def findExistingFrom (files : List File) (fileName fileSha1 : String) :
    Nat → Nat → Option (Option (Nat × File))
  | 0, _ => some none
  | fuel + 1, i =>
    if (i : Int) < (files.length : Int) then
      match get files (i : Int) with
      | none => none
      | some byName =>
        if byName.fileName = fileName then
          match get files (i : Int) with
          | none => none
          | some bySha1 =>
            if bySha1.fileSha1 = fileSha1 then
              match get files (i : Int) with
              | none => none
              | some existingFile => some (some (i, existingFile))
            else findExistingFrom files fileName fileSha1 fuel (i + 1)
        else findExistingFrom files fileName fileSha1 fuel (i + 1)
    else some none

def handleUploadFile (tokens : List String) (clientSock : Int) (s : TrackerState) :
    Option (TrackerState × String) :=
  if tokens.length < 6 then
    some (s, "Usage: upload_file <file_name> <file_size> <file_sha1> <group_id> <chunk_sha1s...>")
  else do
    let fileName ← get tokens 1
    let fileSize ← get tokens 2
    let fileSha1 ← get tokens 3
    let groupId ← get tokens 4
    let chunkSha1s ← collectFrom tokens (tokens.length - 5) 5 []
    match mapFind s.groups groupId with
    | none => pure (s, "Error: Group does not exist.")
    | some group =>
      match mapFind s.clientUserMap clientSock with
      | none => pure (s, "Error: Please login first.")
      | some userId =>
        match ← search group.members userId with
        | none => pure (s, "Error: Not a member of the group.")
        | some _ =>
          let filesRef := mapIndex s.groupFiles groupId []
          let files := filesRef.1
          match ← findExistingFrom files fileName fileSha1 files.length 0 with
          | some (i, existingFile) =>
            let r := addSharer existingFile userId chunkSha1s
            pure ({ s with groupFiles := mapInsert groupId (files.set i r.1) filesRef.2 }, r.2)
          | none =>
            let newFile : File :=
              { fileName := fileName, fileSize := fileSize, fileSha1 := fileSha1,
                chunkSha1s := chunkSha1s,
                userChunks := mapInsert userId (allChunkIndices chunkSha1s.length) [] }
            pure ({ s with groupFiles := mapInsert groupId (files ++ [newFile]) filesRef.2 },
                  "File uploaded successfully.")

/-- The loop of `handleDownloadFile` over `files` from round `i` on: the test reads
    `files.get(i)` for the name, and once more for the pointer kept. -/
def findByNameFrom (files : List File) (fileName : String) : Nat → Nat → Option (Option File)
  | 0, _ => some none
  | fuel + 1, i =>
    if (i : Int) < (files.length : Int) then
      match get files (i : Int) with
      | none => none
      | some byName =>
        if byName.fileName = fileName then
          match get files (i : Int) with
          | none => none
          | some targetFile => some (some targetFile)
        else findByNameFrom files fileName fuel (i + 1)
    else some none

/-- The loop over the entries of `targetFile->userChunks` for one chunk; the inner
    loop searches the owner's index list with `chunksOwned.get(j)`. -/
def peersWithChunk : List (String × List Int) → Int → Option (List String)
  | [], _ => some []
  | (peerUserId, chunksOwned) :: rest, chunkIndex => do
    let found ← search chunksOwned chunkIndex
    let more ← peersWithChunk rest chunkIndex
    match found with
    | some _ => pure (peerUserId :: more)
    | none => pure more

/-- The loop `for (j = 0; j < peersWithChunk.size(); ++j)` printing the holders,
    from round `j` on. -/
def emitPeersFrom (peers : List String) :
    Nat → Nat → List (String × (String × Int)) →
    Option (List PeerEntry × List (String × (String × Int)))
  | 0, _, m => some ([], m)
  | fuel + 1, j, m =>
    if (j : Int) < (peers.length : Int) then
      match get peers (j : Int) with
      | none => none
      | some peerUserId =>
        let ipPort := mapIndex m peerUserId ("", 0)
        match emitPeersFrom peers fuel (j + 1) ipPort.2 with
        | none => none
        | some r => some ({ userId := peerUserId, ip := ipPort.1.1, port := ipPort.1.2 } :: r.1, r.2)
    else some ([], m)

/-- The loop `for (i = 0; i < totalChunks; ++i)` of `handleDownloadFile`, from round
    `i` on. -/
def emitChunksFrom (targetFile : File) :
    Nat → Nat → List (String × (String × Int)) →
    Option (List ChunkEntry × List (String × (String × Int)))
  | 0, _, m => some ([], m)
  | fuel + 1, i, m =>
    if (i : Int) < (targetFile.chunkSha1s.length : Int) then
      match peersWithChunk targetFile.userChunks (i : Int) with
      | none => none
      | some peers =>
        match get targetFile.chunkSha1s (i : Int) with
        | none => none
        | some sha =>
          match emitPeersFrom peers peers.length 0 m with
          | none => none
          | some ps =>
            match emitChunksFrom targetFile fuel (i + 1) ps.2 with
            | none => none
            | some r => some ({ chunkIndex := i, chunkSha1 := sha, peers := ps.1 } :: r.1, r.2)
    else some ([], m)

def handleDownloadFile (tokens : List String) (clientSock : Int) (s : TrackerState) :
    Option (TrackerState × String) :=
  if tokens.length ≠ 3 then some (s, "Usage: download_file <group_id> <file_name>")
  else do
    let groupId ← get tokens 1
    let fileName ← get tokens 2
    match mapFind s.groups groupId with
    | none => pure (s, "Error: Group does not exist.")
    | some group =>
      match mapFind s.groupFiles groupId with
      | none => pure (s, "Error: No files available in the group.")
      | some files =>
        match mapFind s.clientUserMap clientSock with
        | none => pure (s, "Error: Please login first.")
        | some userId =>
          match ← search group.members userId with
          | none => pure (s, "Error: Not a member of the group.")
          | some _ =>
            match ← findByNameFrom files fileName files.length 0 with
            | none => pure (s, "Error: File not found in the group.")
            | some targetFile => do
              let r ← emitChunksFrom targetFile targetFile.chunkSha1s.length 0 s.userIpPortMap
              pure ({ s with userIpPortMap := r.2 },
                    renderDownloadInfo
                      { fileSize := targetFile.fileSize
                        totalChunks := targetFile.chunkSha1s.length
                        chunkSize := CHUNK_SIZE
                        fileSha1 := targetFile.fileSha1
                        chunks := r.1 })

def handleShutdown (_tokens : List String) (_clientSock : Int) (s : TrackerState) :
    Option (TrackerState × String) :=
  some ({ s with serverRunning := false }, "Tracker is shutting down.")

def handleCommand (tokens : List String) (clientSock : Int) (s : TrackerState) :
    Option (Bool × TrackerState × String) :=
  if tokens.length = 0 then some (true, s, "Invalid command.")
  else do
    let commandStr ← get tokens 0
    match getCommandType commandStr with
    | .CREATE_USER => (handleCreateUser tokens clientSock s).map (fun r => (true, r))
    | .LOGIN => (handleLogin tokens clientSock s).map (fun r => (true, r))
    | .CREATE_GROUP => (handleCreateGroup tokens clientSock s).map (fun r => (true, r))
    | .JOIN_GROUP => (handleJoinGroup tokens clientSock s).map (fun r => (true, r))
    | .LEAVE_GROUP => (handleLeaveGroup tokens clientSock s).map (fun r => (true, r))
    | .LIST_GROUPS => (handleListGroups tokens clientSock s).map (fun r => (true, r))
    | .LIST_REQUESTS => (handleListRequests tokens clientSock s).map (fun r => (true, r))
    | .ACCEPT_REQUEST => (handleAcceptRequest tokens clientSock s).map (fun r => (true, r))
    | .LIST_FILES => (handleListFiles tokens clientSock s).map (fun r => (true, r))
    | .UPLOAD_FILE => (handleUploadFile tokens clientSock s).map (fun r => (true, r))
    | .DOWNLOAD_FILE => (handleDownloadFile tokens clientSock s).map (fun r => (true, r))
    | .SHUTDOWN => (handleShutdown tokens clientSock s).map (fun r => (true, r))
    | .QUIT => some (false, s, "Goodbye!")
    | .UNKNOWN => some (true, s, "Invalid command.")

/-- One round of the session loop of `clientHandler` once the tokens are split and
    when `send` succeeds: `handleCommand`, the response with its newline, and the
    two tests `!continueRunning && tokens.get(0) == ...`, the second operand being
    evaluated only when the first holds. The flag tells whether the loop is left. -/
def clientHandlerRound (tokens : List String) (clientSock : Int) (s : TrackerState) :
    Option (Bool × TrackerState × String) := do
  let r ← handleCommand tokens clientSock s
  let continueRunning := r.1
  let response := r.2.2 ++ "\n"
  let isQuit ← if !continueRunning then (get tokens 0).map (fun t => decide (t = "quit"))
               else some false
  if isQuit then pure (true, r.2.1, response)
  else do
    let isShutdown ← if !continueRunning then
                       (get tokens 0).map (fun t => decide (t = "shutdown"))
                     else some false
    pure (isShutdown, r.2.1, response)

end Checked

/-- No two files of the list have both the same name and the same SHA-1. -/
def DistinctFiles (files : List File) : Prop :=
  files.Pairwise (fun f g => ¬ (f.fileName = g.fileName ∧ f.fileSha1 = g.fileSha1))

/-- In every group's file list, a file is singled out by its name and SHA-1. -/
def FilesKeyedByNameAndSha1 (s : TrackerState) : Prop :=
  ∀ gid files, mapFind s.groupFiles gid = some files → DistinctFiles files

end Tracker

/-! ## Peer: rarest-first ordering and the chunk downloader -/

namespace Client

def CHUNK_SIZE : Nat := 512 * 1024

structure PeerInfo where
  userId : String
  ip : String
  port : Int
  deriving DecidableEq, Repr

structure ChunkInfo where
  chunkIndex : Int
  /-- Number of peers who have this chunk -/
  availability : Int
  peersWithChunk : List PeerInfo
  /-- Expected SHA1 hash of the chunk -/
  expectedSha1 : String
  deriving DecidableEq, Repr

/-- What the stream extractions of one round of the plan-reading loop yield: the
    three fields of the chunk and, for `j = 0, 1, ...`, the holder read in round `j`
    of the inner loop. -/
structure ChunkFields where
  chunkIndex : Int
  availability : Int
  expectedSha1 : String
  peer : Nat → PeerInfo

/-- One round of the plan-reading loop of `trackerCommunication`: the inner loop
    `for (j = 0; j < chunk.availability; ++j)` adds one holder per round. -/
def readChunk (f : ChunkFields) : ChunkInfo :=
  { chunkIndex := f.chunkIndex
    availability := f.availability
    peersWithChunk := (List.range f.availability.toNat).map f.peer
    expectedSha1 := f.expectedSha1 }

/-- The `chunkInfoList` filled by the plan-reading loop. -/
def readPlan (fields : List ChunkFields) : List ChunkInfo :=
  fields.map readChunk

/-- The comparator passed to `chunkInfoList.sort`. -/
def rarestFirst (a b : ChunkInfo) : Bool :=
  decide (a.availability < b.availability)

/-- The `chunkInfoList` after `chunkInfoList.sort(...)`. -/
def sortPlan (plan : List ChunkInfo) : List ChunkInfo :=
  ArrayList.sort rarestFirst plan

abbrev Bytes := List UInt8

/-- An `int` result, wrapped to 32 bits. -/
def wrapInt32 (x : Int) : Int :=
  (x + 2147483648) % 4294967296 - 2147483648

/-- Conversion to `size_t`. -/
def toSizeT (x : Int) : Nat :=
  (x % 18446744073709551616).toNat

/-- The `expectedChunkSize` of `downloadChunk`: `CHUNK_SIZE`, and for the last chunk
    `downloadFileSize - (totalChunks - 1) * CHUNK_SIZE`, the product being an `int`. -/
def expectedChunkSize (chunkIndex totalChunks downloadFileSize : Int) : Nat :=
  if chunkIndex = wrapInt32 (totalChunks - 1) then
    toSizeT (downloadFileSize - wrapInt32 (wrapInt32 (totalChunks - 1) * CHUNK_SIZE))
  else CHUNK_SIZE

/-- The result of one `recv` call: `-1`, or the bytes delivered (none when the
    peer has closed the connection). -/
inductive RecvResult where
  | failed
  | data (bytes : Bytes)
  deriving DecidableEq, Repr

/-- What happens when one holder is tried: a step before receiving fails
    (`socket`, `inet_pton`, `connect`, `sendAll`), or the request is sent and the
    `recv` calls return the listed results (a list that ends stands for the peer
    closing the connection). -/
inductive Attempt where
  | socketFailed
  | invalidAddress
  | connectFailed
  | sendFailed
  | connected (recvs : List RecvResult)
  deriving DecidableEq, Repr

/-- The receive loop `while (totalBytesReceived < expectedChunkSize)`: the buffer
    filled so far and `errorOccurred`. A `recv` call delivers at most the bytes
    still missing. -/
def recvLoop (expectedChunkSize : Nat) : List RecvResult → Bytes → Bytes × Bool
  | [], buffer => (buffer, decide (buffer.length < expectedChunkSize))
  | r :: rest, buffer =>
    if buffer.length < expectedChunkSize then
      match r with
      | .failed => (buffer, true)
      | .data bytes =>
        if bytes.isEmpty then (buffer, true)
        else recvLoop expectedChunkSize rest
              (buffer ++ bytes.take (expectedChunkSize - buffer.length))
    else (buffer, false)

/-- One round of the loop over the holders: the verified chunk bytes, or `none`
    when the round ends in `continue`. -/
def fetchFrom (sha1 : Bytes → String) (expectedSha1 : String) (expectedChunkSize : Nat) :
    Attempt → Option Bytes
  | .connected recvs =>
    let r := recvLoop expectedChunkSize recvs []
    if r.2 || r.1.length != expectedChunkSize then none
    else if sha1 r.1 ≠ expectedSha1 then none
    else some r.1
  | _ => none

/-- The loop `for (i = 0; i < chunkInfo.peersWithChunk.size(); ++i)` from round `i`
    on: the bytes of the round that reached `break`, and the holders tried. -/
def tryHolders (sha1 : Bytes → String) (expectedSha1 : String) (expectedChunkSize : Nat)
    (attempt : Nat → Attempt) : Nat → List PeerInfo → Option Bytes × List PeerInfo
  | _, [] => (none, [])
  | i, peer :: rest =>
    match fetchFrom sha1 expectedSha1 expectedChunkSize (attempt i) with
    | some bytes => (some bytes, [peer])
    | none =>
      let r := tryHolders sha1 expectedSha1 expectedChunkSize attempt (i + 1) rest
      (r.1, peer :: r.2)

/-- The worker `downloadChunk` for the entry `listIndex` of `chunkInfoList`: the new
    `chunkData` map and the holders that were tried, in order. `attempt i` is what
    happens when holder `i` of the entry is tried. -/
def downloadChunk (sha1 : Bytes → String) (chunkInfoList : List ChunkInfo)
    (totalChunks downloadFileSize : Int) (attempt : Nat → Attempt) (listIndex : Nat)
    (chunkData : List (Int × Bytes)) : List (Int × Bytes) × List PeerInfo :=
  match chunkInfoList.get? listIndex with
  | none => (chunkData, [])
  | some chunkInfo =>
    let chunkIndex := chunkInfo.chunkIndex
    let expected := expectedChunkSize chunkIndex totalChunks downloadFileSize
    let r := tryHolders sha1 chunkInfo.expectedSha1 expected attempt 0 chunkInfo.peersWithChunk
    match r.1 with
    | some bytes => (mapInsert chunkIndex bytes chunkData, r.2)
    | none => (chunkData, r.2)

/-- The `chunkData` map once the workers for the plan entries `order` have finished,
    their updates of the map (made under `downloadMutex`) taking place in the order
    listed. `attempts l i` is what happens when worker `l` tries its holder `i`. -/
def runWorkers (sha1 : Bytes → String) (chunkInfoList : List ChunkInfo)
    (totalChunks downloadFileSize : Int) (attempts : Nat → Nat → Attempt)
    (order : List Nat) (chunkData : List (Int × Bytes)) : List (Int × Bytes) :=
  order.foldl
    (fun cd listIndex =>
      (downloadChunk sha1 chunkInfoList totalChunks downloadFileSize (attempts listIndex)
        listIndex cd).1)
    chunkData

/-- Every entry of the chunk map has the length expected for its index and the
    digest expected by a plan entry with that index. -/
def ChunkMapVerified (sha1 : Bytes → String) (chunkInfoList : List ChunkInfo)
    (totalChunks downloadFileSize : Int) (chunkData : List (Int × Bytes)) : Prop :=
  ∀ idx bytes, mapFind chunkData idx = some bytes →
    bytes.length = expectedChunkSize idx totalChunks downloadFileSize ∧
    ∃ c ∈ chunkInfoList, c.chunkIndex = idx ∧ sha1 bytes = c.expectedSha1

/-- Holder attempt `a` yields a verified response `bytes`: the request was sent, the
    receive loop gathered `bytes` without error, `bytes` has exactly the expected
    length and its SHA-1 is the expected digest. -/
def VerifiedResponse (sha1 : Bytes → String) (expectedSha1 : String) (expectedChunkSize : Nat)
    (a : Attempt) (bytes : Bytes) : Prop :=
  ∃ recvs, a = .connected recvs ∧ recvLoop expectedChunkSize recvs [] = (bytes, false) ∧
    bytes.length = expectedChunkSize ∧ sha1 bytes = expectedSha1

/-- A plan whose two chunks have one holder each. -/
def tiedPlan : List ChunkInfo :=
  readPlan
    [ { chunkIndex := 0, availability := 1, expectedSha1 := "d0",
        peer := fun _ => { userId := "a", ip := "127.0.0.1", port := 6001 } },
      { chunkIndex := 1, availability := 1, expectedSha1 := "d1",
        peer := fun _ => { userId := "a", ip := "127.0.0.1", port := 6001 } } ]

/-- A stand-in digest for concrete runs: the decimal length of the buffer. -/
def lengthDigest (bytes : Bytes) : String :=
  toString bytes.length

/-- A plan entry for chunk 0 with three holders, expecting a digest of "2". -/
def threeHolders : ChunkInfo :=
  { chunkIndex := 0, availability := 3, expectedSha1 := "2",
    peersWithChunk :=
      [ { userId := "a", ip := "127.0.0.1", port := 6001 },
        { userId := "b", ip := "127.0.0.1", port := 6002 },
        { userId := "c", ip := "127.0.0.1", port := 6003 } ] }

/-- Holder 0 refuses the connection, holder 1 delivers two bytes in two `recv`
    calls, holder 2 would deliver them at once. -/
def threeAttempts : Nat → Attempt
  | 0 => .connectFailed
  | 1 => .connected [.data [7], .data [9, 1]]
  | _ => .connected [.data [7, 9]]

/-! ### Peer chunk server, upload and reassembly -/

structure OwnedFileInfo where
  filePath : String
  fileSHA1 : String
  chunkSHA1s : List String
  totalChunks : Int
  deriving DecidableEq, Repr

/-- A regular file as the system calls of the peer see it: its bytes, and whether
    `open`, `lseek` and `read` on it fail. A path without a file is one on which
    `stat` fails. A `read` that does not fail delivers the bytes asked for, or
    those left before the end of the file. -/
structure DiskFile where
  content : Bytes
  openFails : Bool
  seekFails : Bool
  readFails : Bool
  deriving DecidableEq, Repr

/-- What the chunk server sends before it closes the connection: an error line, or
    the bytes read from the file. -/
inductive PeerResponse where
  | error (line : String)
  | chunk (bytes : Bytes)
  deriving DecidableEq, Repr

/-- The offset `static_cast<off_t>(chunkIndex) * CHUNK_SIZE` of the chunk server. -/
def chunkOffset (chunkIndex : Int) : Int :=
  chunkIndex * CHUNK_SIZE

/-- The loop `while (totalBytesRead < expectedChunkSize)` of the chunk server, for
    at most `fuel` rounds: the buffer filled and `readError`. `rest` is the file
    from the current position on. -/
def readLoop (readFails : Bool) (expectedChunkSize : Nat) : Nat → Bytes → Bytes → Bytes × Bool
  | 0, _, buffer => (buffer, false)
  | fuel + 1, rest, buffer =>
    if buffer.length < expectedChunkSize then
      if readFails then (buffer, true)
      else
        let got := rest.take (expectedChunkSize - buffer.length)
        if got.isEmpty then (buffer, false)
        else readLoop readFails expectedChunkSize fuel (rest.drop got.length) (buffer ++ got)
    else (buffer, false)

/-- The handling of one request `command fileName chunkIndex` by `peerServer`. The
    expected chunk size is computed as in `downloadChunk`, from the recorded
    `totalChunks` and the size `stat` reports. Every round of the read loop but the
    last delivers at least one byte, so `expectedChunkSize + 1` rounds are enough.
    An `lseek` to a negative offset fails. -/
def serveRequest (ownedFilesInfo : List (String × OwnedFileInfo))
    (disk : List (String × DiskFile)) (command fileName : String) (chunkIndex : Int) :
    PeerResponse :=
  if command = "get_chunk" then
    match mapFind ownedFilesInfo fileName with
    | none => .error "Error: File not found.\n"
    | some fileInfo =>
      match mapFind disk fileInfo.filePath with
      | none => .error "Error: Cannot get file size.\n"
      | some file =>
        let fileSize : Int := Int.ofNat file.content.length
        let offset := chunkOffset chunkIndex
        let expected := expectedChunkSize chunkIndex fileInfo.totalChunks fileSize
        if offset ≥ fileSize then .error "Error: Invalid chunk index.\n"
        else if file.openFails then .error "Error: Cannot open file.\n"
        else if offset < 0 ∨ file.seekFails = true then .error "Error: Cannot seek to chunk.\n"
        else
          let r := readLoop file.readFails expected (expected + 1)
            (file.content.drop offset.toNat) []
          if r.2 then .error "Error: Cannot read chunk.\n"
          else .chunk r.1
  else .error "Error: Invalid command.\n"

/-- The bytes of a response on the wire. -/
def wireBytes : PeerResponse → Bytes
  | .error line => line.data.map (fun c => c.toNat.toUInt8)
  | .chunk bytes => bytes

/-- What the downloader meets at a holder whose chunk server answers `response` and
    closes the connection. -/
def serverAttempt (response : PeerResponse) : Attempt :=
  .connected [.data (wireBytes response)]

/-- The base name of a path: what follows the last `/`. -/
def getBaseName (filePath : String) : String :=
  String.mk (filePath.data.reverse.takeWhile (fun c => c != '/')).reverse

/-- The loop `while ((bytesRead = read(fd, chunkBuffer, CHUNK_SIZE)) > 0)` of the
    upload, for at most `fuel` rounds: the chunks read, in order. -/
def readChunks : Nat → Bytes → List Bytes
  | 0, _ => []
  | fuel + 1, rest =>
    let got := rest.take CHUNK_SIZE
    if got.isEmpty then [] else got :: readChunks fuel (rest.drop CHUNK_SIZE)

/-- The chunk digests computed for `upload_file`. Every round of the loop but the
    last reads at least one byte, so as many rounds as the file has bytes, plus
    one, are enough. -/
def computeManifest (sha1 : Bytes → String) (content : Bytes) : List String :=
  (readChunks (content.length + 1) content).map sha1

/-- How the `upload_file` command of the peer ends: abandoned before anything is
    sent, the process left by `exit`, or the command sent to the tracker together
    with the record that is registered when the tracker answers with success. -/
inductive UploadResult where
  | notSent
  | exited
  | sent (uploadCommand : String) (ownedFile : OwnedFileInfo)
  deriving DecidableEq, Repr

/-- The case `UPLOAD_FILE` of `trackerCommunication` for `upload_file filePath
    groupId`, up to the sending of the command. -/
def uploadFile (sha1 : Bytes → String) (disk : List (String × DiskFile))
    (filePath groupId : String) : UploadResult :=
  match mapFind disk filePath with
  | none => .notSent
  | some file =>
    let fileSize := file.content.length
    if file.openFails then .notSent
    else if file.readFails then .exited
    else
      let fileSha1 := sha1 file.content
      if fileSha1.isEmpty then .notSent
      else
        let chunkSha1s := computeManifest sha1 file.content
        let uploadCommand :=
          chunkSha1s.foldl (fun acc sha => acc ++ (" " ++ sha))
            ("upload_file " ++ getBaseName filePath ++ " " ++ toString fileSize ++ " " ++
              fileSha1 ++ " " ++ groupId) ++ "\n"
        .sent uploadCommand
          { filePath := filePath, fileSHA1 := fileSha1, chunkSHA1s := chunkSha1s,
            totalChunks := Int.ofNat chunkSha1s.length }

/-- The assignment `ownedFilesInfo[getBaseName(filePath)] = ownedFile` made when the
    tracker answers the upload with success. -/
def registerOwnedFile (ownedFilesInfo : List (String × OwnedFileInfo)) (ownedFile : OwnedFileInfo) :
    List (String × OwnedFileInfo) :=
  mapInsert (getBaseName ownedFile.filePath) ownedFile ownedFilesInfo

/-- The chunk indices `0 .. totalChunks-1` visited by the reassembly loop. -/
def chunkIndices (totalChunks : Int) : List Int :=
  (List.range totalChunks.toNat).map Int.ofNat

/-- The loop `for (i = 0; i < totalChunks; ++i)` of the reassembly over the indices
    still to handle: the bytes written, the indices reported missing, and whether
    a `write` failed, which ends the loop. -/
def writeChunks (chunkData : List (Int × Bytes)) (writeFails : Int → Bool) :
    List Int → Bytes × List Int × Bool
  | [] => ([], [], false)
  | i :: rest =>
    match mapFind chunkData i with
    | some data =>
      if writeFails i then ([], [], true)
      else
        let r := writeChunks chunkData writeFails rest
        (data ++ r.1, r.2.1, r.2.2)
    | none =>
      let r := writeChunks chunkData writeFails rest
      (r.1, i :: r.2.1, r.2.2)

/-- The destination file after the reassembly, the chunk indices reported missing,
    whether a `write` failed, and the outcome of the final digest comparison. -/
structure Reassembled where
  content : Bytes
  missing : List Int
  writeFailed : Bool
  verified : Bool
  deriving DecidableEq, Repr

/-- The reassembly at the end of the case `DOWNLOAD_FILE`: nothing when the
    destination cannot be opened; else the file is truncated, the chunks are
    written and the digest of the file is compared with `downloadFileSha1`. -/
def reassemble (sha1 : Bytes → String) (downloadFileSha1 : String) (totalChunks : Int)
    (chunkData : List (Int × Bytes)) (openFails : Bool) (writeFails : Int → Bool) :
    Option Reassembled :=
  if openFails then none
  else
    let r := writeChunks chunkData writeFails (chunkIndices totalChunks)
    some { content := r.1, missing := r.2.1, writeFailed := r.2.2,
           verified := decide (sha1 r.1 = downloadFileSha1) }

/-- The length the chunk-size law gives chunk `i` of a file of `size` bytes in
    `totalChunks` chunks. -/
def lawLength (size totalChunks i : Nat) : Nat :=
  if i < totalChunks - 1 then 524288 else size - (totalChunks - 1) * 524288

/-- The number of chunks of a file of `size` bytes: `size / 524288`, rounded up. -/
def chunkCount (size : Nat) : Nat :=
  (size + 524287) / 524288

/-- The response is an error line, one that starts with `Error: `. -/
def PeerResponse.isErrorLine : PeerResponse → Bool
  | .error line => "Error: ".data.isPrefixOf line.data
  | .chunk _ => false

/-- The registry of a peer that uploaded `/tmp/f.bin` when it had two chunks. -/
def twoChunkRegistry : List (String × OwnedFileInfo) :=
  [ ("f.bin", { filePath := "/tmp/f.bin", fileSHA1 := "s", chunkSHA1s := ["c0", "c1"],
                totalChunks := 2 }) ]

/-- The file `/tmp/f.bin` cut down to three bytes. -/
def truncatedDisk : List (String × DiskFile) :=
  [ ("/tmp/f.bin", { content := [1, 2, 3], openFails := false, seekFails := false,
                     readFails := false }) ]

/-- The registry of a peer that uploaded `/tmp/f.bin` when it had one chunk. -/
def oneChunkRegistry : List (String × OwnedFileInfo) :=
  [ ("f.bin", { filePath := "/tmp/f.bin", fileSHA1 := "s", chunkSHA1s := ["c0"],
                totalChunks := 1 }) ]

/-- The file `/tmp/f.bin` grown to 524289 bytes. -/
def grownDisk : List (String × DiskFile) :=
  [ ("/tmp/f.bin", { content := List.replicate 524289 0, openFails := false,
                     seekFails := false, readFails := false }) ]

/-- A file `/tmp/f.bin` of 2147483649 bytes, one more than `2^31`. -/
def bigDisk : List (String × DiskFile) :=
  [ ("/tmp/f.bin", { content := List.replicate 2147483649 0, openFails := false,
                     seekFails := false, readFails := false }) ]

/-! ### The parse of the `download_file` response -/

/-- The characters a stream extraction skips and stops at: those `std::isspace`
    accepts in the "C" locale. -/
def isSpace (c : Char) : Bool :=
  c.toNat = 32 || (9 ≤ c.toNat && c.toNat ≤ 13)

/-- An `istringstream` being read: the characters not read yet and `failbit`. -/
structure IStream where
  rest : List Char
  failed : Bool
  deriving DecidableEq, Repr

/-- The extraction `stream >> str` into a `std::string`: the blanks in front are
    skipped and the characters up to the next blank are read. On a stream that has
    failed nothing is done; on a stream that ends before a character is read the
    stream fails and the string keeps its value. -/
def extractString (st : IStream) (old : String) : String × IStream :=
  if st.failed then (old, st)
  else
    let cs := st.rest.dropWhile isSpace
    if cs.isEmpty then (old, { rest := [], failed := true })
    else
      (String.mk (cs.takeWhile (fun c => !isSpace c)),
       { rest := cs.dropWhile (fun c => !isSpace c), failed := false })

/-- The value of a string of decimal digits. -/
def decimalValue (digits : List Char) : Int :=
  digits.foldl (fun acc c => acc * 10 + ((c.toNat : Int) - 48)) 0

/-- The extraction `stream >> n` into a signed integer with the range `lo .. hi`
    (`int` or `long`): the blanks in front are skipped, then an optional sign and
    the decimal digits are read. On a stream that has failed nothing is done; on a
    stream that ends before a character is read the stream fails and the variable
    keeps its value. Without a digit the value becomes 0, with a value out of range
    it becomes the nearest bound, and in both cases the stream fails. -/
def extractInt (lo hi : Int) (st : IStream) (old : Int) : Int × IStream :=
  if st.failed then (old, st)
  else
    let cs := st.rest.dropWhile isSpace
    if cs.isEmpty then (old, { rest := [], failed := true })
    else
      let signed : Bool × List Char :=
        match cs with
        | '-' :: r => (true, r)
        | '+' :: r => (false, r)
        | r => (false, r)
      let digits := signed.2.takeWhile Char.isDigit
      let after := signed.2.dropWhile Char.isDigit
      if digits.isEmpty then (0, { rest := after, failed := true })
      else
        let v : Int := if signed.1 then -decimalValue digits else decimalValue digits
        if v < lo then (lo, { rest := after, failed := true })
        else if hi < v then (hi, { rest := after, failed := true })
        else (v, { rest := after, failed := false })

/-- The extraction into an `int`. -/
def extractInt32 (st : IStream) (old : Int) : Int × IStream :=
  extractInt (-2147483648) 2147483647 st old

/-- The extraction into a `long`. -/
def extractInt64 (st : IStream) (old : Int) : Int × IStream :=
  extractInt (-9223372036854775808) 9223372036854775807 st old

/-- The loop `for (j = 0; j < chunk.availability; ++j)` of the parse, for the rounds
    left: each round reads a fresh `PeerInfo`, whose `port` holds `uninit` before
    the extraction. -/
def readPeers (uninit : Int) : Nat → IStream → List PeerInfo × IStream
  | 0, st => ([], st)
  | rounds + 1, st =>
    let userId := extractString st ""
    let ip := extractString userId.2 ""
    let port := extractInt32 ip.2 uninit
    let r := readPeers uninit rounds port.2
    ({ userId := userId.1, ip := ip.1, port := port.1 } :: r.1, r.2)

/-- The loop `for (i = 0; i < totalChunks; ++i)` of the parse, for the rounds left:
    each round reads a fresh `ChunkInfo`, whose two `int` members hold `uninit`
    before the extraction. -/
def readChunkInfos (uninit : Int) : Nat → IStream → List ChunkInfo × IStream
  | 0, st => ([], st)
  | rounds + 1, st =>
    let chunkIndex := extractInt32 st uninit
    let availability := extractInt32 chunkIndex.2 uninit
    let expectedSha1 := extractString availability.2 ""
    let peers := readPeers uninit availability.1.toNat expectedSha1.2
    let r := readChunkInfos uninit rounds peers.2
    ({ chunkIndex := chunkIndex.1, availability := availability.1,
       peersWithChunk := peers.1, expectedSha1 := expectedSha1.1 } :: r.1, r.2)

/-- The variables the parse of the plan fills: the globals `downloadFileSize`,
    `totalChunks`, `downloadFileSha1` and `chunkInfoList`, and the local `chunkSize`. -/
structure DownloadVars where
  downloadFileSize : Int
  totalChunks : Int
  chunkSize : Int
  downloadFileSha1 : String
  chunkInfoList : List ChunkInfo
  deriving DecidableEq, Repr

/-- What `trackerCommunication` does with the response to `download_file`: it stops
    at a response that begins with `Error:`, or at a first word other than
    `download_info`, or reads the plan. -/
inductive ParseResult where
  | errorLine
  | invalidResponse
  | plan (vars : DownloadVars)
  deriving DecidableEq, Repr

/-- The parse of the string `responseStr` in `trackerCommunication`, lines 860 to
    892: `responseStr` is the string built from the buffer of the one `recv` in
    front of the parse, see `receiveDownloadInfo` below. `before` holds the values
    of the globals before the parse, `uninit` the value of an `int` that has not
    been written. -/
def parseDownloadInfo (before : DownloadVars) (uninit : Int) (responseStr : String) :
    ParseResult :=
  if "Error:".data.isPrefixOf responseStr.data then .errorLine
  else
    let infoTag := extractString { rest := responseStr.data, failed := false } ""
    if infoTag.1 ≠ "download_info" then .invalidResponse
    else
      let downloadFileSize := extractInt64 infoTag.2 before.downloadFileSize
      let totalChunks := extractInt32 downloadFileSize.2 before.totalChunks
      let chunkSize := extractInt32 totalChunks.2 uninit
      let downloadFileSha1 := extractString chunkSize.2 before.downloadFileSha1
      let chunks := readChunkInfos uninit totalChunks.1.toNat downloadFileSha1.2
      .plan { downloadFileSize := downloadFileSize.1
              totalChunks := totalChunks.1
              chunkSize := chunkSize.1
              downloadFileSha1 := downloadFileSha1.1
              chunkInfoList := chunks.1 }

/-- The globals of a peer that has not downloaded anything yet. -/
def freshVars : DownloadVars :=
  { downloadFileSize := 0, totalChunks := 0, chunkSize := 0, downloadFileSha1 := "",
    chunkInfoList := [] }

/-- The macro `BUFFER_SIZE` of the peer. -/
def BUFFER_SIZE : Nat := 4096

/-- The bytes that `recv(trackerSocket, buffer, BUFFER_SIZE - 1, 0)` copies into
    `buffer`: of the bytes `pending` that the tracker has sent on the connection
    and the peer has not read yet, the first `arrived`, those that have reached the
    peer when the call returns, and never more than `BUFFER_SIZE - 1`. Their number
    is the value `readSize` of the call. A character stands for one `char`. -/
def recvBuffer (pending : List Char) (arrived : Nat) : List Char :=
  pending.take (min arrived (BUFFER_SIZE - 1))

/-- The string built by `buffer[readSize] = '\0'; string responseStr(buffer);`: the
    bytes received that stand in front of the first NUL. -/
def responseString (buffer : List Char) : String :=
  String.mk (buffer.takeWhile (fun c => c.toNat != 0))

/-- The round of `download_file` in `trackerCommunication` from the `recv` on, when
    the tracker has sent `pending` and `arrived` bytes of it have reached the peer:
    with `readSize > 0` the string `responseStr` is built from the buffer and
    parsed, otherwise nothing is parsed. -/
def receiveDownloadInfo (before : DownloadVars) (uninit : Int) (pending : String)
    (arrived : Nat) : Option ParseResult :=
  let buffer := recvBuffer pending.data arrived
  if buffer.length = 0 then none
  else some (parseDownloadInfo before uninit (responseString buffer))

end Client

/-! ## Properties of the map operations -/

section MapLemmas

variable {K V : Type} [DecidableEq K] [KeyOrder K]

theorem mapFind_mapInsert_self (k : K) (v : V) (m : List (K × V)) :
    mapFind (mapInsert k v m) k = some v := by
  induction m with
  | nil => simp [mapInsert, mapFind]
  | cons p rest ih =>
    obtain ⟨k', v'⟩ := p
    simp only [mapInsert]
    split
    · simp [mapFind]
    · split
      · simp [mapFind]
      · rename_i hne _
        simp [mapFind, hne, ih]

theorem mapFind_mapInsert_ne (k k' : K) (v : V) (m : List (K × V)) (h : k' ≠ k) :
    mapFind (mapInsert k v m) k' = mapFind m k' := by
  induction m with
  | nil => simp [mapInsert, mapFind, h]
  | cons p rest ih =>
    obtain ⟨k'', v''⟩ := p
    simp only [mapInsert]
    split
    · rename_i heq
      subst heq
      simp [mapFind, h]
    · split
      · simp [mapFind, h]
      · simp only [mapFind, ih]

theorem mapFind_mapInsert (k k' : K) (v : V) (m : List (K × V)) :
    mapFind (mapInsert k v m) k' = if k' = k then some v else mapFind m k' := by
  by_cases h : k' = k
  · subst h; simp [mapFind_mapInsert_self]
  · simp [h, mapFind_mapInsert_ne]

omit [KeyOrder K] in
theorem mapFind_mapErase (k k' : K) (m : List (K × V)) :
    mapFind (mapErase k m) k' = if k' = k then none else mapFind m k' := by
  induction m with
  | nil => simp [mapErase, mapFind]
  | cons p rest ih =>
    obtain ⟨k'', v''⟩ := p
    unfold mapErase at ih ⊢
    by_cases h1 : k'' = k
    · subst h1
      simp only [List.filter, ne_eq, not_true_eq_false, decide_False]
      rw [ih]
      by_cases h2 : k' = k'' <;> simp [mapFind, h2]
    · simp only [List.filter, ne_eq, h1, not_false_eq_true, decide_True, mapFind]
      rw [ih]
      by_cases h2 : k' = k''
      · subst h2; simp [h1]
      · simp [h2]

/-- Reading through `operator[]` keeps every entry that was there. -/
theorem mapIndex_keeps (m : List (K × V)) (k : K) (dflt : V) (k' : K) (v : V)
    (h : mapFind m k' = some v) : mapFind (mapIndex m k dflt).2 k' = some v := by
  unfold mapIndex
  split
  · exact h
  · rename_i hnone
    have hne : k' ≠ k := by
      intro heq; subst heq; rw [hnone] at h; exact absurd h (by simp)
    simp [mapFind_mapInsert_ne _ _ _ _ hne, h]

/-- Reading through `operator[]` returns the stored value when there is one. -/
theorem mapIndex_value (m : List (K × V)) (k : K) (dflt : V) (v : V)
    (h : mapFind m k = some v) : (mapIndex m k dflt).1 = v := by
  simp [mapIndex, h]

end MapLemmas

/-! ## Properties of `ArrayList::sort` -/

namespace ArrayList

theorem sortInner_perm {α : Type} (compare : α → α → Bool) :
    ∀ (n : Nat) (l : List α), (sortInner compare n l).Perm l := by
  intro n
  induction n with
  | zero => intro l; simp [sortInner]
  | succ n ih =>
    intro l
    match l with
    | [] => simp [sortInner]
    | [a] => simp [sortInner]
    | a :: b :: rest =>
      simp only [sortInner]
      split
      · exact (ih (b :: rest)).cons a
      · exact ((ih (a :: rest)).cons b).trans (List.Perm.swap a b rest)

theorem sortInner_append {α : Type} (compare : α → α → Bool) :
    ∀ (n : Nat) (front back : List α), n + 1 ≤ front.length →
      sortInner compare n (front ++ back) = sortInner compare n front ++ back := by
  intro n
  induction n with
  | zero => intro front back _; simp [sortInner]
  | succ n ih =>
    intro front back h
    match front, h with
    | a :: b :: rest, h =>
      have h' : n + 1 ≤ (b :: rest).length := by simp at h ⊢; omega
      have h'' : n + 1 ≤ (a :: rest).length := by simp at h ⊢; omega
      have e1 := ih (b :: rest) back h'
      have e2 := ih (a :: rest) back h''
      simp only [List.cons_append] at e1 e2
      simp only [List.cons_append, sortInner]
      split
      · exact congrArg (List.cons a) e1
      · exact congrArg (List.cons b) e2

/-- One pass over `n + 1` entries leaves an entry with the largest key last. -/
theorem sortInner_max_last {α : Type} (compare : α → α → Bool) (key : α → Int)
    (hc : ∀ a b, compare a b = decide (key a < key b)) :
    ∀ (n : Nat) (l : List α), l.length = n + 1 →
      ∃ front m, sortInner compare n l = front ++ [m] ∧ ∀ x ∈ front, key x ≤ key m := by
  intro n
  induction n with
  | zero =>
    intro l h
    match l, h with
    | [a], _ => exact ⟨[], a, by simp [sortInner], by simp⟩
  | succ n ih =>
    intro l h
    match l, h with
    | a :: b :: rest, h =>
      have hlen : ∀ x : α, (x :: rest).length = n + 1 := by
        intro x; simp at h ⊢; omega
      simp only [sortInner]
      by_cases hab : compare a b = true
      · obtain ⟨front, m, heq, hmax⟩ := ih (b :: rest) (hlen b)
        have hb : b ∈ front ++ [m] := by
          rw [← heq]; exact (sortInner_perm compare n (b :: rest)).mem_iff.mpr (by simp)
        have hbm : key b ≤ key m := by
          rcases List.mem_append.mp hb with hb | hb
          · exact hmax b hb
          · simp at hb; rw [hb]
        have hlt : key a < key b := by rw [hc] at hab; simpa using hab
        refine ⟨a :: front, m, by simp [hab, heq], ?_⟩
        intro x hx
        rcases List.mem_cons.mp hx with hx | hx
        · rw [hx]; omega
        · exact hmax x hx
      · obtain ⟨front, m, heq, hmax⟩ := ih (a :: rest) (hlen a)
        have ha : a ∈ front ++ [m] := by
          rw [← heq]; exact (sortInner_perm compare n (a :: rest)).mem_iff.mpr (by simp)
        have ham : key a ≤ key m := by
          rcases List.mem_append.mp ha with ha | ha
          · exact hmax a ha
          · simp at ha; rw [ha]
        have hge : key b ≤ key a := by rw [hc] at hab; simpa using hab
        refine ⟨b :: front, m, by simp [hab, heq], ?_⟩
        intro x hx
        rcases List.mem_cons.mp hx with hx | hx
        · rw [hx]; omega
        · exact hmax x hx

/-- The list after the first `k` passes of `sort` on a list of `count` entries. -/
theorem sort_passes_perm {α : Type} (compare : α → α → Bool) (count : Nat) :
    ∀ (k : Nat) (l : List α),
      ((List.range k).foldl (fun acc i => sortInner compare (count - i - 1) acc) l).Perm l := by
  intro k
  induction k with
  | zero => intro l; simp
  | succ k ih =>
    intro l
    rw [List.range_succ, List.foldl_append]
    exact (sortInner_perm compare _ _).trans (ih l)

/-- After `k` passes the last `k` entries are in order and no smaller than the rest. -/
theorem sort_passes_invariant {α : Type} (compare : α → α → Bool) (key : α → Int)
    (hc : ∀ a b, compare a b = decide (key a < key b)) (l : List α) :
    ∀ k : Nat, k + 1 ≤ l.length →
      ∃ front back,
        (List.range k).foldl (fun acc i => sortInner compare (l.length - i - 1) acc) l
          = front ++ back ∧
        front.length = l.length - k ∧
        back.Pairwise (fun a b => key a ≤ key b) ∧
        ∀ a ∈ front, ∀ b ∈ back, key a ≤ key b := by
  intro k
  induction k with
  | zero => intro _; exact ⟨l, [], by simp, by simp, by simp, by simp⟩
  | succ k ih =>
    intro hk
    obtain ⟨front, back, heq, hlen, hsorted, hle⟩ := ih (by omega)
    rw [List.range_succ, List.foldl_append, heq]
    simp only [List.foldl_cons, List.foldl_nil]
    have hfl : front.length = (l.length - k - 1) + 1 := by omega
    rw [sortInner_append compare _ front back (by omega)]
    obtain ⟨front', m, heq', hmax⟩ := sortInner_max_last compare key hc _ front hfl
    have hperm : (front' ++ [m]).Perm front := by
      rw [← heq']; exact sortInner_perm compare _ front
    have hm : m ∈ front := hperm.mem_iff.mp (by simp)
    refine ⟨front', m :: back, by rw [heq']; simp, ?_, ?_, ?_⟩
    · have := hperm.length_eq
      simp at this
      omega
    · exact List.pairwise_cons.mpr ⟨fun b hb => hle m hm b hb, hsorted⟩
    · intro a ha b hb
      rcases List.mem_cons.mp hb with hb | hb
      · rw [hb]; exact hmax a ha
      · exact hle a (hperm.mem_iff.mp (by simp [ha])) b hb

theorem sort_perm {α : Type} (compare : α → α → Bool) (l : List α) :
    (sort compare l).Perm l :=
  sort_passes_perm compare l.length (l.length - 1) l

theorem sort_sorted {α : Type} (compare : α → α → Bool) (key : α → Int)
    (hc : ∀ a b, compare a b = decide (key a < key b)) (l : List α) :
    (sort compare l).Pairwise (fun a b => key a ≤ key b) := by
  match l with
  | [] => simp [sort]
  | a :: rest =>
    obtain ⟨front, back, heq, hlen, hsorted, hle⟩ :=
      sort_passes_invariant compare key hc (a :: rest) ((a :: rest).length - 1)
        (by simp)
    unfold sort
    rw [heq]
    exact List.pairwise_append.mpr
      ⟨by
        match front, hlen with
        | [x], _ => simp
        | [], h => simp at h
        | _ :: _ :: _, h => simp at h,
       hsorted, hle⟩

end ArrayList

/-! ## The tracker tables -/

namespace ArrayList

theorem mem_removeAt_of_ne {α : Type} [DecidableEq α] (x y : α) :
    ∀ (l : List α) (i : Nat), x ∈ l → x ≠ y → indexOfFirst l y = some i →
      x ∈ removeAt l i := by
  intro l
  induction l with
  | nil => intro i h; simp at h
  | cons a rest ih =>
    intro i hx hne hidx
    simp only [indexOfFirst] at hidx
    split at hidx
    · rename_i hay
      injection hidx with hi
      subst hi
      simp only [removeAt]
      rcases List.mem_cons.mp hx with h | h
      · exact absurd (h.trans hay) hne
      · exact h
    · cases hrest : indexOfFirst rest y with
      | none => rw [hrest] at hidx; simp at hidx
      | some j =>
        rw [hrest] at hidx
        simp at hidx
        subst hidx
        simp only [removeAt]
        rcases List.mem_cons.mp hx with h | h
        · exact List.mem_cons.mpr (Or.inl h)
        · exact List.mem_cons.mpr (Or.inr (ih j h hne hrest))

end ArrayList

namespace Tracker

theorem run_cons (s : TrackerState) (e : Event) (events : List Event) :
    run s (e :: events) = run (step s e) events := rfl

theorem run_snoc (s : TrackerState) (e : Event) (events : List Event) :
    run s (events ++ [e]) = step (run s events) e := by
  simp [run, List.foldl_append]

/-- A property of the tables that holds at the start and is kept by every event
    holds after every run. -/
theorem run_invariant (P : TrackerState → Prop)
    (hstep : ∀ s e, P s → P (step s e)) :
    ∀ (events : List Event) (s : TrackerState), P s → P (run s events) := by
  intro events
  induction events with
  | nil => intro s h; exact h
  | cons e rest ih => intro s h; exact ih (step s e) (hstep s e h)

/-- Writing a group that satisfies `P` under some key keeps `P` for every group. -/
theorem groups_insert_keeps (P : Group → Prop) (groups : List (String × Group))
    (gid : String) (g' : Group) (hg : P g')
    (h : ∀ k g, mapFind groups k = some g → P g) :
    ∀ k g, mapFind (mapInsert gid g' groups) k = some g → P g := by
  intro k g hk
  rw [mapFind_mapInsert] at hk
  split at hk
  · injection hk with hk; rw [← hk]; exact hg
  · exact h k g hk

theorem handleCreateUser_groups (tokens : List String) (sock : Int) (s : TrackerState) :
    (handleCreateUser tokens sock s).1.groups = s.groups := by
  unfold handleCreateUser
  repeat' split
  all_goals rfl

theorem handleLogin_groups (tokens : List String) (sock : Int) (s : TrackerState) :
    (handleLogin tokens sock s).1.groups = s.groups := by
  unfold handleLogin
  repeat' split
  all_goals rfl

theorem handleListGroups_state (tokens : List String) (sock : Int) (s : TrackerState) :
    (handleListGroups tokens sock s).1 = s := by
  unfold handleListGroups
  repeat' split
  all_goals rfl

theorem handleListRequests_state (tokens : List String) (sock : Int) (s : TrackerState) :
    (handleListRequests tokens sock s).1 = s := by
  unfold handleListRequests
  repeat' split
  all_goals rfl

theorem handleListFiles_state (tokens : List String) (sock : Int) (s : TrackerState) :
    (handleListFiles tokens sock s).1 = s := by
  unfold handleListFiles
  repeat' split
  all_goals rfl

theorem handleUploadFile_groups (tokens : List String) (sock : Int) (s : TrackerState) :
    (handleUploadFile tokens sock s).1.groups = s.groups := by
  unfold handleUploadFile
  repeat' split
  all_goals first | rfl | (dsimp only; repeat' split) <;> rfl

theorem handleDownloadFile_groups (tokens : List String) (sock : Int) (s : TrackerState) :
    (handleDownloadFile tokens sock s).1.groups = s.groups := by
  unfold handleDownloadFile downloadFileCore
  repeat' split
  all_goals rfl

theorem ownerIsMember_of_groups_eq (s s' : TrackerState) (heq : s'.groups = s.groups)
    (h : OwnerIsMember s) : OwnerIsMember s' := by
  intro gid g hg
  rw [heq] at hg
  exact h gid g hg

theorem handleCreateGroup_owner (tokens : List String) (sock : Int) (s : TrackerState)
    (h : OwnerIsMember s) : OwnerIsMember (handleCreateGroup tokens sock s).1 := by
  unfold handleCreateGroup
  repeat' split
  all_goals first
    | exact h
    | exact groups_insert_keeps (fun g => g.ownerId ∈ g.members) s.groups _ _ (by simp) h

theorem handleJoinGroup_owner (tokens : List String) (sock : Int) (s : TrackerState)
    (h : OwnerIsMember s) : OwnerIsMember (handleJoinGroup tokens sock s).1 := by
  unfold handleJoinGroup
  repeat' split
  all_goals first
    | exact h
    | (rename_i group hgroup _ _ _ _ _
       exact groups_insert_keeps (fun g => g.ownerId ∈ g.members) s.groups _ _
         (h _ group hgroup) h)

theorem handleAcceptRequest_owner (tokens : List String) (sock : Int) (s : TrackerState)
    (h : OwnerIsMember s) : OwnerIsMember (handleAcceptRequest tokens sock s).1 := by
  unfold handleAcceptRequest
  repeat' split
  all_goals first
    | exact h
    | (rename_i group hgroup _ _ _ _ _ _ _
       exact groups_insert_keeps (fun g => g.ownerId ∈ g.members) s.groups _ _
         (List.mem_append.mpr (Or.inl (h _ group hgroup))) h)

theorem handleLeaveGroup_owner (tokens : List String) (sock : Int) (s : TrackerState)
    (h : OwnerIsMember s)
    (hno : ∀ t gid g uid, tokens = [t, gid] → mapFind s.groups gid = some g →
      mapFind s.clientUserMap sock = some uid → g.ownerId ≠ uid) :
    OwnerIsMember (handleLeaveGroup tokens sock s).1 := by
  unfold handleLeaveGroup
  repeat' split
  all_goals first
    | exact h
    | (rename_i t gid _ group hgroup _ uid huid _ i hidx
       exact groups_insert_keeps (fun g => g.ownerId ∈ g.members) s.groups _ _
         (ArrayList.mem_removeAt_of_ne _ _ _ _ (h _ group hgroup)
           (hno t gid group uid rfl hgroup huid) hidx) h)

theorem sessionCleanup_groups (sock : Int) (s : TrackerState) :
    (sessionCleanup sock s).groups = s.groups := by
  unfold sessionCleanup
  repeat' split
  all_goals rfl

end Tracker

namespace Tracker

/-- Every event other than a `leave_group` by the group's owner keeps the owner of
    every group among its members. -/
theorem step_keeps_owner (s : TrackerState) (e : Event) (h : OwnerIsMember s)
    (hno : ownerLeaves s e = false) : OwnerIsMember (step s e) := by
  cases e with
  | disconnect sock =>
    exact ownerIsMember_of_groups_eq s _ (sessionCleanup_groups sock s) h
  | command tokens sock =>
    simp only [step, handleCommand]
    split
    · exact h
    · rename_i commandStr rest
      split
      · exact ownerIsMember_of_groups_eq s _ (handleCreateUser_groups _ sock s) h
      · exact ownerIsMember_of_groups_eq s _ (handleLogin_groups _ sock s) h
      · exact handleCreateGroup_owner _ sock s h
      · exact handleJoinGroup_owner _ sock s h
      · rename_i hcmd
        refine handleLeaveGroup_owner _ sock s h ?_
        intro t gid g uid htok hg hu
        injection htok with h1 h2
        subst h1 h2
        intro hown
        simp [ownerLeaves, hcmd, hg, hu, hown] at hno
      · exact ownerIsMember_of_groups_eq s _
          (congrArg TrackerState.groups (handleListGroups_state (commandStr :: rest) sock s)) h
      · exact ownerIsMember_of_groups_eq s _
          (congrArg TrackerState.groups (handleListRequests_state (commandStr :: rest) sock s)) h
      · exact handleAcceptRequest_owner _ sock s h
      · exact ownerIsMember_of_groups_eq s _
          (congrArg TrackerState.groups (handleListFiles_state (commandStr :: rest) sock s)) h
      · exact ownerIsMember_of_groups_eq s _ (handleUploadFile_groups _ sock s) h
      · exact ownerIsMember_of_groups_eq s _ (handleDownloadFile_groups _ sock s) h
      · exact ownerIsMember_of_groups_eq s _ rfl h
      · exact h
      · exact h

theorem run_keeps_owner :
    ∀ (events : List Event) (s : TrackerState), OwnerIsMember s →
      noOwnerLeave s events = true → OwnerIsMember (run s events) := by
  intro events
  induction events with
  | nil => intro s h _; exact h
  | cons e rest ih =>
    intro s h hno
    simp only [noOwnerLeave, Bool.and_eq_true, Bool.not_eq_true'] at hno
    exact ih (step s e) (step_keeps_owner s e h hno.1) hno.2

/-- C4 (counterexample): after user `a` creates group `g` and sends `leave_group g`,
    the group still has owner `a` and its member list is empty. -/
theorem owner_not_member_after_leave :
    mapFind (run init ownerLeft).groups "g"
      = some { groupId := "g", ownerId := "a", members := [], pendingRequests := [] } := by
  decide

/-- C4 (amended): in every tracker state reached by a sequence of commands and
    disconnects in which no group owner sends `leave_group` for a group they own,
    the owner of every group is an element of its member list. -/
theorem owner_is_member_unless_owner_leaves (events : List Event)
    (hno : noOwnerLeave init events = true) : OwnerIsMember (run init events) :=
  run_keeps_owner events init (by intro gid g hg; simp [init, mapFind] at hg) hno

/-- Witness for C4 (amended): the run `twoMembers` has no `leave_group` by an owner,
    and the owner of every group is among its members afterwards. -/
theorem owner_is_member_unless_owner_leaves_witness :
    noOwnerLeave init twoMembers = true ∧ OwnerIsMember (run init twoMembers) :=
  ⟨by decide, owner_is_member_unless_owner_leaves twoMembers (by decide)⟩

end Tracker

namespace Tracker

theorem emitPeers_spec :
    ∀ (ps : List String) (m : List (String × (String × Int))),
      (emitPeers ps m).1.map PeerEntry.userId = ps ∧
      (∀ k v, mapFind m k = some v → mapFind (emitPeers ps m).2 k = some v) ∧
      (∀ p ∈ (emitPeers ps m).1, ∀ v, mapFind m p.userId = some v → (p.ip, p.port) = v) := by
  intro ps
  induction ps with
  | nil => intro m; simp [emitPeers]
  | cons peer rest ih =>
    intro m
    obtain ⟨ih1, ih2, ih3⟩ := ih (mapIndex m peer ("", 0)).2
    simp only [emitPeers]
    refine ⟨by simp [ih1], ?_, ?_⟩
    · intro k v hk
      exact ih2 k v (mapIndex_keeps m peer ("", 0) k v hk)
    · intro p hp v hv
      rcases List.mem_cons.mp hp with hp | hp
      · subst hp
        simp only at hv ⊢
        rw [mapIndex_value m peer ("", 0) v hv]
      · exact ih3 p hp v (mapIndex_keeps m peer ("", 0) p.userId v hv)

theorem emitChunks_spec (userChunks : List (String × List Int)) :
    ∀ (shas : List String) (i : Nat) (m : List (String × (String × Int))),
      (emitChunks userChunks i shas m).1.map ChunkEntry.chunkIndex
        = List.range' i shas.length ∧
      (∀ k v, mapFind m k = some v → mapFind (emitChunks userChunks i shas m).2 k = some v) ∧
      (∀ entry ∈ (emitChunks userChunks i shas m).1,
        entry.peers.map PeerEntry.userId = peersWithChunk userChunks entry.chunkIndex ∧
        ∀ p ∈ entry.peers, ∀ v, mapFind m p.userId = some v → (p.ip, p.port) = v) := by
  intro shas
  induction shas with
  | nil => intro i m; simp [emitChunks]
  | cons sha rest ih =>
    intro i m
    obtain ⟨p1, p2, p3⟩ := emitPeers_spec (peersWithChunk userChunks i) m
    obtain ⟨ih1, ih2, ih3⟩ := ih (i + 1) (emitPeers (peersWithChunk userChunks i) m).2
    simp only [emitChunks]
    refine ⟨by simp [ih1, List.range'], ?_, ?_⟩
    · intro k v hk
      exact ih2 k v (p2 k v hk)
    · intro entry hentry
      rcases List.mem_cons.mp hentry with he | he
      · subst he
        exact ⟨p1, p3⟩
      · obtain ⟨e1, e2⟩ := ih3 entry he
        exact ⟨e1, fun p hp v hv => e2 p hp v (p2 p.userId v hv)⟩

theorem mem_peersWithChunk (userChunks : List (String × List Int)) (i : Nat) (uid : String) :
    uid ∈ peersWithChunk userChunks i ↔
      ∃ owned, (uid, owned) ∈ userChunks ∧ Int.ofNat i ∈ owned := by
  simp only [peersWithChunk, List.mem_map, List.mem_filter]
  constructor
  · rintro ⟨⟨u, owned⟩, ⟨hmem, hown⟩, rfl⟩
    exact ⟨owned, hmem, List.elem_iff.mp hown⟩
  · rintro ⟨owned, hmem, hown⟩
    exact ⟨(uid, owned), ⟨hmem, List.elem_iff.mpr hown⟩, rfl⟩

theorem loginEndpoint_of_eq (s s' : TrackerState) (hu : s'.users = s.users)
    (hm : s'.userIpPortMap = s.userIpPortMap) (h : LoginEndpointInv s) :
    LoginEndpointInv s' := by
  intro uid u hfind hl
  rw [hu] at hfind
  rw [hm]
  exact h uid u hfind hl

theorem handleCreateUser_endpoint (tokens : List String) (sock : Int) (s : TrackerState)
    (h : LoginEndpointInv s) : LoginEndpointInv (handleCreateUser tokens sock s).1 := by
  unfold handleCreateUser
  repeat' split
  all_goals first
    | exact h
    | (intro uid u hfind hl
       simp only [mapFind_mapInsert] at hfind
       split at hfind
       · injection hfind with hfind
         rw [← hfind] at hl
         simp at hl
       · exact h uid u hfind hl)

theorem handleLogin_endpoint (tokens : List String) (sock : Int) (s : TrackerState)
    (h : LoginEndpointInv s) : LoginEndpointInv (handleLogin tokens sock s).1 := by
  unfold handleLogin
  repeat' split
  all_goals first
    | exact h
    | (intro uid u hfind hl
       simp only [mapFind_mapInsert] at hfind ⊢
       split at hfind
       · injection hfind with hfind
         rename_i huid
         simp [huid, ← hfind]
       · rename_i huid
         simp only [huid, if_false]
         exact h uid u hfind hl)

theorem sessionCleanup_endpoint (sock : Int) (s : TrackerState)
    (h : LoginEndpointInv s) : LoginEndpointInv (sessionCleanup sock s) := by
  unfold sessionCleanup
  split
  · exact h
  · rename_i userId _
    intro uid u hfind hl
    simp only [mapFind_mapErase] at hfind ⊢
    by_cases huid : uid = userId
    · subst huid
      exfalso
      split at hfind
      · rw [mapFind_mapInsert_self] at hfind
        injection hfind with hfind
        rw [← hfind] at hl
        simp at hl
      · rename_i hnone
        rw [hnone] at hfind
        exact absurd hfind (by simp)
    · simp only [huid, if_false]
      split at hfind
      · rw [mapFind_mapInsert_ne _ _ _ _ huid] at hfind
        exact h uid u hfind hl
      · exact h uid u hfind hl

theorem handleDownloadFile_endpoint (tokens : List String) (sock : Int) (s : TrackerState)
    (h : LoginEndpointInv s) : LoginEndpointInv (handleDownloadFile tokens sock s).1 := by
  unfold handleDownloadFile downloadFileCore
  repeat' split
  all_goals first
    | exact h
    | (rename_i targetFile _
       intro uid u hfind hl
       exact (emitChunks_spec targetFile.userChunks targetFile.chunkSha1s 0
         s.userIpPortMap).2.1 uid _ (h uid u hfind hl))

end Tracker

namespace Tracker

theorem handleCreateGroup_users (tokens : List String) (sock : Int) (s : TrackerState) :
    (handleCreateGroup tokens sock s).1.users = s.users ∧
    (handleCreateGroup tokens sock s).1.userIpPortMap = s.userIpPortMap := by
  unfold handleCreateGroup
  repeat' split
  all_goals exact ⟨rfl, rfl⟩

theorem handleJoinGroup_users (tokens : List String) (sock : Int) (s : TrackerState) :
    (handleJoinGroup tokens sock s).1.users = s.users ∧
    (handleJoinGroup tokens sock s).1.userIpPortMap = s.userIpPortMap := by
  unfold handleJoinGroup
  repeat' split
  all_goals exact ⟨rfl, rfl⟩

theorem handleLeaveGroup_users (tokens : List String) (sock : Int) (s : TrackerState) :
    (handleLeaveGroup tokens sock s).1.users = s.users ∧
    (handleLeaveGroup tokens sock s).1.userIpPortMap = s.userIpPortMap := by
  unfold handleLeaveGroup
  repeat' split
  all_goals exact ⟨rfl, rfl⟩

theorem handleAcceptRequest_users (tokens : List String) (sock : Int) (s : TrackerState) :
    (handleAcceptRequest tokens sock s).1.users = s.users ∧
    (handleAcceptRequest tokens sock s).1.userIpPortMap = s.userIpPortMap := by
  unfold handleAcceptRequest
  repeat' split
  all_goals exact ⟨rfl, rfl⟩

theorem handleUploadFile_users (tokens : List String) (sock : Int) (s : TrackerState) :
    (handleUploadFile tokens sock s).1.users = s.users ∧
    (handleUploadFile tokens sock s).1.userIpPortMap = s.userIpPortMap := by
  unfold handleUploadFile
  repeat' split
  all_goals first | exact ⟨rfl, rfl⟩ | (dsimp only; repeat' split) <;> exact ⟨rfl, rfl⟩

theorem step_keeps_endpoint (s : TrackerState) (e : Event) (h : LoginEndpointInv s) :
    LoginEndpointInv (step s e) := by
  cases e with
  | disconnect sock => exact sessionCleanup_endpoint sock s h
  | command tokens sock =>
    simp only [step, handleCommand]
    split
    · exact h
    · rename_i commandStr rest
      split
      · exact handleCreateUser_endpoint _ sock s h
      · exact handleLogin_endpoint _ sock s h
      · exact loginEndpoint_of_eq s _ (handleCreateGroup_users _ sock s).1
          (handleCreateGroup_users _ sock s).2 h
      · exact loginEndpoint_of_eq s _ (handleJoinGroup_users _ sock s).1
          (handleJoinGroup_users _ sock s).2 h
      · exact loginEndpoint_of_eq s _ (handleLeaveGroup_users _ sock s).1
          (handleLeaveGroup_users _ sock s).2 h
      · rw [show (handleListGroups (commandStr :: rest) sock s).1 = s from
          handleListGroups_state _ sock s]
        exact h
      · rw [show (handleListRequests (commandStr :: rest) sock s).1 = s from
          handleListRequests_state _ sock s]
        exact h
      · exact loginEndpoint_of_eq s _ (handleAcceptRequest_users _ sock s).1
          (handleAcceptRequest_users _ sock s).2 h
      · rw [show (handleListFiles (commandStr :: rest) sock s).1 = s from
          handleListFiles_state _ sock s]
        exact h
      · exact loginEndpoint_of_eq s _ (handleUploadFile_users _ sock s).1
          (handleUploadFile_users _ sock s).2 h
      · exact handleDownloadFile_endpoint _ sock s h
      · exact loginEndpoint_of_eq s _ rfl rfl h
      · exact h
      · exact h

theorem run_loginEndpoint (events : List Event) : LoginEndpointInv (run init events) :=
  run_invariant LoginEndpointInv step_keeps_endpoint events init
    (by intro uid u hfind; simp [init, mapFind] at hfind)

/-- C1: after the connection of `a` has dropped, user `a` is not logged in and the
    session cleanup has erased its endpoint from `userIpPortMap`, yet the plan that
    `download_file g f` returns to `b` lists `a` as a holder of chunk 0, with the
    pair that `userIpPortMap[peerUserId]` creates for a missing key: an empty ip
    and port 0. -/
theorem dropped_owner_listed_in_plan :
    (mapFind (run init droppedOwner).users "a").map (fun u => u.isLoggedIn) = some false ∧
    mapFind (run init droppedOwner).userIpPortMap "a" = none ∧
    (downloadFileCore ["download_file", "g", "f"] 5 (run init droppedOwner)).2
      = .inr { fileSize := "10", totalChunks := 1, chunkSize := 524288, fileSha1 := "s",
               chunks := [ { chunkIndex := 0, chunkSha1 := "c0",
                             peers := [ { userId := "a", ip := "", port := 0 },
                                        { userId := "b", ip := "127.0.0.1", port := 6002 } ] } ] } := by
  decide

/-- What the plan of a successful `download_file gid file_name` holds in every
    reachable tracker state: one entry per chunk index of the file; as holders of
    chunk `i` the users whose ownership list for that file contains `i`; and for
    every listed holder that is logged in at the moment of the query, the ip and
    port that were recorded at that user's login. -/
theorem download_plan_lists_owners (events : List Event) (tokens : List String)
    (clientSock : Int) (s' : TrackerState) (info : DownloadInfo)
    (h : downloadFileCore tokens clientSock (run init events) = (s', .inr info)) :
    (handleDownloadFile tokens clientSock (run init events)).2 = renderDownloadInfo info ∧
    ∃ t groupId fileName files file,
      tokens = [t, groupId, fileName] ∧
      mapFind (run init events).groupFiles groupId = some files ∧
      findFileByName files fileName = some file ∧
      info.chunks.map ChunkEntry.chunkIndex = List.range file.chunkSha1s.length ∧
      ∀ entry ∈ info.chunks,
        (∀ uid, (∃ p ∈ entry.peers, p.userId = uid) ↔
          ∃ owned, (uid, owned) ∈ file.userChunks ∧ Int.ofNat entry.chunkIndex ∈ owned) ∧
        (∀ p ∈ entry.peers, ∀ u, mapFind (run init events).users p.userId = some u →
          u.isLoggedIn = true → p.ip = u.ip ∧ p.port = u.port) := by
  have hinv := run_loginEndpoint events
  refine ⟨by simp [handleDownloadFile, h], ?_⟩
  generalize run init events = s at h hinv
  unfold downloadFileCore at h
  split at h
  · rename_i t groupId fileName
    split at h
    · simp at h
    · split at h
      · simp at h
      · rename_i files hfiles
        split at h
        · simp at h
        · split at h
          · simp at h
          · split at h
            · simp at h
            · rename_i file hfile
              simp only [Prod.mk.injEq, Sum.inr.injEq] at h
              obtain ⟨_, hinfo⟩ := h
              obtain ⟨c1, _, c3⟩ := emitChunks_spec file.userChunks file.chunkSha1s 0
                s.userIpPortMap
              refine ⟨t, groupId, fileName, files, file, rfl, hfiles, hfile, ?_, ?_⟩
              · rw [← hinfo]
                simp only [c1, List.range_eq_range']
              · intro entry hentry
                rw [← hinfo] at hentry
                obtain ⟨e1, e2⟩ := c3 entry hentry
                constructor
                · intro uid
                  rw [← mem_peersWithChunk, ← e1]
                  simp [List.mem_map]
                · intro p hp u hu hl
                  have := e2 p hp (u.ip, u.port) (hinv p.userId u hu hl)
                  simp only [Prod.mk.injEq] at this
                  exact this
  · simp at h

/-- After `fileUploaded`, `download_file g f` issued by `b` succeeds with the plan
    `fileUploadedPlan`. -/
theorem download_plan_lists_owners_witness :
    downloadFileCore ["download_file", "g", "f"] 5 (run init fileUploaded)
      = (run init fileUploaded, .inr fileUploadedPlan) ∧
    (handleDownloadFile ["download_file", "g", "f"] 5 (run init fileUploaded)).2
      = renderDownloadInfo fileUploadedPlan :=
  ⟨by decide,
   (download_plan_lists_owners fileUploaded ["download_file", "g", "f"] 5
      (run init fileUploaded) fileUploadedPlan (by decide)).1⟩

end Tracker

namespace Tracker

/-- C2: after `a` uploads `(f, s)` with one chunk digest and member `b` uploads the
    same `(f, s)` with two, the file keeps its one-digest manifest while the index
    list of `b` is `[0, 1]`: index 1 is not below the number of chunk digests. -/
theorem second_upload_index_out_of_range :
    responseAfter (twoMembers ++ [.command ["upload_file", "f", "10", "s", "g", "c0"] 4])
        ["upload_file", "f", "10", "s", "g", "c0", "c1"] 5
      = "File already exists. Added you as a sharer." ∧
    mapFind (run init longerSecondUpload).groupFiles "g"
      = some [ { fileName := "f", fileSize := "10", fileSha1 := "s", chunkSha1s := ["c0"],
                 userChunks := [("a", [0]), ("b", [0, 1])] } ] := by
  decide

/-- C3: after `a` uploads `(f, s)` with two chunk digests and member `b` uploads the
    same `(f, s)` with one, both uploads succeed and the group has one file, but
    `b` is mapped to `[0]` and not to the full index set `[0, 1]` of the manifest. -/
theorem second_uploader_not_full_owner :
    responseAfter twoMembers ["upload_file", "f", "600000", "s", "g", "c0", "c1"] 4
      = "File uploaded successfully." ∧
    responseAfter
        (twoMembers ++ [.command ["upload_file", "f", "600000", "s", "g", "c0", "c1"] 4])
        ["upload_file", "f", "600000", "s", "g", "c0"] 5
      = "File already exists. Added you as a sharer." ∧
    mapFind (run init shorterSecondUpload).groupFiles "g"
      = some [ { fileName := "f", fileSize := "600000", fileSha1 := "s",
                 chunkSha1s := ["c0", "c1"],
                 userChunks := [("a", [0, 1]), ("b", [0])] } ] := by
  decide

/-- C5: after `b` sends `join_group g` twice and the owner accepts `b` once, `b` is
    both in the member list and in the pending list of `g`. -/
theorem member_still_pending :
    mapFind (run init joinedTwiceAccepted).groups "g"
      = some { groupId := "g", ownerId := "a", members := ["a", "b"],
               pendingRequests := ["b"] } := by
  decide

/-- C6: one `join_group g` by the logged-in non-member `b` leaves `b` once in the
    pending list, a second one right after it leaves `b` twice. -/
theorem join_twice_duplicates_pending :
    (mapFind (run init (groupCreated ++ [.command ["join_group", "g"] 5])).groups "g").map
        (fun g => g.pendingRequests) = some ["b"] ∧
    responseAfter (groupCreated ++ [.command ["join_group", "g"] 5]) ["join_group", "g"] 5
      = "Join request sent to group owner." ∧
    (mapFind (run init (groupCreated ++
        [.command ["join_group", "g"] 5, .command ["join_group", "g"] 5])).groups "g").map
        (fun g => g.pendingRequests) = some ["b", "b"] := by
  decide

/-- C7: with `b` pending twice, the owner's `accept_request g b` succeeds, and the
    same command repeated right after it succeeds again instead of returning an
    error; it adds `b` to the members a second time and empties the pending list. -/
theorem repeated_accept_succeeds :
    responseAfter
        (groupCreated ++ [.command ["join_group", "g"] 5, .command ["join_group", "g"] 5])
        ["accept_request", "g", "b"] 4 = "User added to the group." ∧
    responseAfter joinedTwiceAccepted ["accept_request", "g", "b"] 4
      = "User added to the group." ∧
    mapFind (run init (joinedTwiceAccepted ++
        [.command ["accept_request", "g", "b"] 4])).groups "g"
      = some { groupId := "g", ownerId := "a", members := ["a", "b", "b"],
               pendingRequests := [] } := by
  decide

end Tracker

namespace Tracker

/-- C18: `a` logs in on socket 4 and then `b` logs in on the same socket, both with
    success; when the session of socket 4 ends only `b` is logged out: `a` is still
    marked logged in with its endpoint recorded, and a later login of `a` with the
    right password on socket 5 is refused. -/
theorem first_login_survives_session_end :
    responseAfter [ .command ["create_user", "a", "pw"] 4, .command ["create_user", "b", "pw"] 4 ]
        ["login", "a", "pw", "127.0.0.1", "6001"] 4 = "Login successful." ∧
    responseAfter [ .command ["create_user", "a", "pw"] 4, .command ["create_user", "b", "pw"] 4,
          .command ["login", "a", "pw", "127.0.0.1", "6001"] 4 ]
        ["login", "b", "pw", "127.0.0.1", "6001"] 4 = "Login successful." ∧
    mapFind (run init secondLoginSameSocket).users "a"
      = some { userId := "a", password := "pw", isLoggedIn := true, ip := "127.0.0.1",
               port := 6001 } ∧
    mapFind (run init secondLoginSameSocket).userIpPortMap "a" = some ("127.0.0.1", 6001) ∧
    responseAfter secondLoginSameSocket ["login", "a", "pw", "127.0.0.1", "6001"] 5
      = "Error: User already logged in." := by
  decide

/-- C20: `create_user uid pwd` creates a user exactly when `uid` is not a key of the
    user table. Then the table gains `uid` with password `pwd`, not logged in and
    with the empty endpoint, every other user and all other tables are unchanged.
    When `uid` exists the answer is `Error: User already exists.` and the tables,
    the existing user's record included, are unchanged. -/
theorem handleCreateUser_contract (s : TrackerState) (clientSock : Int)
    (t userId password : String) :
    ((handleCreateUser [t, userId, password] clientSock s).2 = "User created successfully." ↔
      mapFind s.users userId = none) ∧
    (mapFind s.users userId = none →
      mapFind (handleCreateUser [t, userId, password] clientSock s).1.users userId
        = some { userId := userId, password := password, isLoggedIn := false, ip := "",
                 port := 0 } ∧
      (∀ other, other ≠ userId →
        mapFind (handleCreateUser [t, userId, password] clientSock s).1.users other
          = mapFind s.users other) ∧
      (handleCreateUser [t, userId, password] clientSock s).1
        = { s with users := (handleCreateUser [t, userId, password] clientSock s).1.users }) ∧
    (∀ u, mapFind s.users userId = some u →
      handleCreateUser [t, userId, password] clientSock s
        = (s, "Error: User already exists.")) := by
  refine ⟨?_, ?_, ?_⟩
  · cases hfind : mapFind s.users userId <;> simp [handleCreateUser, hfind]
  · intro hfind
    refine ⟨?_, ?_, ?_⟩
    · simp [handleCreateUser, hfind, mapFind_mapInsert_self]
    · intro other hne
      simp [handleCreateUser, hfind, mapFind_mapInsert_ne _ _ _ _ hne]
    · simp [handleCreateUser, hfind]
  · intro u hfind
    simp [handleCreateUser, hfind]

end Tracker

namespace Tracker

/-- C21: `create_group gid` on a socket bound to user `u` answers
    `Group created successfully.` exactly when `gid` is not a key of the group
    table (and the socket is bound). Then the table gains `gid` with owner `u`,
    members `[u]` and no pending request, every other group and all other tables
    are unchanged. When `gid` exists the answer is `Error: Group already exists.`,
    when the socket has no bound user it is `Error: Please login first.`, and in
    both cases the tables are unchanged. -/
theorem handleCreateGroup_contract (s : TrackerState) (clientSock : Int) (t groupId : String) :
    ((handleCreateGroup [t, groupId] clientSock s).2 = "Group created successfully." ↔
      mapFind s.groups groupId = none ∧ ∃ u, mapFind s.clientUserMap clientSock = some u) ∧
    (∀ u, mapFind s.clientUserMap clientSock = some u → mapFind s.groups groupId = none →
      mapFind (handleCreateGroup [t, groupId] clientSock s).1.groups groupId
        = some { groupId := groupId, ownerId := u, members := [u], pendingRequests := [] } ∧
      (∀ other, other ≠ groupId →
        mapFind (handleCreateGroup [t, groupId] clientSock s).1.groups other
          = mapFind s.groups other) ∧
      (handleCreateGroup [t, groupId] clientSock s).1
        = { s with groups := (handleCreateGroup [t, groupId] clientSock s).1.groups }) ∧
    (∀ g, mapFind s.groups groupId = some g →
      handleCreateGroup [t, groupId] clientSock s = (s, "Error: Group already exists.") ∧
      isErrorResponse (handleCreateGroup [t, groupId] clientSock s).2 = true) ∧
    (mapFind s.groups groupId = none → mapFind s.clientUserMap clientSock = none →
      handleCreateGroup [t, groupId] clientSock s = (s, "Error: Please login first.") ∧
      isErrorResponse (handleCreateGroup [t, groupId] clientSock s).2 = true) := by
  refine ⟨?_, ?_, ?_, ?_⟩
  · cases hg : mapFind s.groups groupId with
    | some g => simp [handleCreateGroup, hg]
    | none =>
      cases hu : mapFind s.clientUserMap clientSock <;> simp [handleCreateGroup, hg, hu]
  · intro u hu hg
    refine ⟨?_, ?_, ?_⟩
    · simp [handleCreateGroup, hg, hu, mapFind_mapInsert_self]
    · intro other hne
      simp [handleCreateGroup, hg, hu, mapFind_mapInsert_ne _ _ _ _ hne]
    · simp [handleCreateGroup, hg, hu]
  · intro g hg
    have h : handleCreateGroup [t, groupId] clientSock s
        = (s, "Error: Group already exists.") := by
      simp [handleCreateGroup, hg]
    rw [h]
    exact ⟨rfl, (by decide : isErrorResponse "Error: Group already exists." = true)⟩
  · intro hg hu
    have h : handleCreateGroup [t, groupId] clientSock s
        = (s, "Error: Please login first.") := by
      simp [handleCreateGroup, hg, hu]
    rw [h]
    exact ⟨rfl, (by decide : isErrorResponse "Error: Please login first." = true)⟩

/-- The contract of `create_group` at the start state with user `a` logged in on
    socket 4: group `g` is created with owner and sole member `a`. -/
theorem handleCreateGroup_contract_witness :
    mapFind (run init ownerLeft).groups "h" = none ∧
    mapFind (handleCreateGroup ["create_group", "h"] 4 (run init ownerLeft)).1.groups "h"
      = some { groupId := "h", ownerId := "a", members := ["a"], pendingRequests := [] } :=
  ⟨by decide,
   ((handleCreateGroup_contract (run init ownerLeft) 4 "create_group" "h").2.1 "a"
      (by decide) (by decide)).1⟩

end Tracker

namespace Tracker

/-- The search loop finds nothing exactly when the element is not in the list. -/
theorem indexOfFirst_none_iff {α : Type} [DecidableEq α] (x : α) :
    ∀ l : List α, ArrayList.indexOfFirst l x = none ↔ x ∉ l := by
  intro l
  induction l with
  | nil => simp [ArrayList.indexOfFirst]
  | cons a rest ih =>
    simp only [ArrayList.indexOfFirst]
    by_cases h : a = x
    · simp [h]
    · simp only [h, if_false, Option.map_eq_none', ih, List.mem_cons]
      constructor
      · intro hn hx
        rcases hx with hx | hx
        · exact h hx.symm
        · exact hn hx
      · intro hn hx
        exact hn (Or.inr hx)

/-- The index found by the search loop is that of the first occurrence, and
    `removeAt` at that index removes that occurrence and nothing else. -/
theorem indexOfFirst_split {α : Type} [DecidableEq α] (x : α) :
    ∀ (l : List α) (i : Nat), ArrayList.indexOfFirst l x = some i →
      ∃ before after, l = before ++ x :: after ∧ x ∉ before ∧ before.length = i ∧
        ArrayList.removeAt l i = before ++ after := by
  intro l
  induction l with
  | nil => intro i h; simp [ArrayList.indexOfFirst] at h
  | cons a rest ih =>
    intro i h
    simp only [ArrayList.indexOfFirst] at h
    by_cases hax : a = x
    · rw [if_pos hax] at h
      injection h with hi
      subst hi
      subst hax
      exact ⟨[], rest, rfl, by simp, rfl, rfl⟩
    · rw [if_neg hax] at h
      cases hr : ArrayList.indexOfFirst rest x with
      | none => rw [hr] at h; simp at h
      | some j =>
        rw [hr] at h
        simp only [Option.map_some'] at h
        injection h with hi
        subst hi
        obtain ⟨before, after, hl, hnot, hlen, hrem⟩ := ih j hr
        refine ⟨a :: before, after, by rw [hl]; rfl, ?_, by simp [hlen], ?_⟩
        · intro hx
          rcases List.mem_cons.mp hx with hx | hx
          · exact hax hx.symm
          · exact hnot hx
        · simp only [ArrayList.removeAt, hrem, List.cons_append]

/-- What `leave_group gid` does for a member `u` of `gid`: the first occurrence of
    `u` is removed from the member list, the other entries keep their order, and
    the owner, the pending list and every other table are unchanged. When `u`
    occurs once in the member list, `u` is no longer a member. -/
theorem handleLeaveGroup_removes_first (s : TrackerState) (clientSock : Int)
    (t groupId userId : String) (group : Group)
    (hg : mapFind s.groups groupId = some group)
    (hu : mapFind s.clientUserMap clientSock = some userId)
    (hmem : userId ∈ group.members) :
    ∃ before after, group.members = before ++ userId :: after ∧ userId ∉ before ∧
      handleLeaveGroup [t, groupId] clientSock s
        = ({ s with groups := (mapInsert groupId
              { group with members := before ++ after } s.groups) },
           "Left the group successfully.") ∧
      (group.members.count userId = 1 → userId ∉ before ++ after) := by
  cases hidx : ArrayList.indexOfFirst group.members userId with
  | none => exact absurd hmem ((indexOfFirst_none_iff userId group.members).mp hidx)
  | some i =>
    obtain ⟨before, after, hl, hnot, _, hrem⟩ := indexOfFirst_split userId group.members i hidx
    refine ⟨before, after, hl, hnot, ?_, ?_⟩
    · simp [handleLeaveGroup, hg, hu, hidx, hrem]
    · intro hcount
      rw [hl] at hcount
      simp only [List.count_append, List.count_cons_self] at hcount
      intro hx
      have hpos : 0 < List.count userId (before ++ after) := List.count_pos_iff.mpr hx
      rw [List.count_append] at hpos
      omega

/-- C22: in the state reached when `b` asked twice to join `g` and the owner
    accepted `b` twice, `b` is twice in the member list of `g`. Then `leave_group g`
    by `b` answers `Left the group successfully.` and removes one of the two
    entries: `b` is still a member of `g`. -/
theorem member_twice_still_member_after_leave :
    (mapFind (run init acceptedTwice).groups "g").map (fun g => g.members)
      = some ["a", "b", "b"] ∧
    responseAfter acceptedTwice ["leave_group", "g"] 5 = "Left the group successfully." ∧
    mapFind (run init acceptedTwiceLeft).groups "g"
      = some { groupId := "g", ownerId := "a", members := ["a", "b"],
               pendingRequests := [] } := by
  decide

end Tracker

namespace Tracker

/-- C23: `accept_request gid uid` answers `User added to the group.` exactly when
    `gid` exists, the socket is bound to the owner of `gid` and `uid` is in the
    pending list. Then `uid` is appended to the members and its first occurrence
    is removed from the pending list, whose other entries keep their order. When
    the socket is bound to a user who is not the owner, the answer is
    `Error: Only group owner can accept requests.` and the tables are unchanged. -/
theorem handleAcceptRequest_contract (s : TrackerState) (clientSock : Int)
    (t groupId userIdToAccept userId : String) (group : Group) :
    ((handleAcceptRequest [t, groupId, userIdToAccept] clientSock s).2
        = "User added to the group." ↔
      ∃ g u, mapFind s.groups groupId = some g ∧ mapFind s.clientUserMap clientSock = some u ∧
        g.ownerId = u ∧ userIdToAccept ∈ g.pendingRequests) ∧
    (mapFind s.groups groupId = some group → mapFind s.clientUserMap clientSock = some userId →
      group.ownerId = userId → userIdToAccept ∈ group.pendingRequests →
      ∃ before after, group.pendingRequests = before ++ userIdToAccept :: after ∧
        userIdToAccept ∉ before ∧
        handleAcceptRequest [t, groupId, userIdToAccept] clientSock s
          = ({ s with groups := (mapInsert groupId
                { group with members := group.members ++ [userIdToAccept]
                             pendingRequests := before ++ after } s.groups) },
             "User added to the group.") ∧
        mapFind (handleAcceptRequest [t, groupId, userIdToAccept] clientSock s).1.groups groupId
          = some { group with members := group.members ++ [userIdToAccept]
                              pendingRequests := before ++ after } ∧
        userIdToAccept ∈ group.members ++ [userIdToAccept]) ∧
    (mapFind s.groups groupId = some group → mapFind s.clientUserMap clientSock = some userId →
      group.ownerId ≠ userId →
      handleAcceptRequest [t, groupId, userIdToAccept] clientSock s
        = (s, "Error: Only group owner can accept requests.") ∧
      isErrorResponse (handleAcceptRequest [t, groupId, userIdToAccept] clientSock s).2
        = true) := by
  refine ⟨?_, ?_, ?_⟩
  · cases hg : mapFind s.groups groupId with
    | none => simp [handleAcceptRequest, hg]
    | some g =>
      cases hu : mapFind s.clientUserMap clientSock with
      | none => simp [handleAcceptRequest, hg, hu]
      | some u =>
        by_cases ho : g.ownerId = u
        · cases hidx : ArrayList.indexOfFirst g.pendingRequests userIdToAccept with
          | none =>
            have hnot := (indexOfFirst_none_iff userIdToAccept g.pendingRequests).mp hidx
            simp [handleAcceptRequest, hg, hu, ho, hidx, hnot]
          | some i =>
            have hin : userIdToAccept ∈ g.pendingRequests := by
              by_contra hnot
              rw [(indexOfFirst_none_iff userIdToAccept g.pendingRequests).mpr hnot] at hidx
              simp at hidx
            simp [handleAcceptRequest, hg, hu, ho, hidx, hin]
        · simp [handleAcceptRequest, hg, hu, ho]
  · intro hg hu ho hin
    cases hidx : ArrayList.indexOfFirst group.pendingRequests userIdToAccept with
    | none =>
      exact absurd hin ((indexOfFirst_none_iff userIdToAccept group.pendingRequests).mp hidx)
    | some i =>
      obtain ⟨before, after, hl, hnot, _, hrem⟩ :=
        indexOfFirst_split userIdToAccept group.pendingRequests i hidx
      have h : handleAcceptRequest [t, groupId, userIdToAccept] clientSock s
          = ({ s with groups := (mapInsert groupId
                { group with members := group.members ++ [userIdToAccept]
                             pendingRequests := before ++ after } s.groups) },
             "User added to the group.") := by
        simp [handleAcceptRequest, hg, hu, ho, hidx, hrem]
      refine ⟨before, after, hl, hnot, h, ?_, by simp⟩
      rw [h]
      exact mapFind_mapInsert_self _ _ _
  · intro hg hu ho
    have h : handleAcceptRequest [t, groupId, userIdToAccept] clientSock s
        = (s, "Error: Only group owner can accept requests.") := by
      simp [handleAcceptRequest, hg, hu, ho]
    rw [h]
    exact ⟨rfl, (by decide : isErrorResponse "Error: Only group owner can accept requests." = true)⟩

/-- The contract of `accept_request` where `b` is pending twice in `g`: the owner
    accepts `b`, the first of the two entries is removed. -/
theorem handleAcceptRequest_contract_witness :
    ∃ before after, ["b", "b"] = before ++ "b" :: after ∧ "b" ∉ before ∧
      handleAcceptRequest ["accept_request", "g", "b"] 4
          (run init (groupCreated ++
            [.command ["join_group", "g"] 5, .command ["join_group", "g"] 5]))
        = ({ run init (groupCreated ++
              [.command ["join_group", "g"] 5, .command ["join_group", "g"] 5]) with
             groups := (mapInsert "g"
               { groupId := "g", ownerId := "a", members := ["a"] ++ ["b"],
                 pendingRequests := before ++ after }
               (run init (groupCreated ++
                 [.command ["join_group", "g"] 5, .command ["join_group", "g"] 5])).groups) },
           "User added to the group.") := by
  obtain ⟨before, after, h1, h2, h3, _⟩ :=
    (handleAcceptRequest_contract
      (run init (groupCreated ++
        [.command ["join_group", "g"] 5, .command ["join_group", "g"] 5]))
      4 "accept_request" "g" "b" "a"
      { groupId := "g", ownerId := "a", members := ["a"], pendingRequests := ["b", "b"] }).2.1
      (by decide) (by decide) rfl (by decide)
  exact ⟨before, after, h1, h2, h3⟩

end Tracker

namespace Tracker

/-- C24: on an existing group, a logged-in caller who is not in the member list is
    refused by `list_files`, `upload_file` and `download_file`: the answer is
    `Error: Not a member of the group.` (for `download_file` on a group without a
    file list, `Error: No files available in the group.`), it holds no file name and
    no plan, and the tables are unchanged. -/
theorem non_member_refused (s : TrackerState) (clientSock : Int) (group : Group)
    (userId groupId : String)
    (hg : mapFind s.groups groupId = some group)
    (hu : mapFind s.clientUserMap clientSock = some userId)
    (hnm : userId ∉ group.members) :
    (∀ t, handleListFiles [t, groupId] clientSock s
        = (s, "Error: Not a member of the group.")) ∧
    (∀ t fileName fileSize fileSha1 c cs,
      handleUploadFile (t :: fileName :: fileSize :: fileSha1 :: groupId :: c :: cs) clientSock s
        = (s, "Error: Not a member of the group.")) ∧
    (∀ t fileName, handleDownloadFile [t, groupId, fileName] clientSock s
        = (s, match mapFind s.groupFiles groupId with
              | none => "Error: No files available in the group."
              | some _ => "Error: Not a member of the group.")) ∧
    isErrorResponse "Error: Not a member of the group." = true ∧
    isErrorResponse "Error: No files available in the group." = true := by
  have hidx : ArrayList.indexOfFirst group.members userId = none :=
    (indexOfFirst_none_iff userId group.members).mpr hnm
  refine ⟨?_, ?_, ?_, by decide, by decide⟩
  · intro t
    simp [handleListFiles, hg, hu, hidx]
  · intro t fileName fileSize fileSha1 c cs
    simp [handleUploadFile, hg, hu, hidx]
  · intro t fileName
    cases hf : mapFind s.groupFiles groupId <;>
      simp [handleDownloadFile, downloadFileCore, hg, hu, hidx, hf]

/-- The refusal of a non-member at a concrete state: `a` owns `g` and has uploaded
    nothing, `b` is logged in on socket 5 and is not a member. -/
theorem non_member_refused_witness :
    handleListFiles ["list_files", "g"] 5 (run init groupCreated)
      = (run init groupCreated, "Error: Not a member of the group.") ∧
    handleUploadFile ["upload_file", "f", "10", "s", "g", "c0"] 5 (run init groupCreated)
      = (run init groupCreated, "Error: Not a member of the group.") ∧
    handleDownloadFile ["download_file", "g", "f"] 5 (run init groupCreated)
      = (run init groupCreated, "Error: No files available in the group.") :=
  have h := non_member_refused (run init groupCreated) 5
    { groupId := "g", ownerId := "a", members := ["a"], pendingRequests := [] } "b" "g"
    (by decide) (by decide) (by decide)
  ⟨h.1 "list_files", h.2.1 "upload_file" "f" "10" "s" "c0" [],
   h.2.2.1 "download_file" "f"⟩

end Tracker

namespace Tracker

/-- C25 (counterexample): on a connection without a bound user, `shutdown` is
    accepted and clears the server-running flag, `list_groups` is answered with the
    list and `create_group` without its argument with the usage line; none of the
    three responses begins with `Error:`. -/
theorem shutdown_accepted_without_login :
    mapFind init.clientUserMap 4 = none ∧
    handleCommand ["shutdown"] 4 init
      = (true, { init with serverRunning := false }, "Tracker is shutting down.") ∧
    isErrorResponse "Tracker is shutting down." = false ∧
    handleCommand ["list_groups"] 4 init = (true, init, "No groups available.") ∧
    isErrorResponse "No groups available." = false ∧
    handleCommand ["create_group"] 4 init = (true, init, "Usage: create_group <group_id>") ∧
    isErrorResponse "Usage: create_group <group_id>" = false := by
  decide

/-- C25 (amended): on a connection without a bound user, every well-formed
    `create_group`, `join_group`, `leave_group`, `list_requests`, `accept_request`,
    `list_files`, `upload_file` and `download_file` is refused with a response that
    begins with `Error:`, and the tables and the server-running flag are
    unchanged. `list_groups` and `shutdown` have no session check: `list_groups`
    leaves the state unchanged and answers with the list, `shutdown` answers
    `Tracker is shutting down.` and clears the server-running flag. -/
theorem commands_without_login (s : TrackerState) (clientSock : Int)
    (hu : mapFind s.clientUserMap clientSock = none) :
    (∀ groupId, RefusedWithError s (handleCommand ["create_group", groupId] clientSock s)) ∧
    (∀ groupId, RefusedWithError s (handleCommand ["join_group", groupId] clientSock s)) ∧
    (∀ groupId, RefusedWithError s (handleCommand ["leave_group", groupId] clientSock s)) ∧
    (∀ groupId, RefusedWithError s (handleCommand ["list_requests", groupId] clientSock s)) ∧
    (∀ groupId userId,
      RefusedWithError s (handleCommand ["accept_request", groupId, userId] clientSock s)) ∧
    (∀ groupId, RefusedWithError s (handleCommand ["list_files", groupId] clientSock s)) ∧
    (∀ fileName fileSize fileSha1 groupId c cs,
      RefusedWithError s (handleCommand
        ("upload_file" :: fileName :: fileSize :: fileSha1 :: groupId :: c :: cs) clientSock s)) ∧
    (∀ groupId fileName,
      RefusedWithError s (handleCommand ["download_file", groupId, fileName] clientSock s)) ∧
    (∀ rest, handleCommand ("list_groups" :: rest) clientSock s
      = (true, s, if s.groups.isEmpty then "No groups available."
                  else s.groups.foldl (fun acc g => acc ++ g.1 ++ "\n") "Available groups:\n")) ∧
    (∀ rest, handleCommand ("shutdown" :: rest) clientSock s
      = (true, { s with serverRunning := false }, "Tracker is shutting down.")) := by
  have e1 : isErrorResponse "Error: Group already exists." = true := by decide
  have e2 : isErrorResponse "Error: Please login first." = true := by decide
  have e3 : isErrorResponse "Error: Group does not exist." = true := by decide
  have e4 : isErrorResponse "Error: No files available in the group." = true := by decide
  have c1 : getCommandType "create_group" = .CREATE_GROUP := by decide
  have c2 : getCommandType "join_group" = .JOIN_GROUP := by decide
  have c3 : getCommandType "leave_group" = .LEAVE_GROUP := by decide
  have c4 : getCommandType "list_requests" = .LIST_REQUESTS := by decide
  have c5 : getCommandType "accept_request" = .ACCEPT_REQUEST := by decide
  have c6 : getCommandType "list_files" = .LIST_FILES := by decide
  have c7 : getCommandType "upload_file" = .UPLOAD_FILE := by decide
  have c8 : getCommandType "download_file" = .DOWNLOAD_FILE := by decide
  have c9 : getCommandType "list_groups" = .LIST_GROUPS := by decide
  have c10 : getCommandType "shutdown" = .SHUTDOWN := by decide
  refine ⟨?_, ?_, ?_, ?_, ?_, ?_, ?_, ?_, ?_, ?_⟩
  · intro groupId
    cases hg : mapFind s.groups groupId <;>
      simp [RefusedWithError, handleCommand, c1, handleCreateGroup, hg, hu, e1, e2]
  · intro groupId
    cases hg : mapFind s.groups groupId <;>
      simp [RefusedWithError, handleCommand, c2, handleJoinGroup, hg, hu, e2, e3]
  · intro groupId
    cases hg : mapFind s.groups groupId <;>
      simp [RefusedWithError, handleCommand, c3, handleLeaveGroup, hg, hu, e2, e3]
  · intro groupId
    cases hg : mapFind s.groups groupId <;>
      simp [RefusedWithError, handleCommand, c4, handleListRequests, hg, hu, e2, e3]
  · intro groupId userId
    cases hg : mapFind s.groups groupId <;>
      simp [RefusedWithError, handleCommand, c5, handleAcceptRequest, hg, hu, e2, e3]
  · intro groupId
    cases hg : mapFind s.groups groupId <;>
      simp [RefusedWithError, handleCommand, c6, handleListFiles, hg, hu, e2, e3]
  · intro fileName fileSize fileSha1 groupId c cs
    cases hg : mapFind s.groups groupId <;>
      simp [RefusedWithError, handleCommand, c7, handleUploadFile, hg, hu, e2, e3]
  · intro groupId fileName
    cases hg : mapFind s.groups groupId with
    | none =>
      simp [RefusedWithError, handleCommand, c8, handleDownloadFile, downloadFileCore, hg, e3]
    | some g =>
      cases hf : mapFind s.groupFiles groupId <;>
        simp [RefusedWithError, handleCommand, c8, handleDownloadFile, downloadFileCore, hg,
          hf, hu, e2, e4]
  · intro rest
    simp only [handleCommand, c9, handleListGroups]
    split <;> rfl
  · intro rest
    simp only [handleCommand, c10, handleShutdown]

/-- The refusals at the start state, where no connection has a bound user. -/
theorem commands_without_login_witness :
    mapFind init.clientUserMap 4 = none ∧
    RefusedWithError init (handleCommand ["create_group", "g"] 4 init) ∧
    RefusedWithError init (handleCommand ["download_file", "g", "f"] 4 init) :=
  have h := commands_without_login init 4 (by decide)
  ⟨by decide, h.1 "g", h.2.2.2.2.2.2.2.1 "g" "f"⟩

end Tracker

namespace Tracker

/-- C26 (counterexample): an empty token list and an unknown command are answered
    `Invalid command.`, a `create_user` with one argument with the usage line, and
    neither response begins with `Error:`; `handleCommand` returns true. -/
theorem protocol_rejections_lack_error_prefix :
    handleCommand [] 4 init = (true, init, "Invalid command.") ∧
    handleCommand ["frobnicate"] 4 init = (true, init, "Invalid command.") ∧
    isErrorResponse "Invalid command." = false ∧
    handleCommand ["create_user", "a"] 4 init
      = (true, init, "Usage: create_user <user_id> <password>") ∧
    isErrorResponse "Usage: create_user <user_id> <password>" = false := by
  decide

end Tracker

namespace Tracker

/-- The error lines of the handlers begin with `Error:`. -/
theorem error_lines :
    isErrorResponse "Error: User already exists." = true ∧
    isErrorResponse "Error: User does not exist." = true ∧
    isErrorResponse "Error: Incorrect password." = true ∧
    isErrorResponse "Error: User already logged in." = true ∧
    isErrorResponse "Error: Group already exists." = true ∧
    isErrorResponse "Error: Please login first." = true ∧
    isErrorResponse "Error: Group does not exist." = true ∧
    isErrorResponse "Error: Already a member of the group." = true ∧
    isErrorResponse "Error: Not a member of the group." = true ∧
    isErrorResponse "Error: Only group owner can view pending requests." = true ∧
    isErrorResponse "Error: Only group owner can accept requests." = true ∧
    isErrorResponse "Error: No such pending request." = true ∧
    isErrorResponse "Error: No files available in the group." = true ∧
    isErrorResponse "Error: File not found in the group." = true := by
  decide

/-- The fixed success lines are success responses. -/
theorem success_lines :
    isSuccessResponse "User created successfully." = true ∧
    isSuccessResponse "Login successful." = true ∧
    isSuccessResponse "Group created successfully." = true ∧
    isSuccessResponse "Join request sent to group owner." = true ∧
    isSuccessResponse "Left the group successfully." = true ∧
    isSuccessResponse "No groups available." = true ∧
    isSuccessResponse "No pending requests." = true ∧
    isSuccessResponse "User added to the group." = true ∧
    isSuccessResponse "No files available in the group." = true ∧
    isSuccessResponse "File already exists. Added you as a sharer." = true ∧
    isSuccessResponse "You are already sharing this file." = true ∧
    isSuccessResponse "File uploaded successfully." = true ∧
    isSuccessResponse "Tracker is shutting down." = true ∧
    isSuccessResponse "Goodbye!" = true := by
  decide

/-- A list response keeps its heading at the front. -/
theorem foldl_lines_keep_heading {α : Type} (f : α → String) :
    ∀ (l : List α) (heading : String),
      heading.data <+: (l.foldl (fun acc x => acc ++ f x ++ "\n") heading).data := by
  intro l
  induction l with
  | nil => intro heading; exact List.prefix_refl _
  | cons a rest ih =>
    intro heading
    simp only [List.foldl_cons]
    refine List.IsPrefix.trans ?_ (ih _)
    simp only [String.data_append, List.append_assoc]
    exact List.prefix_append _ _

/-- A response that begins with a character other than `E` is no error line. -/
theorem not_error_of_first_char (heading : List Char) (response : String) (c : Char)
    (rest : List Char) (hh : heading = c :: rest) (hc : c ≠ 'E')
    (hp : heading <+: response.data) : isErrorResponse response = false := by
  obtain ⟨tail, ht⟩ := hp
  subst hh
  unfold isErrorResponse
  rw [← ht]
  have : "Error:".data = 'E' :: "rror:".data := rfl
  rw [this]
  simp [List.isPrefixOf, Ne.symm hc]

/-- A success response does not begin with `Error:`. -/
theorem success_not_error (response : String) (h : isSuccessResponse response = true) :
    isErrorResponse response = false := by
  unfold isSuccessResponse at h
  simp only [Bool.or_eq_true, decide_eq_true_eq, List.mem_cons, List.mem_singleton,
    List.not_mem_nil, or_false] at h
  rcases h with (((h | h) | h) | h) | h
  · rcases h with h | h | h | h | h | h | h | h | h | h | h | h | h | h <;>
      (subst h; decide)
  · exact not_error_of_first_char _ response 'A' _ rfl (by decide) (List.isPrefixOf_iff_prefix.mp h)
  · exact not_error_of_first_char _ response 'P' _ rfl (by decide) (List.isPrefixOf_iff_prefix.mp h)
  · exact not_error_of_first_char _ response 'F' _ rfl (by decide) (List.isPrefixOf_iff_prefix.mp h)
  · exact not_error_of_first_char _ response 'd' _ rfl (by decide) (List.isPrefixOf_iff_prefix.mp h)

end Tracker

namespace Tracker

/-- The outcome of `handleCreateUser`: the usage line for a wrong token count,
    an error line with the tables unchanged, or a success response. -/
theorem handleCreateUser_outcome (tokens : List String) (sock : Int) (s : TrackerState) :
    (argumentCountOk .CREATE_USER tokens.length = false →
      handleCreateUser tokens sock s = (s, "Usage: create_user <user_id> <password>")) ∧
    (argumentCountOk .CREATE_USER tokens.length = true →
      ErrorOrSuccess s (handleCreateUser tokens sock s)) := by
  rcases tokens with _ | ⟨t0, _ | ⟨t1, _ | ⟨t2, _ | ⟨t3, rest⟩⟩⟩⟩ <;>
    simp only [handleCreateUser, argumentCountOk, List.length_cons, List.length_nil,
      ErrorOrSuccess] <;>
    (try split) <;>
    simp [error_lines, success_lines]

theorem handleLogin_outcome (tokens : List String) (sock : Int) (s : TrackerState) :
    (argumentCountOk .LOGIN tokens.length = false →
      handleLogin tokens sock s = (s, "Usage: login <user_id> <password> <ip> <port>")) ∧
    (argumentCountOk .LOGIN tokens.length = true →
      ErrorOrSuccess s (handleLogin tokens sock s)) := by
  rcases tokens with _ | ⟨t0, _ | ⟨t1, _ | ⟨t2, _ | ⟨t3, _ | ⟨t4, _ | ⟨t5, rest⟩⟩⟩⟩⟩⟩ <;>
    simp only [handleLogin, argumentCountOk, List.length_cons, List.length_nil,
      ErrorOrSuccess] <;>
    (repeat' split) <;>
    simp [error_lines, success_lines]

/-- The list of groups is a success response. -/
theorem success_groups (groups : List (String × Group)) :
    isSuccessResponse (groups.foldl (fun acc g => acc ++ g.1 ++ "\n") "Available groups:\n")
      = true := by
  have h := List.isPrefixOf_iff_prefix.mpr
    (foldl_lines_keep_heading (fun g : String × Group => g.1) groups "Available groups:\n")
  unfold isSuccessResponse
  simp only [Bool.or_eq_true]
  exact Or.inl (Or.inl (Or.inl (Or.inr h)))

/-- The list of pending requests is a success response. -/
theorem success_pending (pending : List String) :
    isSuccessResponse (pending.foldl (fun acc r => acc ++ r ++ "\n") "Pending requests:\n")
      = true := by
  have h := List.isPrefixOf_iff_prefix.mpr
    (foldl_lines_keep_heading (fun r : String => r) pending "Pending requests:\n")
  unfold isSuccessResponse
  simp only [Bool.or_eq_true]
  exact Or.inl (Or.inl (Or.inr h))

/-- The list of files is a success response. -/
theorem success_files (files : List File) (groupId : String) :
    isSuccessResponse (files.foldl (fun acc f => acc ++ f.fileName ++ "\n")
      ("Files in group " ++ groupId ++ ":\n")) = true := by
  have h := foldl_lines_keep_heading (fun f : File => f.fileName) files
    ("Files in group " ++ groupId ++ ":\n")
  have h2 : "Files in group ".data <+: ("Files in group " ++ groupId ++ ":\n").data := by
    simp only [String.data_append, List.append_assoc]
    exact List.prefix_append _ _
  have h3 := List.isPrefixOf_iff_prefix.mpr (h2.trans h)
  unfold isSuccessResponse
  simp only [Bool.or_eq_true]
  exact Or.inl (Or.inr h3)

/-- The plan is a success response. -/
theorem success_plan (d : DownloadInfo) : isSuccessResponse (renderDownloadInfo d) = true := by
  have h : "download_info ".data <+: (renderDownloadInfo d).data := by
    unfold renderDownloadInfo
    simp only [String.data_append, List.append_assoc]
    exact List.prefix_append _ _
  have h3 := List.isPrefixOf_iff_prefix.mpr h
  unfold isSuccessResponse
  simp only [Bool.or_eq_true]
  exact Or.inr h3

theorem handleCreateGroup_outcome (tokens : List String) (sock : Int) (s : TrackerState) :
    (argumentCountOk .CREATE_GROUP tokens.length = false →
      handleCreateGroup tokens sock s = (s, "Usage: create_group <group_id>")) ∧
    (argumentCountOk .CREATE_GROUP tokens.length = true →
      ErrorOrSuccess s (handleCreateGroup tokens sock s)) := by
  rcases tokens with _ | ⟨t0, _ | ⟨t1, _ | ⟨t2, rest⟩⟩⟩ <;>
    simp only [handleCreateGroup, argumentCountOk, List.length_cons, List.length_nil,
      ErrorOrSuccess] <;>
    (repeat' split) <;>
    simp [error_lines, success_lines]

theorem handleJoinGroup_outcome (tokens : List String) (sock : Int) (s : TrackerState) :
    (argumentCountOk .JOIN_GROUP tokens.length = false →
      handleJoinGroup tokens sock s = (s, "Usage: join_group <group_id>")) ∧
    (argumentCountOk .JOIN_GROUP tokens.length = true →
      ErrorOrSuccess s (handleJoinGroup tokens sock s)) := by
  rcases tokens with _ | ⟨t0, _ | ⟨t1, _ | ⟨t2, rest⟩⟩⟩ <;>
    simp only [handleJoinGroup, argumentCountOk, List.length_cons, List.length_nil,
      ErrorOrSuccess] <;>
    (repeat' split) <;>
    simp [error_lines, success_lines]

theorem handleLeaveGroup_outcome (tokens : List String) (sock : Int) (s : TrackerState) :
    (argumentCountOk .LEAVE_GROUP tokens.length = false →
      handleLeaveGroup tokens sock s = (s, "Usage: leave_group <group_id>")) ∧
    (argumentCountOk .LEAVE_GROUP tokens.length = true →
      ErrorOrSuccess s (handleLeaveGroup tokens sock s)) := by
  rcases tokens with _ | ⟨t0, _ | ⟨t1, _ | ⟨t2, rest⟩⟩⟩ <;>
    simp only [handleLeaveGroup, argumentCountOk, List.length_cons, List.length_nil,
      ErrorOrSuccess] <;>
    (repeat' split) <;>
    simp [error_lines, success_lines]

theorem handleListGroups_outcome (tokens : List String) (sock : Int) (s : TrackerState) :
    isSuccessResponse (handleListGroups tokens sock s).2 = true ∧
    (handleListGroups tokens sock s).1 = s := by
  unfold handleListGroups
  split
  · exact ⟨success_lines.2.2.2.2.2.1, rfl⟩
  · exact ⟨success_groups s.groups, rfl⟩

theorem handleListRequests_outcome (tokens : List String) (sock : Int) (s : TrackerState) :
    (argumentCountOk .LIST_REQUESTS tokens.length = false →
      handleListRequests tokens sock s = (s, "Usage: list_requests <group_id>")) ∧
    (argumentCountOk .LIST_REQUESTS tokens.length = true →
      ErrorOrSuccess s (handleListRequests tokens sock s)) := by
  rcases tokens with _ | ⟨t0, _ | ⟨t1, _ | ⟨t2, rest⟩⟩⟩ <;>
    simp only [handleListRequests, argumentCountOk, List.length_cons, List.length_nil,
      ErrorOrSuccess] <;>
    (repeat' split) <;>
    simp [error_lines, success_lines, success_pending]

theorem handleAcceptRequest_outcome (tokens : List String) (sock : Int) (s : TrackerState) :
    (argumentCountOk .ACCEPT_REQUEST tokens.length = false →
      handleAcceptRequest tokens sock s = (s, "Usage: accept_request <group_id> <user_id>")) ∧
    (argumentCountOk .ACCEPT_REQUEST tokens.length = true →
      ErrorOrSuccess s (handleAcceptRequest tokens sock s)) := by
  rcases tokens with _ | ⟨t0, _ | ⟨t1, _ | ⟨t2, _ | ⟨t3, rest⟩⟩⟩⟩ <;>
    simp only [handleAcceptRequest, argumentCountOk, List.length_cons, List.length_nil,
      ErrorOrSuccess] <;>
    (repeat' split) <;>
    simp [error_lines, success_lines]

end Tracker

namespace Tracker

theorem handleListFiles_outcome (tokens : List String) (sock : Int) (s : TrackerState) :
    (argumentCountOk .LIST_FILES tokens.length = false →
      handleListFiles tokens sock s = (s, "Usage: list_files <group_id>")) ∧
    (argumentCountOk .LIST_FILES tokens.length = true →
      ErrorOrSuccess s (handleListFiles tokens sock s)) := by
  rcases tokens with _ | ⟨t0, _ | ⟨t1, _ | ⟨t2, rest⟩⟩⟩ <;>
    simp only [handleListFiles, argumentCountOk, List.length_cons, List.length_nil,
      ErrorOrSuccess] <;>
    (repeat' split) <;>
    simp [error_lines, success_lines, success_files]

theorem handleUploadFile_outcome (tokens : List String) (sock : Int) (s : TrackerState) :
    (argumentCountOk .UPLOAD_FILE tokens.length = false →
      handleUploadFile tokens sock s = (s,
        "Usage: upload_file <file_name> <file_size> <file_sha1> <group_id> <chunk_sha1s...>")) ∧
    (argumentCountOk .UPLOAD_FILE tokens.length = true →
      ErrorOrSuccess s (handleUploadFile tokens sock s)) := by
  rcases tokens with _ | ⟨t0, _ | ⟨t1, _ | ⟨t2, _ | ⟨t3, _ | ⟨t4, _ | ⟨t5, rest⟩⟩⟩⟩⟩⟩ <;>
    simp only [handleUploadFile, argumentCountOk, List.length_cons, List.length_nil,
      ErrorOrSuccess, addSharer] <;>
    (repeat' split) <;>
    simp [error_lines, success_lines]

theorem handleDownloadFile_outcome (tokens : List String) (sock : Int) (s : TrackerState) :
    (argumentCountOk .DOWNLOAD_FILE tokens.length = false →
      handleDownloadFile tokens sock s = (s, "Usage: download_file <group_id> <file_name>")) ∧
    (argumentCountOk .DOWNLOAD_FILE tokens.length = true →
      ErrorOrSuccess s (handleDownloadFile tokens sock s)) := by
  rcases tokens with _ | ⟨t0, _ | ⟨t1, _ | ⟨t2, _ | ⟨t3, rest⟩⟩⟩⟩
  · simp [handleDownloadFile, downloadFileCore, argumentCountOk]
  · simp [handleDownloadFile, downloadFileCore, argumentCountOk]
  · simp [handleDownloadFile, downloadFileCore, argumentCountOk]
  · refine ⟨by simp [argumentCountOk], fun _ => ?_⟩
    cases hg : mapFind s.groups t1 with
    | none => simp [handleDownloadFile, downloadFileCore, hg, ErrorOrSuccess, error_lines]
    | some g =>
      cases hf : mapFind s.groupFiles t1 with
      | none => simp [handleDownloadFile, downloadFileCore, hg, hf, ErrorOrSuccess, error_lines]
      | some files =>
        cases hu : mapFind s.clientUserMap sock with
        | none =>
          simp [handleDownloadFile, downloadFileCore, hg, hf, hu, ErrorOrSuccess, error_lines]
        | some u =>
          cases hm : ArrayList.indexOfFirst g.members u with
          | none =>
            simp [handleDownloadFile, downloadFileCore, hg, hf, hu, hm, ErrorOrSuccess,
              error_lines]
          | some i =>
            cases hfile : findFileByName files t2 with
            | none =>
              simp [handleDownloadFile, downloadFileCore, hg, hf, hu, hm, hfile, ErrorOrSuccess,
                error_lines]
            | some target =>
              simp [handleDownloadFile, downloadFileCore, hg, hf, hu, hm, hfile, ErrorOrSuccess,
                success_plan]
  · simp [handleDownloadFile, downloadFileCore, argumentCountOk]

end Tracker

namespace Tracker

/-- The usage lines begin with `Usage:` and not with `Error:`. -/
theorem usage_lines :
    (isUsageResponse "Usage: create_user <user_id> <password>" = true ∧
      isErrorResponse "Usage: create_user <user_id> <password>" = false) ∧
    (isUsageResponse "Usage: login <user_id> <password> <ip> <port>" = true ∧
      isErrorResponse "Usage: login <user_id> <password> <ip> <port>" = false) ∧
    (isUsageResponse "Usage: create_group <group_id>" = true ∧
      isErrorResponse "Usage: create_group <group_id>" = false) ∧
    (isUsageResponse "Usage: join_group <group_id>" = true ∧
      isErrorResponse "Usage: join_group <group_id>" = false) ∧
    (isUsageResponse "Usage: leave_group <group_id>" = true ∧
      isErrorResponse "Usage: leave_group <group_id>" = false) ∧
    (isUsageResponse "Usage: list_requests <group_id>" = true ∧
      isErrorResponse "Usage: list_requests <group_id>" = false) ∧
    (isUsageResponse "Usage: accept_request <group_id> <user_id>" = true ∧
      isErrorResponse "Usage: accept_request <group_id> <user_id>" = false) ∧
    (isUsageResponse "Usage: list_files <group_id>" = true ∧
      isErrorResponse "Usage: list_files <group_id>" = false) ∧
    (isUsageResponse
        "Usage: upload_file <file_name> <file_size> <file_sha1> <group_id> <chunk_sha1s...>"
        = true ∧
      isErrorResponse
        "Usage: upload_file <file_name> <file_size> <file_sha1> <group_id> <chunk_sha1s...>"
        = false) ∧
    (isUsageResponse "Usage: download_file <group_id> <file_name>" = true ∧
      isErrorResponse "Usage: download_file <group_id> <file_name>" = false) ∧
    isErrorResponse "Invalid command." = false := by
  decide

/-- One test of the chain of comparisons in `getCommandType`, for a command other
    than `quit`. -/
theorem ite_quit_iff (p q : Prop) [Decidable p] (a b : CommandType) (ha : a ≠ .QUIT)
    (hp : p → ¬ q) (hb : b = .QUIT ↔ q) : (if p then a else b) = .QUIT ↔ q := by
  by_cases h : p
  · rw [if_pos h]
    exact ⟨fun e => absurd e ha, fun hq => absurd hq (hp h)⟩
  · rw [if_neg h]
    exact hb

/-- The command type `QUIT` is that of the token `quit` alone. -/
theorem getCommandType_quit (commandStr : String) :
    getCommandType commandStr = .QUIT ↔ commandStr = "quit" := by
  unfold getCommandType
  iterate 12
    refine ite_quit_iff _ _ _ _ (by decide) (fun h => by rw [h]; decide) ?_
  by_cases h : commandStr = "quit"
  · rw [if_pos h]
    exact ⟨fun _ => h, fun _ => rfl⟩
  · rw [if_neg h]
    exact ⟨fun e => absurd e (by decide), fun hq => absurd hq h⟩

/-- C26 (amended): `handleCommand` returns false exactly when the first token is
    `quit`. A request rejected for a protocol reason (no token, unknown command,
    wrong number of tokens) leaves the tables unchanged and is answered
    `Invalid command.` or with a usage line, neither of which begins with `Error:`.
    Every other request is either refused with a response that begins with
    `Error:`, the tables unchanged, or answered with a success response, and no
    success response begins with `Error:`. -/
theorem handleCommand_responses (tokens : List String) (clientSock : Int) (s : TrackerState) :
    ((handleCommand tokens clientSock s).1 = false ↔
      ∃ rest, tokens = "quit" :: rest) ∧
    (protocolError tokens = true →
      (handleCommand tokens clientSock s).2.1 = s ∧
      ((handleCommand tokens clientSock s).2.2 = "Invalid command." ∨
        isUsageResponse (handleCommand tokens clientSock s).2.2 = true) ∧
      isErrorResponse (handleCommand tokens clientSock s).2.2 = false) ∧
    (protocolError tokens = false →
      ErrorOrSuccess s (handleCommand tokens clientSock s).2) ∧
    (∀ response, isSuccessResponse response = true → isErrorResponse response = false) := by
  refine ⟨?_, ?_, ?_, success_not_error⟩
  · cases tokens with
    | nil => simp [handleCommand]
    | cons c rest =>
      have hq := getCommandType_quit c
      cases hc : getCommandType c <;> simp [handleCommand, hc] <;>
        (rw [hc] at hq; simpa using hq)
  · intro hp
    cases tokens with
    | nil => simp [handleCommand, usage_lines]
    | cons c rest =>
      simp only [protocolError, Bool.not_eq_true'] at hp
      have hlen : (c :: rest).length = rest.length + 1 := rfl
      cases hc : getCommandType c <;> rw [hc] at hp <;> simp only [handleCommand, hc]
      · rw [(handleCreateUser_outcome (c :: rest) clientSock s).1 (hlen ▸ hp)]
        simp [usage_lines]
      · rw [(handleLogin_outcome (c :: rest) clientSock s).1 (hlen ▸ hp)]
        simp [usage_lines]
      · rw [(handleCreateGroup_outcome (c :: rest) clientSock s).1 (hlen ▸ hp)]
        simp [usage_lines]
      · rw [(handleJoinGroup_outcome (c :: rest) clientSock s).1 (hlen ▸ hp)]
        simp [usage_lines]
      · rw [(handleLeaveGroup_outcome (c :: rest) clientSock s).1 (hlen ▸ hp)]
        simp [usage_lines]
      · simp [argumentCountOk] at hp
      · rw [(handleListRequests_outcome (c :: rest) clientSock s).1 (hlen ▸ hp)]
        simp [usage_lines]
      · rw [(handleAcceptRequest_outcome (c :: rest) clientSock s).1 (hlen ▸ hp)]
        simp [usage_lines]
      · rw [(handleListFiles_outcome (c :: rest) clientSock s).1 (hlen ▸ hp)]
        simp [usage_lines]
      · rw [(handleUploadFile_outcome (c :: rest) clientSock s).1 (hlen ▸ hp)]
        simp [usage_lines]
      · rw [(handleDownloadFile_outcome (c :: rest) clientSock s).1 (hlen ▸ hp)]
        simp [usage_lines]
      · simp [argumentCountOk] at hp
      · simp [argumentCountOk] at hp
      · simp [usage_lines]
  · intro hp
    cases tokens with
    | nil => simp [protocolError] at hp
    | cons c rest =>
      simp only [protocolError, Bool.not_eq_false'] at hp
      have hlen : (c :: rest).length = rest.length + 1 := rfl
      cases hc : getCommandType c <;> rw [hc] at hp <;> simp only [handleCommand, hc]
      · exact (handleCreateUser_outcome (c :: rest) clientSock s).2 (hlen ▸ hp)
      · exact (handleLogin_outcome (c :: rest) clientSock s).2 (hlen ▸ hp)
      · exact (handleCreateGroup_outcome (c :: rest) clientSock s).2 (hlen ▸ hp)
      · exact (handleJoinGroup_outcome (c :: rest) clientSock s).2 (hlen ▸ hp)
      · exact (handleLeaveGroup_outcome (c :: rest) clientSock s).2 (hlen ▸ hp)
      · exact Or.inr (handleListGroups_outcome (c :: rest) clientSock s).1
      · exact (handleListRequests_outcome (c :: rest) clientSock s).2 (hlen ▸ hp)
      · exact (handleAcceptRequest_outcome (c :: rest) clientSock s).2 (hlen ▸ hp)
      · exact (handleListFiles_outcome (c :: rest) clientSock s).2 (hlen ▸ hp)
      · exact (handleUploadFile_outcome (c :: rest) clientSock s).2 (hlen ▸ hp)
      · exact (handleDownloadFile_outcome (c :: rest) clientSock s).2 (hlen ▸ hp)
      · exact Or.inr success_lines.2.2.2.2.2.2.2.2.2.2.2.2.1
      · exact Or.inr success_lines.2.2.2.2.2.2.2.2.2.2.2.2.2
      · simp [argumentCountOk] at hp

end Tracker

namespace Tracker

/-- C28 (counterexample): after `a` has uploaded `f` with SHA-1 `s1`, the upload by
    `b` of a file with the same name `f` and the SHA-1 `s2` answers
    `File uploaded successfully.` and adds a second `File` named `f` to the list of
    group `g`. Then `list_files g` prints `f` twice, and `download_file g f` returns
    the plan of the first of the two. -/
theorem same_name_two_files :
    responseAfter firstFileNamedF ["upload_file", "f", "20", "s2", "g", "d0"] 5
      = "File uploaded successfully." ∧
    mapFind (run init sameNameTwoFiles).groupFiles "g"
      = some [ { fileName := "f", fileSize := "10", fileSha1 := "s1", chunkSha1s := ["c0"],
                 userChunks := [("a", [0])] },
               { fileName := "f", fileSize := "20", fileSha1 := "s2", chunkSha1s := ["d0"],
                 userChunks := [("b", [0])] } ] ∧
    responseAfter sameNameTwoFiles ["list_files", "g"] 4 = "Files in group g:\nf\nf\n" ∧
    responseAfter sameNameTwoFiles ["download_file", "g", "f"] 5
      = "download_info 10 1 524288 s1 0 1 c0 a 127.0.0.1 6001 " := by
  decide

end Tracker

namespace Tracker

namespace Checked

/-- An index within the list passes the bounds check. -/
theorem get_lt {α : Type} (l : List α) (i : Nat) (h : i < l.length) :
    get l (i : Int) = some l[i] := by
  unfold get
  have hno : ¬ ((i : Int) < 0 ∨ (i : Int) ≥ (l.length : Int)) := by omega
  rw [if_neg hno]
  simp [h]

/-- The search loop never leaves the list, and finds the first occurrence. -/
theorem searchFrom_eq {α : Type} [DecidableEq α] (l : List α) (x : α) :
    ∀ (fuel i : Nat), fuel + i = l.length →
      searchFrom l x fuel i = some ((ArrayList.indexOfFirst (l.drop i) x).map (· + i)) := by
  intro fuel
  induction fuel with
  | zero =>
    intro i hi
    have : l.drop i = [] := List.drop_eq_nil_of_le (by omega)
    simp [searchFrom, this, ArrayList.indexOfFirst]
  | succ fuel ih =>
    intro i hi
    have hlt : i < l.length := by omega
    have hcast : (i : Int) < (l.length : Int) := by omega
    rw [searchFrom, if_pos hcast, get_lt l i hlt, List.drop_eq_getElem_cons hlt]
    simp only [ArrayList.indexOfFirst]
    by_cases hx : l[i] = x
    · simp [hx]
    · rw [if_neg hx, if_neg hx, ih (i + 1) (by omega)]
      cases ArrayList.indexOfFirst (List.drop (i + 1) l) x with
      | none => rfl
      | some j => simp; omega

theorem search_eq {α : Type} [DecidableEq α] (l : List α) (x : α) :
    search l x = some (ArrayList.indexOfFirst l x) := by
  unfold search
  rw [searchFrom_eq l x l.length 0 (by omega), List.drop_zero]
  cases h : ArrayList.indexOfFirst l x <;> simp

/-- The printing loop never leaves the list. -/
theorem appendLinesFrom_eq {α : Type} (l : List α) (line : α → String) :
    ∀ (fuel i : Nat) (response : String), fuel + i = l.length →
      appendLinesFrom l line fuel i response
        = some ((l.drop i).foldl (fun acc e => acc ++ line e ++ "\n") response) := by
  intro fuel
  induction fuel with
  | zero =>
    intro i response hi
    have : l.drop i = [] := List.drop_eq_nil_of_le (by omega)
    simp [appendLinesFrom, this]
  | succ fuel ih =>
    intro i response hi
    have hlt : i < l.length := by omega
    have hcast : (i : Int) < (l.length : Int) := by omega
    rw [appendLinesFrom, if_pos hcast, get_lt l i hlt, List.drop_eq_getElem_cons hlt]
    simp only [List.foldl_cons]
    exact ih (i + 1) _ (by omega)

/-- The loop collecting the chunk digests never leaves the token list. -/
theorem collectFrom_eq (tokens : List String) :
    ∀ (fuel i : Nat) (chunkSha1s : List String), fuel + i = tokens.length →
      collectFrom tokens fuel i chunkSha1s = some (chunkSha1s ++ tokens.drop i) := by
  intro fuel
  induction fuel with
  | zero =>
    intro i chunkSha1s hi
    have : tokens.drop i = [] := List.drop_eq_nil_of_le (by omega)
    simp [collectFrom, this]
  | succ fuel ih =>
    intro i chunkSha1s hi
    have hlt : i < tokens.length := by omega
    have hcast : (i : Int) < (tokens.length : Int) := by omega
    rw [collectFrom, if_pos hcast, get_lt tokens i hlt, List.drop_eq_getElem_cons hlt]
    simp only
    rw [ih (i + 1) _ (by omega)]
    simp

/-- The loop looking for the file by name and SHA-1 never leaves the list. -/
theorem findExistingFrom_eq (files : List File) (fileName fileSha1 : String) :
    ∀ (fuel i : Nat), fuel + i = files.length →
      findExistingFrom files fileName fileSha1 fuel i
        = some ((findExistingFile (files.drop i) fileName fileSha1).map
            (fun r => (r.1 + i, r.2))) := by
  intro fuel
  induction fuel with
  | zero =>
    intro i hi
    have : files.drop i = [] := List.drop_eq_nil_of_le (by omega)
    simp [findExistingFrom, this, findExistingFile]
  | succ fuel ih =>
    intro i hi
    have hlt : i < files.length := by omega
    have hcast : (i : Int) < (files.length : Int) := by omega
    rw [findExistingFrom, if_pos hcast, get_lt files i hlt, List.drop_eq_getElem_cons hlt]
    simp only [findExistingFile]
    by_cases hn : files[i].fileName = fileName
    · by_cases hs : files[i].fileSha1 = fileSha1
      · simp [hn, hs]
      · simp only [hn, hs, if_true, if_false, and_false, ih (i + 1) (by omega)]
        cases findExistingFile (List.drop (i + 1) files) fileName fileSha1 with
        | none => rfl
        | some r => simp; omega
    · simp only [hn, if_false, false_and, ih (i + 1) (by omega)]
      cases findExistingFile (List.drop (i + 1) files) fileName fileSha1 with
      | none => rfl
      | some r => simp; omega

/-- The loop looking for the file by name never leaves the list. -/
theorem findByNameFrom_eq (files : List File) (fileName : String) :
    ∀ (fuel i : Nat), fuel + i = files.length →
      findByNameFrom files fileName fuel i = some (findFileByName (files.drop i) fileName) := by
  intro fuel
  induction fuel with
  | zero =>
    intro i hi
    have : files.drop i = [] := List.drop_eq_nil_of_le (by omega)
    simp [findByNameFrom, this, findFileByName]
  | succ fuel ih =>
    intro i hi
    have hlt : i < files.length := by omega
    have hcast : (i : Int) < (files.length : Int) := by omega
    rw [findByNameFrom, if_pos hcast, get_lt files i hlt, List.drop_eq_getElem_cons hlt]
    simp only [findFileByName]
    by_cases hn : files[i].fileName = fileName
    · simp [hn]
    · simp only [hn, if_false, ih (i + 1) (by omega)]

end Checked

end Tracker

namespace Tracker

namespace Checked

/-- The loop gathering the holders of a chunk never leaves an index list. -/
theorem peersWithChunk_eq :
    ∀ (userChunks : List (String × List Int)) (i : Nat),
      peersWithChunk userChunks (i : Int) = some (Tracker.peersWithChunk userChunks i) := by
  intro userChunks i
  induction userChunks with
  | nil => rfl
  | cons e rest ih =>
    obtain ⟨peerUserId, chunksOwned⟩ := e
    simp only [peersWithChunk, search_eq, ih, Option.bind_eq_bind, Option.some_bind]
    cases h : ArrayList.indexOfFirst chunksOwned (i : Int) with
    | none =>
      have hnot := (indexOfFirst_none_iff (i : Int) chunksOwned).mp h
      simp [Tracker.peersWithChunk, List.filter_cons, hnot]
    | some j =>
      have hin : (i : Int) ∈ chunksOwned := by
        by_contra hnot
        rw [(indexOfFirst_none_iff (i : Int) chunksOwned).mpr hnot] at h
        simp at h
      simp [Tracker.peersWithChunk, List.filter_cons, hin]

/-- The loop printing the holders never leaves the list of holders. -/
theorem emitPeersFrom_eq (peers : List String) :
    ∀ (fuel j : Nat) (m : List (String × (String × Int))), fuel + j = peers.length →
      emitPeersFrom peers fuel j m = some (emitPeers (peers.drop j) m) := by
  intro fuel
  induction fuel with
  | zero =>
    intro j m hj
    have : peers.drop j = [] := List.drop_eq_nil_of_le (by omega)
    simp [emitPeersFrom, this, emitPeers]
  | succ fuel ih =>
    intro j m hj
    have hlt : j < peers.length := by omega
    have hcast : (j : Int) < (peers.length : Int) := by omega
    rw [emitPeersFrom, if_pos hcast, get_lt peers j hlt, List.drop_eq_getElem_cons hlt]
    simp only [emitPeers]
    rw [ih (j + 1) _ (by omega)]

/-- The loop over the chunks never leaves the list of digests. -/
theorem emitChunksFrom_eq (targetFile : File) :
    ∀ (fuel i : Nat) (m : List (String × (String × Int))),
      fuel + i = targetFile.chunkSha1s.length →
      emitChunksFrom targetFile fuel i m
        = some (emitChunks targetFile.userChunks i (targetFile.chunkSha1s.drop i) m) := by
  intro fuel
  induction fuel with
  | zero =>
    intro i m hi
    have : targetFile.chunkSha1s.drop i = [] := List.drop_eq_nil_of_le (by omega)
    simp [emitChunksFrom, this, emitChunks]
  | succ fuel ih =>
    intro i m hi
    have hlt : i < targetFile.chunkSha1s.length := by omega
    have hcast : (i : Int) < (targetFile.chunkSha1s.length : Int) := by omega
    rw [emitChunksFrom, if_pos hcast, peersWithChunk_eq, get_lt _ i hlt,
      List.drop_eq_getElem_cons hlt]
    simp only [emitChunks]
    rw [emitPeersFrom_eq _ _ 0 m (by omega), List.drop_zero]
    simp only
    rw [ih (i + 1) _ (by omega)]

end Checked

end Tracker

namespace Tracker

namespace Checked

theorem handleCreateUser_eq (tokens : List String) (sock : Int) (s : TrackerState) :
    handleCreateUser tokens sock s = some (Tracker.handleCreateUser tokens sock s) := by
  rcases tokens with _ | ⟨t0, _ | ⟨t1, _ | ⟨t2, _ | ⟨t3, rest⟩⟩⟩⟩ <;>
    simp [handleCreateUser, Tracker.handleCreateUser, get]
  split <;> rfl

theorem handleLogin_eq (tokens : List String) (sock : Int) (s : TrackerState) :
    handleLogin tokens sock s = some (Tracker.handleLogin tokens sock s) := by
  rcases tokens with _ | ⟨t0, _ | ⟨t1, _ | ⟨t2, _ | ⟨t3, _ | ⟨t4, _ | ⟨t5, rest⟩⟩⟩⟩⟩⟩ <;>
    simp [handleLogin, Tracker.handleLogin, get]
  repeat' split
  all_goals rfl

theorem handleCreateGroup_eq (tokens : List String) (sock : Int) (s : TrackerState) :
    handleCreateGroup tokens sock s = some (Tracker.handleCreateGroup tokens sock s) := by
  rcases tokens with _ | ⟨t0, _ | ⟨t1, _ | ⟨t2, rest⟩⟩⟩ <;>
    simp [handleCreateGroup, Tracker.handleCreateGroup, get]
  repeat' split
  all_goals rfl

end Checked

end Tracker

namespace Tracker

namespace Checked

theorem handleJoinGroup_eq (tokens : List String) (sock : Int) (s : TrackerState) :
    handleJoinGroup tokens sock s = some (Tracker.handleJoinGroup tokens sock s) := by
  rcases tokens with _ | ⟨t0, _ | ⟨t1, _ | ⟨t2, rest⟩⟩⟩ <;>
    simp [handleJoinGroup, Tracker.handleJoinGroup, get, search_eq]
  repeat' split
  all_goals rfl

theorem handleLeaveGroup_eq (tokens : List String) (sock : Int) (s : TrackerState) :
    handleLeaveGroup tokens sock s = some (Tracker.handleLeaveGroup tokens sock s) := by
  rcases tokens with _ | ⟨t0, _ | ⟨t1, _ | ⟨t2, rest⟩⟩⟩ <;>
    simp [handleLeaveGroup, Tracker.handleLeaveGroup, get, search_eq]
  repeat' split
  all_goals rfl

theorem handleListRequests_eq (tokens : List String) (sock : Int) (s : TrackerState) :
    handleListRequests tokens sock s = some (Tracker.handleListRequests tokens sock s) := by
  rcases tokens with _ | ⟨t0, _ | ⟨t1, _ | ⟨t2, rest⟩⟩⟩ <;>
    simp [handleListRequests, Tracker.handleListRequests, get, appendLinesFrom_eq]
  repeat' split
  all_goals rfl

theorem handleAcceptRequest_eq (tokens : List String) (sock : Int) (s : TrackerState) :
    handleAcceptRequest tokens sock s = some (Tracker.handleAcceptRequest tokens sock s) := by
  rcases tokens with _ | ⟨t0, _ | ⟨t1, _ | ⟨t2, _ | ⟨t3, rest⟩⟩⟩⟩ <;>
    simp [handleAcceptRequest, Tracker.handleAcceptRequest, get, search_eq]
  repeat' split
  all_goals rfl

theorem handleListFiles_eq (tokens : List String) (sock : Int) (s : TrackerState) :
    handleListFiles tokens sock s = some (Tracker.handleListFiles tokens sock s) := by
  rcases tokens with _ | ⟨t0, _ | ⟨t1, _ | ⟨t2, rest⟩⟩⟩ <;>
    simp [handleListFiles, Tracker.handleListFiles, get, search_eq, appendLinesFrom_eq]
  repeat' split
  all_goals rfl

end Checked

end Tracker

namespace Tracker

namespace Checked

theorem handleUploadFile_eq (tokens : List String) (sock : Int) (s : TrackerState) :
    handleUploadFile tokens sock s = some (Tracker.handleUploadFile tokens sock s) := by
  rcases tokens with _ | ⟨t0, _ | ⟨t1, _ | ⟨t2, _ | ⟨t3, _ | ⟨t4, _ | ⟨t5, rest⟩⟩⟩⟩⟩⟩
  · simp [handleUploadFile, Tracker.handleUploadFile]
  · simp [handleUploadFile, Tracker.handleUploadFile]
  · simp [handleUploadFile, Tracker.handleUploadFile]
  · simp [handleUploadFile, Tracker.handleUploadFile]
  · simp [handleUploadFile, Tracker.handleUploadFile]
  · simp [handleUploadFile, Tracker.handleUploadFile]
  · have hlen : ¬ (t0 :: t1 :: t2 :: t3 :: t4 :: t5 :: rest).length < 6 := by simp
    have h1 : get (t0 :: t1 :: t2 :: t3 :: t4 :: t5 :: rest) 1 = some t1 :=
      get_lt (t0 :: t1 :: t2 :: t3 :: t4 :: t5 :: rest) 1 (by simp)
    have h2 : get (t0 :: t1 :: t2 :: t3 :: t4 :: t5 :: rest) 2 = some t2 :=
      get_lt (t0 :: t1 :: t2 :: t3 :: t4 :: t5 :: rest) 2 (by simp)
    have h3 : get (t0 :: t1 :: t2 :: t3 :: t4 :: t5 :: rest) 3 = some t3 :=
      get_lt (t0 :: t1 :: t2 :: t3 :: t4 :: t5 :: rest) 3 (by simp)
    have h4 : get (t0 :: t1 :: t2 :: t3 :: t4 :: t5 :: rest) 4 = some t4 :=
      get_lt (t0 :: t1 :: t2 :: t3 :: t4 :: t5 :: rest) 4 (by simp)
    have hc : collectFrom (t0 :: t1 :: t2 :: t3 :: t4 :: t5 :: rest)
        ((t0 :: t1 :: t2 :: t3 :: t4 :: t5 :: rest).length - 5) 5 [] = some (t5 :: rest) := by
      rw [collectFrom_eq _ _ 5 [] (by simp)]
      rfl
    have hfe := findExistingFrom_eq (mapIndex s.groupFiles t4 []).1 t1 t3
      (mapIndex s.groupFiles t4 []).1.length 0 (by omega)
    rw [List.drop_zero] at hfe
    simp only [handleUploadFile, if_neg hlen, h1, h2, h3, h4, hc, Option.bind_eq_bind,
      Option.some_bind, Tracker.handleUploadFile, search_eq]
    cases hg : mapFind s.groups t4 with
    | none => rfl
    | some group =>
      simp only []
      cases hu : mapFind s.clientUserMap sock with
      | none => rfl
      | some userId =>
        simp only []
        cases hm : ArrayList.indexOfFirst group.members userId with
        | none => rfl
        | some memberIndex =>
          simp only [hfe, Option.some_bind]
          cases hf : findExistingFile (mapIndex s.groupFiles t4 []).1 t1 t3 with
          | none => rfl
          | some r => simp

theorem handleDownloadFile_eq (tokens : List String) (sock : Int) (s : TrackerState) :
    handleDownloadFile tokens sock s = some (Tracker.handleDownloadFile tokens sock s) := by
  rcases tokens with _ | ⟨t0, _ | ⟨t1, _ | ⟨t2, _ | ⟨t3, rest⟩⟩⟩⟩
  · simp [handleDownloadFile, Tracker.handleDownloadFile, downloadFileCore]
  · simp [handleDownloadFile, Tracker.handleDownloadFile, downloadFileCore]
  · simp [handleDownloadFile, Tracker.handleDownloadFile, downloadFileCore]
  · have hlen : ¬ [t0, t1, t2].length ≠ 3 := by simp
    have h1 : get [t0, t1, t2] 1 = some t1 := get_lt [t0, t1, t2] 1 (by simp)
    have h2 : get [t0, t1, t2] 2 = some t2 := get_lt [t0, t1, t2] 2 (by simp)
    simp only [handleDownloadFile, if_neg hlen, h1, h2, Option.bind_eq_bind,
      Option.some_bind, Tracker.handleDownloadFile, downloadFileCore, search_eq]
    cases hg : mapFind s.groups t1 with
    | none => rfl
    | some group =>
      simp only []
      cases hf : mapFind s.groupFiles t1 with
      | none => rfl
      | some files =>
        simp only []
        cases hu : mapFind s.clientUserMap sock with
        | none => rfl
        | some userId =>
          simp only []
          cases hm : ArrayList.indexOfFirst group.members userId with
          | none => rfl
          | some memberIndex =>
            have hfn := findByNameFrom_eq files t2 files.length 0 (by omega)
            rw [List.drop_zero] at hfn
            simp only [hfn, Option.some_bind]
            cases hfile : findFileByName files t2 with
            | none => rfl
            | some targetFile =>
              have hec := emitChunksFrom_eq targetFile targetFile.chunkSha1s.length 0
                s.userIpPortMap (by omega)
              rw [List.drop_zero] at hec
              simp only [hec, Option.some_bind]
              rfl
  · simp [handleDownloadFile, Tracker.handleDownloadFile, downloadFileCore]

end Checked

end Tracker

namespace Tracker

namespace Checked

theorem handleCommand_eq (tokens : List String) (sock : Int) (s : TrackerState) :
    handleCommand tokens sock s = some (Tracker.handleCommand tokens sock s) := by
  cases tokens with
  | nil => rfl
  | cons c rest =>
    have hlen : ¬ (c :: rest).length = 0 := by simp
    have h0 : get (c :: rest) 0 = some c := get_lt (c :: rest) 0 (by simp)
    simp only [handleCommand, if_neg hlen, h0, Option.bind_eq_bind, Option.some_bind,
      Tracker.handleCommand]
    cases getCommandType c <;>
      simp only [handleCreateUser_eq, handleLogin_eq, handleCreateGroup_eq, handleJoinGroup_eq,
        handleLeaveGroup_eq, handleListGroups, Tracker.handleListGroups, handleListRequests_eq,
        handleAcceptRequest_eq, handleListFiles_eq, handleUploadFile_eq, handleDownloadFile_eq,
        handleShutdown, Tracker.handleShutdown, Option.map_some']
    split <;> rfl

/-- A round of the session loop passes every bounds check; the loop is left exactly
    when `handleCommand` returns false. -/
theorem clientHandlerRound_eq (tokens : List String) (sock : Int) (s : TrackerState) :
    clientHandlerRound tokens sock s
      = some (!(Tracker.handleCommand tokens sock s).1,
              (Tracker.handleCommand tokens sock s).2.1,
              (Tracker.handleCommand tokens sock s).2.2 ++ "\n") := by
  unfold clientHandlerRound
  rw [handleCommand_eq]
  simp only [Option.bind_eq_bind, Option.some_bind]
  cases tokens with
  | nil => rfl
  | cons c rest =>
    have h0 : get (c :: rest) 0 = some c := get_lt (c :: rest) 0 (by simp)
    have hq := getCommandType_quit c
    cases hc : getCommandType c <;> simp only [Tracker.handleCommand, hc]
    all_goals first
      | rfl
      | (rw [hc] at hq
         have hcq : c = "quit" := hq.mp rfl
         subst hcq
         simp [h0])

end Checked

/-- C29: for every token list and every state of the tables, `handleCommand` and the
    handler it dispatches to, run with the bounds check of `ArrayList::get` on every
    `get(index)`, never reach the branch `Index out of bounds`: the checked run
    returns, and it returns what `handleCommand` returns. The same holds for a round
    of the session loop of `clientHandler` with its tests on `tokens.get(0)` after
    `handleCommand`. -/
theorem get_never_out_of_bounds (tokens : List String) (clientSock : Int) (s : TrackerState) :
    Checked.handleCommand tokens clientSock s = some (handleCommand tokens clientSock s) ∧
    Checked.clientHandlerRound tokens clientSock s
      = some (!(handleCommand tokens clientSock s).1,
              (handleCommand tokens clientSock s).2.1,
              (handleCommand tokens clientSock s).2.2 ++ "\n") :=
  ⟨Checked.handleCommand_eq tokens clientSock s, Checked.clientHandlerRound_eq tokens clientSock s⟩

end Tracker

namespace Tracker

theorem handleCreateUser_groupFiles (tokens : List String) (sock : Int) (s : TrackerState) :
    (handleCreateUser tokens sock s).1.groupFiles = s.groupFiles := by
  unfold handleCreateUser
  repeat' split
  all_goals rfl

theorem handleLogin_groupFiles (tokens : List String) (sock : Int) (s : TrackerState) :
    (handleLogin tokens sock s).1.groupFiles = s.groupFiles := by
  unfold handleLogin
  repeat' split
  all_goals rfl

theorem handleCreateGroup_groupFiles (tokens : List String) (sock : Int) (s : TrackerState) :
    (handleCreateGroup tokens sock s).1.groupFiles = s.groupFiles := by
  unfold handleCreateGroup
  repeat' split
  all_goals rfl

theorem handleJoinGroup_groupFiles (tokens : List String) (sock : Int) (s : TrackerState) :
    (handleJoinGroup tokens sock s).1.groupFiles = s.groupFiles := by
  unfold handleJoinGroup
  repeat' split
  all_goals rfl

theorem handleLeaveGroup_groupFiles (tokens : List String) (sock : Int) (s : TrackerState) :
    (handleLeaveGroup tokens sock s).1.groupFiles = s.groupFiles := by
  unfold handleLeaveGroup
  repeat' split
  all_goals rfl

theorem handleAcceptRequest_groupFiles (tokens : List String) (sock : Int) (s : TrackerState) :
    (handleAcceptRequest tokens sock s).1.groupFiles = s.groupFiles := by
  unfold handleAcceptRequest
  repeat' split
  all_goals rfl

theorem handleDownloadFile_groupFiles (tokens : List String) (sock : Int) (s : TrackerState) :
    (handleDownloadFile tokens sock s).1.groupFiles = s.groupFiles := by
  unfold handleDownloadFile downloadFileCore
  repeat' split
  all_goals rfl

theorem sessionCleanup_groupFiles (sock : Int) (s : TrackerState) :
    (sessionCleanup sock s).groupFiles = s.groupFiles := by
  unfold sessionCleanup
  repeat' split
  all_goals rfl

/-- Reading through `operator[]` leaves the entries of the other keys as they were. -/
theorem mapFind_mapIndex_ne {V : Type} (m : List (String × V)) (k k' : String) (dflt : V)
    (h : k' ≠ k) : mapFind (mapIndex m k dflt).2 k' = mapFind m k' := by
  unfold mapIndex
  split
  · rfl
  · exact mapFind_mapInsert_ne _ _ _ _ h

/-- The reference `groupFiles[groupId]` is to a list already in the table, or to a
    new empty list. -/
theorem mapIndex_files (m : List (String × List File)) (k : String) :
    mapFind m k = some (mapIndex m k []).1 ∨ (mapIndex m k []).1 = [] := by
  unfold mapIndex
  cases h : mapFind m k with
  | none => exact Or.inr rfl
  | some v => exact Or.inl rfl

/-- When the upload loop finds no file, no file of the list has that name and SHA-1. -/
theorem findExistingFile_none (fileName fileSha1 : String) :
    ∀ files : List File, findExistingFile files fileName fileSha1 = none →
      ∀ f ∈ files, ¬ (f.fileName = fileName ∧ f.fileSha1 = fileSha1) := by
  intro files
  induction files with
  | nil => intro _ f hf; simp at hf
  | cons a rest ih =>
    intro h f hf
    simp only [findExistingFile] at h
    by_cases ha : a.fileName = fileName ∧ a.fileSha1 = fileSha1
    · rw [if_pos ha] at h
      simp at h
    · rw [if_neg ha] at h
      rcases List.mem_cons.mp hf with hfa | hfr
      · rw [hfa]; exact ha
      · exact ih (by simpa using h) f hfr

/-- The file the upload loop finds is at the index found and has that name and
    SHA-1. -/
theorem findExistingFile_some (fileName fileSha1 : String) :
    ∀ (files : List File) (i : Nat) (f : File),
      findExistingFile files fileName fileSha1 = some (i, f) →
      files[i]? = some f ∧ f.fileName = fileName ∧ f.fileSha1 = fileSha1 := by
  intro files
  induction files with
  | nil => intro i f h; simp [findExistingFile] at h
  | cons a rest ih =>
    intro i f h
    simp only [findExistingFile] at h
    by_cases ha : a.fileName = fileName ∧ a.fileSha1 = fileSha1
    · rw [if_pos ha] at h
      injection h with h
      injection h with h1 h2
      subst h1 h2
      exact ⟨by simp, ha⟩
    · rw [if_neg ha] at h
      cases hr : findExistingFile rest fileName fileSha1 with
      | none => rw [hr] at h; simp at h
      | some r =>
        rw [hr] at h
        simp only [Option.map_some'] at h
        injection h with h
        injection h with h1 h2
        subst h1 h2
        obtain ⟨hget, hn⟩ := ih r.1 r.2 hr
        exact ⟨by simpa using hget, hn⟩

/-- Replacing a file by one with the same name and SHA-1 keeps the files distinct. -/
theorem distinctFiles_set (files : List File) (i : Nat) (f f' : File)
    (hget : files[i]? = some f) (hn : f'.fileName = f.fileName) (hs : f'.fileSha1 = f.fileSha1)
    (h : DistinctFiles files) : DistinctFiles (files.set i f') := by
  have hkey : (files.set i f').map (fun g => (g.fileName, g.fileSha1))
      = files.map (fun g => (g.fileName, g.fileSha1)) := by
    apply List.ext_getElem?
    intro n
    simp only [List.getElem?_map, List.getElem?_set]
    by_cases hin : i = n
    · subst hin
      have hlt : i < files.length := by
        by_contra hge
        rw [List.getElem?_eq_none (by omega)] at hget
        simp at hget
      rw [if_pos rfl, hget]
      simp [hlt, hn, hs]
    · rw [if_neg hin]
  have key : ∀ l : List File, DistinctFiles l ↔
      (l.map (fun g => (g.fileName, g.fileSha1))).Pairwise
        (fun a b => ¬ (a.1 = b.1 ∧ a.2 = b.2)) := by
    intro l
    unfold DistinctFiles
    rw [List.pairwise_map]
  rw [key, hkey, ← key]
  exact h

/-- Adding a file whose name and SHA-1 no file of the list has keeps the files
    distinct. -/
theorem distinctFiles_append (files : List File) (newFile : File)
    (hnew : ∀ f ∈ files, ¬ (f.fileName = newFile.fileName ∧ f.fileSha1 = newFile.fileSha1))
    (h : DistinctFiles files) : DistinctFiles (files ++ [newFile]) := by
  unfold DistinctFiles
  rw [List.pairwise_append]
  refine ⟨h, List.pairwise_singleton _ _, ?_⟩
  intro f hf g hg
  rw [List.mem_singleton.mp hg]
  exact hnew f hf

end Tracker

namespace Tracker

/-- Writing a list of distinct files under a key of `groupFiles[groupId]` keeps the
    files of every group distinct. -/
theorem filesKeyed_insert (s : TrackerState) (groupId : String) (newFiles : List File)
    (h : FilesKeyedByNameAndSha1 s) (hnew : DistinctFiles newFiles) :
    ∀ gid files,
      mapFind (mapInsert groupId newFiles (mapIndex s.groupFiles groupId []).2) gid = some files →
      DistinctFiles files := by
  intro gid files hfind
  rw [mapFind_mapInsert] at hfind
  by_cases hk : gid = groupId
  · rw [if_pos hk] at hfind
    injection hfind with hfind
    rw [← hfind]
    exact hnew
  · rw [if_neg hk, mapFind_mapIndex_ne _ _ _ _ hk] at hfind
    exact h gid files hfind

/-- The list `groupFiles[groupId]` refers to holds distinct files. -/
theorem filesKeyed_index (s : TrackerState) (groupId : String)
    (h : FilesKeyedByNameAndSha1 s) : DistinctFiles (mapIndex s.groupFiles groupId []).1 := by
  rcases mapIndex_files s.groupFiles groupId with hsome | hnil
  · exact h groupId _ hsome
  · rw [hnil]
    exact List.Pairwise.nil

theorem handleUploadFile_keeps_distinct (tokens : List String) (sock : Int) (s : TrackerState)
    (h : FilesKeyedByNameAndSha1 s) : FilesKeyedByNameAndSha1 (handleUploadFile tokens sock s).1 := by
  unfold handleUploadFile
  split
  · rename_i t0 fileName fileSize fileSha1 groupId c cs
    simp only []
    cases hg : mapFind s.groups groupId with
    | none => exact h
    | some group =>
      simp only []
      cases hu : mapFind s.clientUserMap sock with
      | none => exact h
      | some userId =>
        simp only []
        cases hm : ArrayList.indexOfFirst group.members userId with
        | none => exact h
        | some memberIndex =>
          simp only []
          have hfiles := filesKeyed_index s groupId h
          cases hf : findExistingFile (mapIndex s.groupFiles groupId []).1 fileName fileSha1 with
          | none =>
            simp only []
            refine filesKeyed_insert s groupId _ h ?_
            exact distinctFiles_append _ _ (findExistingFile_none fileName fileSha1 _ hf) hfiles
          | some r =>
            obtain ⟨i, existingFile⟩ := r
            simp only []
            obtain ⟨hget, hn, hs⟩ := findExistingFile_some fileName fileSha1 _ i existingFile hf
            refine filesKeyed_insert s groupId _ h ?_
            refine distinctFiles_set _ i existingFile _ hget ?_ ?_ hfiles
            · unfold addSharer; split <;> rfl
            · unfold addSharer; split <;> rfl
  · exact h

theorem filesKeyed_of_groupFiles_eq (s s' : TrackerState) (heq : s'.groupFiles = s.groupFiles)
    (h : FilesKeyedByNameAndSha1 s) : FilesKeyedByNameAndSha1 s' := by
  intro gid files hfind
  rw [heq] at hfind
  exact h gid files hfind

theorem step_keeps_distinct (s : TrackerState) (e : Event) (h : FilesKeyedByNameAndSha1 s) :
    FilesKeyedByNameAndSha1 (step s e) := by
  cases e with
  | disconnect sock =>
    exact filesKeyed_of_groupFiles_eq s _ (sessionCleanup_groupFiles sock s) h
  | command tokens sock =>
    simp only [step, handleCommand]
    split
    · exact h
    · rename_i commandStr rest
      split
      · exact filesKeyed_of_groupFiles_eq s _ (handleCreateUser_groupFiles _ sock s) h
      · exact filesKeyed_of_groupFiles_eq s _ (handleLogin_groupFiles _ sock s) h
      · exact filesKeyed_of_groupFiles_eq s _ (handleCreateGroup_groupFiles _ sock s) h
      · exact filesKeyed_of_groupFiles_eq s _ (handleJoinGroup_groupFiles _ sock s) h
      · exact filesKeyed_of_groupFiles_eq s _ (handleLeaveGroup_groupFiles _ sock s) h
      · exact filesKeyed_of_groupFiles_eq s _
          (congrArg TrackerState.groupFiles (handleListGroups_state (commandStr :: rest) sock s)) h
      · exact filesKeyed_of_groupFiles_eq s _
          (congrArg TrackerState.groupFiles
            (handleListRequests_state (commandStr :: rest) sock s)) h
      · exact filesKeyed_of_groupFiles_eq s _ (handleAcceptRequest_groupFiles _ sock s) h
      · exact filesKeyed_of_groupFiles_eq s _
          (congrArg TrackerState.groupFiles (handleListFiles_state (commandStr :: rest) sock s)) h
      · exact handleUploadFile_keeps_distinct _ sock s h
      · exact filesKeyed_of_groupFiles_eq s _ (handleDownloadFile_groupFiles _ sock s) h
      · exact filesKeyed_of_groupFiles_eq s _ rfl h
      · exact h
      · exact h

/-- The lookup of `handleDownloadFile` returns the first file of the list with the
    name asked for. -/
theorem findFileByName_first (fileName : String) :
    ∀ files : List File,
      findFileByName files fileName = files.find? (fun f => decide (f.fileName = fileName)) := by
  intro files
  induction files with
  | nil => rfl
  | cons a rest ih =>
    simp only [findFileByName, List.find?_cons]
    by_cases ha : a.fileName = fileName
    · simp [ha]
    · simp [ha, ih]

/-- C28 (amended): in every state reached from the start by a sequence of commands
    and session ends, no two files of a group's list have both the same name and
    the same SHA-1, so a file is singled out by `(group_id, file_name, file_sha1)`;
    `download_file` takes the first file of the list that has the name asked for. -/
theorem files_keyed_by_name_and_sha1 (events : List Event) :
    FilesKeyedByNameAndSha1 (run init events) ∧
    (∀ files fileName,
      findFileByName files fileName = files.find? (fun f => decide (f.fileName = fileName))) :=
  ⟨run_invariant FilesKeyedByNameAndSha1 step_keeps_distinct events init
    (by intro gid files hfind; simp [init, mapFind] at hfind),
   fun files fileName => findFileByName_first fileName files⟩

end Tracker

/-! ## The downloader -/

namespace Client

theorem readChunk_holders (f : ChunkFields) :
    (readChunk f).peersWithChunk.length = (readChunk f).availability.toNat := by
  simp [readChunk]

/-- C9: the rarest-first sort of a parsed plan yields a permutation of the plan's
    chunk entries in non-decreasing order of holder count, so a chunk with fewer
    holders always comes before a chunk with more holders. -/
theorem sortPlan_perm_sorted (fields : List ChunkFields) :
    (sortPlan (readPlan fields)).Perm (readPlan fields) ∧
    (sortPlan (readPlan fields)).Pairwise
      (fun a b => a.peersWithChunk.length ≤ b.peersWithChunk.length) := by
  have hperm : (sortPlan (readPlan fields)).Perm (readPlan fields) :=
    ArrayList.sort_perm rarestFirst (readPlan fields)
  refine ⟨hperm, ?_⟩
  have hsorted := ArrayList.sort_sorted rarestFirst (fun c => c.availability)
    (fun a b => rfl) (readPlan fields)
  have hcount : ∀ c ∈ sortPlan (readPlan fields),
      c.peersWithChunk.length = c.availability.toNat := by
    intro c hc
    have hc' : c ∈ readPlan fields := hperm.mem_iff.mp hc
    obtain ⟨f, _, rfl⟩ := List.mem_map.mp hc'
    exact readChunk_holders f
  refine List.Pairwise.imp_of_mem ?_ hsorted
  intro a b ha hb hab
  rw [hcount a ha, hcount b hb]
  exact Int.toNat_le_toNat hab

/-- C8: on a plan with two chunks of one holder each, the sort puts chunk 1 before
    chunk 0: equal holder counts do not keep the plan's order. -/
theorem sortPlan_swaps_tied_chunks :
    (tiedPlan.map (fun c => (c.chunkIndex, c.peersWithChunk.length))) = [(0, 1), (1, 1)] ∧
    ((sortPlan tiedPlan).map (fun c => c.chunkIndex)) = [1, 0] := by
  decide

theorem fetchFrom_eq_some_iff (sha1 : Bytes → String) (expectedSha1 : String)
    (expected : Nat) (a : Attempt) (bytes : Bytes) :
    fetchFrom sha1 expectedSha1 expected a = some bytes ↔
      VerifiedResponse sha1 expectedSha1 expected a bytes := by
  constructor
  · intro h
    cases a with
    | connected recvs =>
      simp only [fetchFrom] at h
      split at h
      · exact absurd h (by simp)
      · split at h
        · exact absurd h (by simp)
        · rename_i h1 h2
          simp at h1 h2 h
          refine ⟨recvs, rfl, ?_, ?_, ?_⟩
          · rw [← h]; exact Prod.ext rfl h1.1
          · rw [← h]; exact h1.2
          · rw [← h]; exact h2
    | _ => simp [fetchFrom] at h
  · rintro ⟨recvs, rfl, hloop, hlen, hsha⟩
    simp [fetchFrom, hloop, hlen, hsha]

theorem tryHolders_first (sha1 : Bytes → String) (expectedSha1 : String) (expected : Nat)
    (attempt : Nat → Attempt) :
    ∀ (peers : List PeerInfo) (i k : Nat) (bytes : Bytes), k < peers.length →
      fetchFrom sha1 expectedSha1 expected (attempt (i + k)) = some bytes →
      (∀ j, j < k → fetchFrom sha1 expectedSha1 expected (attempt (i + j)) = none) →
      tryHolders sha1 expectedSha1 expected attempt i peers = (some bytes, peers.take (k + 1)) := by
  intro peers
  induction peers with
  | nil => intro i k bytes hk; simp at hk
  | cons peer rest ih =>
    intro i k bytes hk hgood hbad
    cases k with
    | zero =>
      simp only [Nat.add_zero] at hgood
      simp [tryHolders, hgood]
    | succ k =>
      have h0 := hbad 0 (by omega)
      simp only [Nat.add_zero] at h0
      have hrec := ih (i + 1) k bytes (by simpa using hk)
        (by rw [show i + 1 + k = i + (k + 1) by omega]; exact hgood)
        (fun j hj => by
          rw [show i + 1 + j = i + (j + 1) by omega]; exact hbad (j + 1) (by omega))
      simp [tryHolders, h0, hrec]

theorem tryHolders_none (sha1 : Bytes → String) (expectedSha1 : String) (expected : Nat)
    (attempt : Nat → Attempt) :
    ∀ (peers : List PeerInfo) (i : Nat),
      (∀ j, j < peers.length → fetchFrom sha1 expectedSha1 expected (attempt (i + j)) = none) →
      tryHolders sha1 expectedSha1 expected attempt i peers = (none, peers) := by
  intro peers
  induction peers with
  | nil => intro i _; simp [tryHolders]
  | cons peer rest ih =>
    intro i hbad
    have h0 := hbad 0 (by simp)
    simp only [Nat.add_zero] at h0
    have hrec := ih (i + 1) (fun j hj => by
      rw [show i + 1 + j = i + (j + 1) by omega]; exact hbad (j + 1) (by simpa using hj))
    simp [tryHolders, h0, hrec]

theorem tryHolders_some_verified (sha1 : Bytes → String) (expectedSha1 : String)
    (expected : Nat) (attempt : Nat → Attempt) :
    ∀ (peers : List PeerInfo) (i : Nat) (bytes : Bytes),
      (tryHolders sha1 expectedSha1 expected attempt i peers).1 = some bytes →
      bytes.length = expected ∧ sha1 bytes = expectedSha1 := by
  intro peers
  induction peers with
  | nil => intro i bytes h; simp [tryHolders] at h
  | cons peer rest ih =>
    intro i bytes h
    simp only [tryHolders] at h
    cases hf : fetchFrom sha1 expectedSha1 expected (attempt i) with
    | some b =>
      rw [hf] at h
      simp only [Option.some.injEq] at h
      subst h
      obtain ⟨_, _, _, hlen, hsha⟩ := (fetchFrom_eq_some_iff _ _ _ _ _).mp hf
      exact ⟨hlen, hsha⟩
    | none =>
      rw [hf] at h
      exact ih (i + 1) bytes h

theorem downloadChunk_keeps_verified (sha1 : Bytes → String) (chunkInfoList : List ChunkInfo)
    (totalChunks downloadFileSize : Int) (attempt : Nat → Attempt) (listIndex : Nat)
    (chunkData : List (Int × Bytes))
    (h : ChunkMapVerified sha1 chunkInfoList totalChunks downloadFileSize chunkData) :
    ChunkMapVerified sha1 chunkInfoList totalChunks downloadFileSize
      (downloadChunk sha1 chunkInfoList totalChunks downloadFileSize attempt listIndex
        chunkData).1 := by
  unfold downloadChunk
  cases hget : chunkInfoList.get? listIndex with
  | none => exact h
  | some chunkInfo =>
    simp only
    cases htry : (tryHolders sha1 chunkInfo.expectedSha1
        (expectedChunkSize chunkInfo.chunkIndex totalChunks downloadFileSize) attempt 0
        chunkInfo.peersWithChunk).1 with
    | none => exact h
    | some stored =>
      obtain ⟨hlen, hsha⟩ := tryHolders_some_verified _ _ _ _ _ _ _ htry
      intro idx bytes hfind
      simp only [mapFind_mapInsert] at hfind
      split at hfind
      · rename_i hidx
        injection hfind with hfind
        subst hfind hidx
        exact ⟨hlen, chunkInfo, List.get?_mem hget, rfl, hsha⟩
      · exact h idx bytes hfind

theorem runWorkers_verified (sha1 : Bytes → String) (chunkInfoList : List ChunkInfo)
    (totalChunks downloadFileSize : Int) (attempts : Nat → Nat → Attempt) :
    ∀ (order : List Nat) (chunkData : List (Int × Bytes)),
      ChunkMapVerified sha1 chunkInfoList totalChunks downloadFileSize chunkData →
      ChunkMapVerified sha1 chunkInfoList totalChunks downloadFileSize
        (runWorkers sha1 chunkInfoList totalChunks downloadFileSize attempts order
          chunkData) := by
  intro order
  induction order with
  | nil => intro chunkData h; exact h
  | cons l rest ih =>
    intro chunkData h
    exact ih _ (downloadChunk_keeps_verified sha1 chunkInfoList totalChunks
      downloadFileSize (attempts l) l chunkData h)

/-- C10: `downloadChunk` tries the holders of its plan entry in the listed order.
    When holder `k` is the first whose response is verified (exactly the expected
    number of bytes, with the expected SHA-1), its bytes are stored in the chunk map
    under the chunk's index, exactly the holders `0..k` were tried, and the stored
    bytes have the expected length and digest. When no holder gives a verified
    response, all holders were tried and the chunk map is left as it was. Hence,
    whatever the workers meet and in whatever order they finish, every entry of the
    chunk map filled from the cleared map has the expected length and digest. -/
theorem downloadChunk_first_verified (sha1 : Bytes → String) (chunkInfoList : List ChunkInfo)
    (totalChunks downloadFileSize : Int) (attempt : Nat → Attempt) (listIndex : Nat)
    (chunkData : List (Int × Bytes)) (chunkInfo : ChunkInfo)
    (hget : chunkInfoList.get? listIndex = some chunkInfo) :
    (∀ (k : Nat) (bytes : Bytes), k < chunkInfo.peersWithChunk.length →
      VerifiedResponse sha1 chunkInfo.expectedSha1
        (expectedChunkSize chunkInfo.chunkIndex totalChunks downloadFileSize) (attempt k) bytes →
      (∀ j, j < k → ∀ b, ¬ VerifiedResponse sha1 chunkInfo.expectedSha1
        (expectedChunkSize chunkInfo.chunkIndex totalChunks downloadFileSize) (attempt j) b) →
      downloadChunk sha1 chunkInfoList totalChunks downloadFileSize attempt listIndex chunkData
          = (mapInsert chunkInfo.chunkIndex bytes chunkData,
             chunkInfo.peersWithChunk.take (k + 1)) ∧
        bytes.length = expectedChunkSize chunkInfo.chunkIndex totalChunks downloadFileSize ∧
        sha1 bytes = chunkInfo.expectedSha1) ∧
    ((∀ k, k < chunkInfo.peersWithChunk.length → ∀ b, ¬ VerifiedResponse sha1
        chunkInfo.expectedSha1
        (expectedChunkSize chunkInfo.chunkIndex totalChunks downloadFileSize) (attempt k) b) →
      downloadChunk sha1 chunkInfoList totalChunks downloadFileSize attempt listIndex chunkData
          = (chunkData, chunkInfo.peersWithChunk)) ∧
    (∀ (attempts : Nat → Nat → Attempt) (order : List Nat),
      ChunkMapVerified sha1 chunkInfoList totalChunks downloadFileSize
        (runWorkers sha1 chunkInfoList totalChunks downloadFileSize attempts order [])) := by
  have hnone : ∀ j, (∀ b, ¬ VerifiedResponse sha1 chunkInfo.expectedSha1
        (expectedChunkSize chunkInfo.chunkIndex totalChunks downloadFileSize) (attempt j) b) →
      fetchFrom sha1 chunkInfo.expectedSha1
        (expectedChunkSize chunkInfo.chunkIndex totalChunks downloadFileSize) (attempt j)
        = none := by
    intro j hj
    cases hf : fetchFrom sha1 chunkInfo.expectedSha1
        (expectedChunkSize chunkInfo.chunkIndex totalChunks downloadFileSize) (attempt j) with
    | none => rfl
    | some b => exact absurd ((fetchFrom_eq_some_iff _ _ _ _ _).mp hf) (hj b)
  refine ⟨?_, ?_, ?_⟩
  · intro k bytes hk hgood hbad
    have hfirst := tryHolders_first sha1 chunkInfo.expectedSha1
      (expectedChunkSize chunkInfo.chunkIndex totalChunks downloadFileSize) attempt
      chunkInfo.peersWithChunk 0 k bytes hk
      (by rw [Nat.zero_add]; exact (fetchFrom_eq_some_iff _ _ _ _ _).mpr hgood)
      (fun j hj => by rw [Nat.zero_add]; exact hnone j (hbad j hj))
    obtain ⟨_, _, _, hlen, hsha⟩ := hgood
    refine ⟨?_, hlen, hsha⟩
    simp only [downloadChunk, hget, hfirst]
  · intro hbad
    have hall := tryHolders_none sha1 chunkInfo.expectedSha1
      (expectedChunkSize chunkInfo.chunkIndex totalChunks downloadFileSize) attempt
      chunkInfo.peersWithChunk 0
      (fun j hj => by rw [Nat.zero_add]; exact hnone j (hbad j hj))
    simp only [downloadChunk, hget, hall]
  · intro attempts order
    exact runWorkers_verified sha1 chunkInfoList totalChunks downloadFileSize attempts order []
      (by intro idx bytes hfind; simp [mapFind] at hfind)

/-- Witness for C10: with `threeAttempts`, holder 1 is the first verified one; its
    two bytes are stored under chunk 0 and holder 2 is not tried. -/
theorem downloadChunk_first_verified_witness :
    [threeHolders].get? 0 = some threeHolders ∧
    downloadChunk lengthDigest [threeHolders] 1 2 threeAttempts 0 []
      = (mapInsert (0 : Int) [7, 9] [], threeHolders.peersWithChunk.take 2) ∧
    ([7, 9] : Bytes).length = expectedChunkSize threeHolders.chunkIndex 1 2 ∧
    lengthDigest [7, 9] = threeHolders.expectedSha1 :=
  ⟨rfl,
   ((downloadChunk_first_verified lengthDigest [threeHolders] 1 2 threeAttempts 0 []
      threeHolders rfl).1 1 [7, 9] (by decide)
      ⟨[.data [7], .data [9, 1]], rfl, by decide, by decide, by decide⟩
      (fun j hj b hb => by
        have hj0 : j = 0 := by omega
        subst hj0
        obtain ⟨recvs, h, _⟩ := hb
        exact absurd h (by simp [threeAttempts])))⟩

theorem expectedChunkSize_eq_lawLength (S i : Nat) (hS1 : 1 ≤ S) (hS2 : S ≤ 2147483648)
    (hi : i < chunkCount S) :
    expectedChunkSize (i : Int) (chunkCount S : Int) (S : Int) = lawLength S (chunkCount S) i := by
  unfold expectedChunkSize lawLength wrapInt32 toSizeT CHUNK_SIZE chunkCount at *
  split <;> split <;> omega

theorem lawLength_prefix_sum (S tc : Nat) :
    ∀ n : Nat, n ≤ tc - 1 → ((List.range n).map (lawLength S tc)).sum = n * 524288 := by
  intro n
  induction n with
  | zero => intro _; simp
  | succ n ih =>
    intro hn
    rw [List.range_succ, List.map_append, List.sum_append, ih (by omega)]
    have : lawLength S tc n = 524288 := by
      unfold lawLength
      rw [if_pos (by omega)]
    simp [this]
    omega

/-- C14: for a file of `S` bytes, `1 <= S <= 2^31`, in `ceil(S/524288)` chunks and
    every chunk index `i` below that count: the chunk server's offset is
    `i * 524288`; the length that the chunk server and the downloader compute is
    524288 for `i < total_chunks - 1` and `S - (total_chunks-1)*524288` for the
    last chunk, which is `S mod 524288` when that is nonzero and 524288 otherwise;
    every length is in `[1, 524288]`; the lengths of the chunks before `i` sum to
    the offset of chunk `i`, and all lengths sum to `S`. -/
theorem chunk_size_law (S i : Nat) (hS1 : 1 ≤ S) (hS2 : S ≤ 2147483648)
    (hi : i < chunkCount S) :
    chunkOffset (i : Int) = ((i * 524288 : Nat) : Int) ∧
    expectedChunkSize (i : Int) (chunkCount S : Int) (S : Int)
      = (if i < chunkCount S - 1 then 524288 else S - (chunkCount S - 1) * 524288) ∧
    S - (chunkCount S - 1) * 524288 = (if S % 524288 ≠ 0 then S % 524288 else 524288) ∧
    1 ≤ expectedChunkSize (i : Int) (chunkCount S : Int) (S : Int) ∧
    expectedChunkSize (i : Int) (chunkCount S : Int) (S : Int) ≤ 524288 ∧
    ((List.range i).map
      (fun j : Nat => expectedChunkSize (j : Int) (chunkCount S : Int) (S : Int))).sum
      = i * 524288 ∧
    ((List.range (chunkCount S)).map
      (fun j : Nat => expectedChunkSize (j : Int) (chunkCount S : Int) (S : Int))).sum = S := by
  have hlaw := expectedChunkSize_eq_lawLength S i hS1 hS2 hi
  have hmap : ∀ n, n ≤ chunkCount S →
      (List.range n).map
        (fun j : Nat => expectedChunkSize (j : Int) (chunkCount S : Int) (S : Int))
      = (List.range n).map (lawLength S (chunkCount S)) := by
    intro n hn
    apply List.map_congr_left
    intro j hj
    exact expectedChunkSize_eq_lawLength S j hS1 hS2 (by
      have := List.mem_range.mp hj
      omega)
  have htc : 1 ≤ chunkCount S := by unfold chunkCount; omega
  refine ⟨?_, ?_, ?_, ?_, ?_, ?_, ?_⟩
  · simp [chunkOffset, CHUNK_SIZE]
  · rw [hlaw]; rfl
  · unfold chunkCount; split <;> omega
  · rw [hlaw]; unfold lawLength chunkCount at *; split <;> omega
  · rw [hlaw]; unfold lawLength chunkCount at *; split <;> omega
  · rw [hmap i (by omega)]
    exact lawLength_prefix_sum S (chunkCount S) i (by omega)
  · rw [hmap (chunkCount S) (le_refl _)]
    obtain ⟨k, hk⟩ : ∃ k, chunkCount S = k + 1 := ⟨chunkCount S - 1, by omega⟩
    rw [hk, List.range_succ, List.map_append, List.sum_append, ← hk,
      lawLength_prefix_sum S (chunkCount S) k (by omega)]
    have hlast : lawLength S (chunkCount S) k = S - k * 524288 := by
      unfold lawLength
      rw [if_neg (by omega)]
      rw [show chunkCount S - 1 = k by omega]
    simp [hlast]
    unfold chunkCount at hk
    omega

/-- Witness for C14: a file of 524289 bytes has two chunks, of 524288 bytes and of
    1 byte; files of 524288 and of 1572864 bytes have one and three full chunks. -/
theorem chunk_size_law_witness :
    (1 ≤ 524289 ∧ 524289 ≤ 2147483648 ∧ 1 < chunkCount 524289) ∧
    expectedChunkSize ((1 : Nat) : Int) (chunkCount 524289 : Int) ((524289 : Nat) : Int)
      = (if 1 < chunkCount 524289 - 1 then 524288
         else 524289 - (chunkCount 524289 - 1) * 524288) ∧
    (chunkCount 524288, chunkCount 524289, chunkCount 1572864) = (1, 2, 3) ∧
    (List.range 3).map
      (fun j : Nat => expectedChunkSize (j : Int) (chunkCount 1572864 : Int) 1572864)
      = [524288, 524288, 524288] :=
  ⟨by decide,
   (chunk_size_law 524289 1 (by decide) (by decide) (by decide)).2.1,
   by decide, by decide⟩

/-- A round of the read loop that starts with the buffer full or at the end of the
    file ends the loop. -/
theorem readLoop_done (expected fuel : Nat) (rest buffer : Bytes)
    (h : expected ≤ buffer.length ∨ rest = []) :
    readLoop false expected (fuel + 1) rest buffer = (buffer, false) := by
  rw [readLoop]
  rcases h with h | h
  · rw [if_neg (by omega)]
  · subst h
    simp

/-- The read loop of the chunk server, when no `read` fails, gathers the bytes of
    the file from the offset on, up to the expected chunk size. -/
theorem readLoop_gathers (expected : Nat) (rest : Bytes) :
    readLoop false expected (expected + 1) rest [] = (rest.take expected, false) := by
  cases expected with
  | zero => simp [readLoop]
  | succ e =>
    rw [readLoop]
    simp only [List.length_nil, Nat.zero_lt_succ, if_true, Nat.sub_zero,
      List.nil_append, Bool.false_eq_true, if_false]
    by_cases hgot : (List.take (e + 1) rest).isEmpty = true
    · simp only [hgot, if_true]
      rw [List.isEmpty_iff] at hgot
      rw [hgot]
    · simp only [hgot, if_false]
      apply readLoop_done
      by_cases hfull : e + 1 ≤ (List.take (e + 1) rest).length
      · exact Or.inl hfull
      · right
        rw [List.length_take] at hfull ⊢
        apply List.drop_eq_nil_of_le
        omega

/-- A request for a chunk of a registered file that is on disk, at a non-negative
    offset before the end of the file and without a failing system call, is
    answered with the bytes from that offset on, up to the expected size. -/
theorem serveRequest_serves (ownedFilesInfo : List (String × OwnedFileInfo))
    (disk : List (String × DiskFile)) (fileName : String) (fileInfo : OwnedFileInfo)
    (file : DiskFile) (chunkIndex : Int)
    (hown : mapFind ownedFilesInfo fileName = some fileInfo)
    (hdisk : mapFind disk fileInfo.filePath = some file)
    (hopen : file.openFails = false) (hseek : file.seekFails = false)
    (hread : file.readFails = false) (h0 : 0 ≤ chunkIndex)
    (hlt : chunkOffset chunkIndex < Int.ofNat file.content.length) :
    serveRequest ownedFilesInfo disk "get_chunk" fileName chunkIndex
      = .chunk ((file.content.drop (chunkOffset chunkIndex).toNat).take
          (expectedChunkSize chunkIndex fileInfo.totalChunks
            (Int.ofNat file.content.length))) := by
  have hoff : ¬ chunkOffset chunkIndex < 0 := by
    unfold chunkOffset CHUNK_SIZE
    omega
  simp only [serveRequest, if_true, hown, hdisk, hopen, hseek, hread,
    readLoop_gathers, ge_iff_le, not_le.mpr hlt, hoff, if_false, Bool.false_eq_true,
    or_self]

/-- C12: the file was registered with two chunks and has since been cut down to
    three bytes. The request for chunk 0, whose length is 524288, is answered with
    the three bytes left in the file and without an error line. -/
theorem truncated_file_served_short :
    expectedChunkSize 0 2 3 = 524288 ∧
    serveRequest twoChunkRegistry truncatedDisk "get_chunk" "f.bin" 0 = .chunk [1, 2, 3] := by
  decide

/-- C13 (counterexample): the file was registered with one chunk and has since
    grown to 524289 bytes. The request for chunk index 1, outside `[0, 1)`, is
    answered with the last byte of the file and not with an error line. -/
theorem grown_file_serves_index_past_count :
    serveRequest oneChunkRegistry grownDisk "get_chunk" "f.bin" 1 = .chunk [0] := by
  have hlen : (List.replicate 524289 (0 : UInt8)).length = 524289 := List.length_replicate _ _
  rw [serveRequest_serves oneChunkRegistry grownDisk "f.bin"
    { filePath := "/tmp/f.bin", fileSHA1 := "s", chunkSHA1s := ["c0"], totalChunks := 1 }
    { content := List.replicate 524289 0, openFails := false, seekFails := false,
      readFails := false } 1 rfl rfl rfl rfl rfl (by decide)
    (by simp only [hlen]; decide)]
  have hoff : (chunkOffset 1).toNat = 524288 := by decide
  simp only [hoff, hlen, List.drop_replicate, List.take_replicate]
  decide

/-- C13 (amended): for a registered file, a request for chunk index `i` is answered
    with an error line, and no file bytes, whenever `i` is negative or
    `i * 524288` is not below the size of the file on disk; this covers every
    `i >= total_chunks` as long as the file on disk has at most
    `total_chunks * 524288` bytes. -/
theorem serveRequest_refuses_out_of_range (ownedFilesInfo : List (String × OwnedFileInfo))
    (disk : List (String × DiskFile)) (fileName : String) (fileInfo : OwnedFileInfo)
    (chunkIndex : Int)
    (hown : mapFind ownedFilesInfo fileName = some fileInfo) :
    ((chunkIndex < 0 ∨ ∀ file, mapFind disk fileInfo.filePath = some file →
        Int.ofNat file.content.length ≤ chunkIndex * 524288) →
      (serveRequest ownedFilesInfo disk "get_chunk" fileName chunkIndex).isErrorLine = true) ∧
    ((fileInfo.totalChunks ≤ chunkIndex ∧
        ∀ file, mapFind disk fileInfo.filePath = some file →
          Int.ofNat file.content.length ≤ fileInfo.totalChunks * 524288) →
      (serveRequest ownedFilesInfo disk "get_chunk" fileName chunkIndex).isErrorLine = true) := by
  have key : (chunkIndex < 0 ∨ ∀ file, mapFind disk fileInfo.filePath = some file →
        Int.ofNat file.content.length ≤ chunkIndex * 524288) →
      (serveRequest ownedFilesInfo disk "get_chunk" fileName chunkIndex).isErrorLine = true := by
    intro hout
    simp only [serveRequest, if_true, hown]
    cases hdisk : mapFind disk fileInfo.filePath with
    | none => rfl
    | some file =>
      simp only
      split
      · rfl
      · split
        · rfl
        · split
          · rfl
          · rename_i hge _ hseek
            exfalso
            rcases hout with hneg | hsize
            · apply hseek
              left
              unfold chunkOffset CHUNK_SIZE
              omega
            · apply hge
              have := hsize file hdisk
              unfold chunkOffset CHUNK_SIZE
              omega
  refine ⟨key, ?_⟩
  rintro ⟨htc, hsize⟩
  apply key
  right
  intro file hfile
  have := hsize file hfile
  omega

/-- Witness for C13 (amended): with the file of three bytes registered with one
    chunk, index 1 is refused. -/
theorem serveRequest_refuses_out_of_range_witness :
    mapFind oneChunkRegistry "f.bin"
      = some { filePath := "/tmp/f.bin", fileSHA1 := "s", chunkSHA1s := ["c0"],
               totalChunks := 1 } ∧
    (serveRequest oneChunkRegistry truncatedDisk "get_chunk" "f.bin" 1).isErrorLine = true :=
  ⟨by decide,
   (serveRequest_refuses_out_of_range oneChunkRegistry truncatedDisk "f.bin"
      { filePath := "/tmp/f.bin", fileSHA1 := "s", chunkSHA1s := ["c0"], totalChunks := 1 }
      1 (by decide)).2
      ⟨by decide, by
        intro file hfile
        simp only [truncatedDisk, mapFind, if_true, Option.some.injEq] at hfile
        rw [← hfile]
        decide⟩⟩

theorem readChunks_length :
    ∀ (fuel : Nat) (rest : Bytes), rest.length ≤ fuel →
      (readChunks fuel rest).length = chunkCount rest.length := by
  intro fuel
  induction fuel with
  | zero =>
    intro rest h
    have : rest = [] := List.length_eq_zero.mp (by omega)
    subst this
    simp [readChunks, chunkCount]
  | succ fuel ih =>
    intro rest h
    rw [readChunks]
    by_cases hgot : (List.take CHUNK_SIZE rest).isEmpty = true
    · simp only [hgot, if_true]
      rw [List.isEmpty_iff, List.take_eq_nil_iff] at hgot
      rcases hgot with hgot | hgot
      · simp [CHUNK_SIZE] at hgot
      · subst hgot; simp [chunkCount]
    · rw [if_neg hgot, List.length_cons]
      have hne : rest ≠ [] := by
        intro hnil; subst hnil; simp at hgot
      have hpos : 1 ≤ rest.length := by
        cases rest with
        | nil => exact absurd rfl hne
        | cons a r => simp
      rw [ih (rest.drop CHUNK_SIZE) (by simp [CHUNK_SIZE]; omega)]
      simp only [List.length_drop, chunkCount, CHUNK_SIZE]
      omega

theorem readChunks_get :
    ∀ (fuel : Nat) (rest : Bytes) (i : Nat), rest.length ≤ fuel → i < chunkCount rest.length →
      (readChunks fuel rest)[i]? = some ((rest.drop (i * CHUNK_SIZE)).take CHUNK_SIZE) := by
  intro fuel
  induction fuel with
  | zero =>
    intro rest i h hi
    have : rest = [] := List.length_eq_zero.mp (by omega)
    subst this
    simp [chunkCount] at hi
  | succ fuel ih =>
    intro rest i h hi
    rw [readChunks]
    by_cases hgot : (List.take CHUNK_SIZE rest).isEmpty = true
    · exfalso
      rw [List.isEmpty_iff, List.take_eq_nil_iff] at hgot
      rcases hgot with hgot | hgot
      · simp [CHUNK_SIZE] at hgot
      · subst hgot; simp [chunkCount] at hi
    · rw [if_neg hgot]
      cases i with
      | zero => simp
      | succ i =>
        have hne : rest ≠ [] := by
          intro hnil; subst hnil; simp at hgot
        have hpos : 1 ≤ rest.length := by
          cases rest with
          | nil => exact absurd rfl hne
          | cons a r => simp
        rw [List.getElem?_cons_succ,
          ih (rest.drop CHUNK_SIZE) i (by simp [CHUNK_SIZE]; omega)
            (by simp only [List.length_drop, chunkCount, CHUNK_SIZE] at hi ⊢; omega)]
        rw [List.drop_drop]
        rw [show CHUNK_SIZE + i * CHUNK_SIZE = (i + 1) * CHUNK_SIZE by
          simp [CHUNK_SIZE]; omega]

theorem foldl_append_eq_join (l : List String) (init : String) :
    l.foldl (fun acc sha => acc ++ (" " ++ sha)) init
      = init ++ String.join (l.map (fun sha => " " ++ sha)) := by
  have hjoin : ∀ (xs : List String) (a : String),
      xs.foldl (fun r s => r ++ s) a = a ++ xs.foldl (fun r s => r ++ s) "" := by
    intro xs
    induction xs with
    | nil => intro a; simp
    | cons x rest ih =>
      intro a
      simp only [List.foldl_cons]
      rw [ih (a ++ x), ih ("" ++ x), String.empty_append, String.append_assoc]
  unfold String.join
  rw [← hjoin, List.foldl_map]

theorem computeManifest_length (sha1 : Bytes → String) (content : Bytes) :
    (computeManifest sha1 content).length = chunkCount content.length := by
  unfold computeManifest
  rw [List.length_map, readChunks_length _ _ (Nat.le_succ _)]

/-- The upload of a file that can be opened and read, with a non-empty digest,
    sends the command and keeps the record for the chunk server. -/
theorem uploadFile_sent (sha1 : Bytes → String) (disk : List (String × DiskFile))
    (filePath groupId : String) (file : DiskFile)
    (hdisk : mapFind disk filePath = some file)
    (hopen : file.openFails = false) (hread : file.readFails = false)
    (hsha : sha1 file.content ≠ "") :
    uploadFile sha1 disk filePath groupId
      = .sent
          ("upload_file " ++ getBaseName filePath ++ " " ++ toString file.content.length ++ " " ++
              sha1 file.content ++ " " ++ groupId ++
              String.join ((computeManifest sha1 file.content).map (fun sha => " " ++ sha)) ++
            "\n")
          { filePath := filePath, fileSHA1 := sha1 file.content,
            chunkSHA1s := computeManifest sha1 file.content,
            totalChunks := Int.ofNat (chunkCount file.content.length) } := by
  have hne : (sha1 file.content).isEmpty = false := by
    cases h : (sha1 file.content).isEmpty with
    | false => rfl
    | true =>
      exfalso
      apply hsha
      simpa [String.isEmpty_iff] using h
  simp only [uploadFile, hdisk, hopen, hread, hne, Bool.false_eq_true, if_false,
    foldl_append_eq_join, computeManifest_length]

/-- When no `write` fails, the reassembly loop writes the chunks present, in the
    order of the indices, and reports the indices without a chunk. -/
theorem writeChunks_writes_present (chunkData : List (Int × Bytes)) (writeFails : Int → Bool)
    (hwrite : ∀ i, writeFails i = false) :
    ∀ indices : List Int,
      writeChunks chunkData writeFails indices
        = ((indices.filterMap (mapFind chunkData)).flatten,
           indices.filter (fun i => (mapFind chunkData i).isNone), false) := by
  intro indices
  induction indices with
  | nil => simp [writeChunks]
  | cons i rest ih =>
    rw [writeChunks]
    cases hfind : mapFind chunkData i with
    | none => simp [ih, hfind]
    | some data => simp [ih, hfind, hwrite i]

theorem infix_flatten_of_mem {α : Type} (x : List α) :
    ∀ L : List (List α), x ∈ L → x <:+: L.flatten := by
  intro L
  induction L with
  | nil => intro h; simp at h
  | cons y rest ih =>
    intro h
    rw [List.flatten_cons]
    rcases List.mem_cons.mp h with h | h
    · subst h
      exact (List.prefix_append x rest.flatten).isInfix
    · obtain ⟨a, b, hab⟩ := ih h
      exact ⟨y ++ a, b, by rw [← hab]; simp⟩

/-- The outcome of the reassembly when the destination file opens and no `write`
    fails. -/
theorem reassemble_closed_form (sha1 : Bytes → String) (downloadFileSha1 : String)
    (totalChunks : Int) (chunkData : List (Int × Bytes)) (writeFails : Int → Bool)
    (hwrite : ∀ i, writeFails i = false) :
    reassemble sha1 downloadFileSha1 totalChunks chunkData false writeFails
      = some { content := ((chunkIndices totalChunks).filterMap (mapFind chunkData)).flatten,
               missing := (chunkIndices totalChunks).filter
                 (fun i => (mapFind chunkData i).isNone),
               writeFailed := false,
               verified := decide
                 (sha1 ((chunkIndices totalChunks).filterMap (mapFind chunkData)).flatten
                   = downloadFileSha1) } := by
  simp [reassemble, writeChunks_writes_present chunkData writeFails hwrite]

/-- C17 (counterexample): for a plan of two chunks of which only chunk 1 was
    fetched, the reassembly reports chunk 0 missing and still writes chunk 1: the
    destination file is left with the bytes of chunk 1. -/
theorem missing_chunk_leaves_partial_file :
    mapFind [((1 : Int), ([5] : Bytes))] 0 = none ∧
    reassemble lengthDigest "2" 2 [(1, [5])] false (fun _ => false)
      = some { content := [5], missing := [0], writeFailed := false, verified := false } := by
  decide

/-- C17 (amended): if a chunk index below `total_chunks` has no entry in the chunk
    map, then, when the destination file opens and no `write` fails, the
    reassembly reports that index as missing and still writes the chunks that are
    present: every present chunk is part of the destination file, which is a
    partially completed file. -/
theorem reassemble_partial_on_missing (sha1 : Bytes → String) (downloadFileSha1 : String)
    (totalChunks : Int) (chunkData : List (Int × Bytes)) (writeFails : Int → Bool)
    (absent : Int) (hrange : absent ∈ chunkIndices totalChunks)
    (habsent : mapFind chunkData absent = none)
    (hwrite : ∀ i, writeFails i = false) :
    ∃ r, reassemble sha1 downloadFileSha1 totalChunks chunkData false writeFails = some r ∧
      absent ∈ r.missing ∧
      ∀ j ∈ chunkIndices totalChunks, ∀ bytes, mapFind chunkData j = some bytes →
        bytes <:+: r.content := by
  refine ⟨_, reassemble_closed_form sha1 downloadFileSha1 totalChunks chunkData
    writeFails hwrite, ?_, ?_⟩
  · simp only [List.mem_filter]
    exact ⟨hrange, by simp [habsent]⟩
  · intro j hj bytes hfind
    apply infix_flatten_of_mem
    exact List.mem_filterMap.mpr ⟨j, hj, hfind⟩

/-- Witness for C17 (amended): chunk 0 of two is absent; it is reported and chunk 1
    is written. -/
theorem reassemble_partial_on_missing_witness :
    ((0 : Int) ∈ chunkIndices 2 ∧ mapFind [((1 : Int), ([5] : Bytes))] 0 = none) ∧
    ∃ r, reassemble lengthDigest "2" 2 [(1, [5])] false (fun _ => false) = some r ∧
      (0 : Int) ∈ r.missing ∧
      ∀ j ∈ chunkIndices 2, ∀ bytes, mapFind [((1 : Int), ([5] : Bytes))] j = some bytes →
        bytes <:+: r.content :=
  ⟨by decide,
   reassemble_partial_on_missing lengthDigest "2" 2 [(1, [5])] (fun _ => false) 0
     (by decide) (by decide) (fun _ => rfl)⟩

/-- C11: a file of `2^31 + 1` bytes is uploaded in 4097 chunks. For its last chunk,
    index 4096, the chunk server of the uploader sends the one byte of that chunk,
    while the downloader computes an expected length of 4294967297 bytes: whatever
    the digest, the chunk served is rejected, so the chunk stays missing and the
    file is not rebuilt. -/
theorem round_trip_fails_past_two_gib :
    chunkCount 2147483649 = 4097 ∧
    (∃ uploadCommand ownedFile,
      uploadFile lengthDigest bigDisk "/tmp/f.bin" "g" = .sent uploadCommand ownedFile ∧
      ownedFile.totalChunks = 4097 ∧
      serveRequest (registerOwnedFile [] ownedFile) bigDisk "get_chunk" "f.bin" 4096
        = .chunk [0]) ∧
    expectedChunkSize 4096 4097 2147483649 = 4294967297 ∧
    (∀ (sha1 : Bytes → String) (expectedSha1 : String),
      fetchFrom sha1 expectedSha1 (expectedChunkSize 4096 4097 2147483649)
        (serverAttempt (.chunk [0])) = none) := by
  have hlen : (List.replicate 2147483649 (0 : UInt8)).length = 2147483649 :=
    List.length_replicate _ _
  have hexp : expectedChunkSize 4096 4097 2147483649 = 4294967297 := by decide
  have hcount : chunkCount 2147483649 = 4097 := by decide
  refine ⟨hcount, ?_, hexp, ?_⟩
  · have hsent := uploadFile_sent lengthDigest bigDisk "/tmp/f.bin" "g"
      { content := List.replicate 2147483649 0, openFails := false, seekFails := false,
        readFails := false } rfl rfl rfl
      (by simp only [lengthDigest, hlen]; decide)
    simp only [hlen, hcount] at hsent
    refine ⟨_, { filePath := "/tmp/f.bin",
                 fileSHA1 := lengthDigest (List.replicate 2147483649 0),
                 chunkSHA1s := computeManifest lengthDigest (List.replicate 2147483649 0),
                 totalChunks := Int.ofNat 4097 }, hsent, rfl, ?_⟩
    have hbase : getBaseName "/tmp/f.bin" = "f.bin" := by decide
    rw [serveRequest_serves _ bigDisk "f.bin"
      { filePath := "/tmp/f.bin",
        fileSHA1 := lengthDigest (List.replicate 2147483649 0),
        chunkSHA1s := computeManifest lengthDigest (List.replicate 2147483649 0),
        totalChunks := Int.ofNat 4097 }
      { content := List.replicate 2147483649 0, openFails := false, seekFails := false,
        readFails := false } 4096
      (by simp only [registerOwnedFile, hbase]; exact mapFind_mapInsert_self _ _ _)
      rfl rfl rfl rfl (by decide) (by simp only [hlen]; decide)]
    have hoff : (chunkOffset 4096).toNat = 2147483648 := by decide
    simp only [hoff, hlen, List.drop_replicate, List.take_replicate]
    have hexp' : expectedChunkSize 4096 (Int.ofNat 4097) (Int.ofNat 2147483649) = 4294967297 :=
      hexp
    rw [hexp']
    decide
  · intro sha1 expectedSha1
    rw [hexp]
    simp [fetchFrom, serverAttempt, wireBytes, recvLoop]

theorem readChunks_flatten :
    ∀ (fuel : Nat) (rest : Bytes), rest.length ≤ fuel → (readChunks fuel rest).flatten = rest := by
  intro fuel
  induction fuel with
  | zero =>
    intro rest h
    have : rest = [] := List.length_eq_zero.mp (by omega)
    subst this
    simp [readChunks]
  | succ fuel ih =>
    intro rest h
    rw [readChunks]
    by_cases hgot : (List.take CHUNK_SIZE rest).isEmpty = true
    · rw [if_pos hgot]
      rw [List.isEmpty_iff, List.take_eq_nil_iff] at hgot
      rcases hgot with hgot | hgot
      · simp [CHUNK_SIZE] at hgot
      · subst hgot; rfl
    · rw [if_neg hgot, List.flatten_cons]
      have hne : rest ≠ [] := by
        intro hnil; subst hnil; simp at hgot
      have hpos : 1 ≤ rest.length := by
        cases rest with
        | nil => exact absurd rfl hne
        | cons a r => simp
      rw [ih (rest.drop CHUNK_SIZE) (by simp [CHUNK_SIZE]; omega)]
      exact List.take_append_drop _ _

/-- Reading the length of chunk `i` or a full chunk from offset `i * 524288` of a
    file of `S` bytes gives the same number of bytes. -/
theorem lawLength_min (S i : Nat) (hi : i < chunkCount S) :
    min (lawLength S (chunkCount S) i) (S - i * 524288) = min 524288 (S - i * 524288) := by
  unfold lawLength
  by_cases hc : i < chunkCount S - 1
  · rw [if_pos hc]
  · rw [if_neg hc]
    unfold chunkCount at hi hc ⊢
    omega

/-- The chunk server over an intact file of at most `2^31` bytes answers the
    request for chunk `i` with the bytes of that chunk, which have the length the
    downloader expects. -/
theorem serveRequest_intact_chunk (ownedFilesInfo : List (String × OwnedFileInfo))
    (disk : List (String × DiskFile)) (fileName : String) (fileInfo : OwnedFileInfo)
    (file : DiskFile) (i : Nat)
    (hown : mapFind ownedFilesInfo fileName = some fileInfo)
    (hdisk : mapFind disk fileInfo.filePath = some file)
    (hopen : file.openFails = false) (hseek : file.seekFails = false)
    (hread : file.readFails = false)
    (hS1 : 1 ≤ file.content.length) (hS2 : file.content.length ≤ 2147483648)
    (htc : fileInfo.totalChunks = Int.ofNat (chunkCount file.content.length))
    (hi : i < chunkCount file.content.length) :
    serveRequest ownedFilesInfo disk "get_chunk" fileName (Int.ofNat i)
      = .chunk ((file.content.drop (i * 524288)).take 524288) ∧
    ((file.content.drop (i * 524288)).take 524288).length
      = expectedChunkSize (Int.ofNat i) (Int.ofNat (chunkCount file.content.length))
          (Int.ofNat file.content.length) := by
  have hlaw := expectedChunkSize_eq_lawLength file.content.length i hS1 hS2 hi
  have hlaw' : expectedChunkSize (Int.ofNat i) (Int.ofNat (chunkCount file.content.length))
      (Int.ofNat file.content.length) = lawLength file.content.length
        (chunkCount file.content.length) i := hlaw
  have hoff : (chunkOffset (Int.ofNat i)).toNat = i * 524288 := by
    unfold chunkOffset CHUNK_SIZE
    simp only [Int.ofNat_eq_coe]
    omega
  have hlt : chunkOffset (Int.ofNat i) < Int.ofNat file.content.length := by
    unfold chunkOffset CHUNK_SIZE
    unfold chunkCount at hi
    simp only [Int.ofNat_eq_coe]
    omega
  constructor
  · have h := serveRequest_serves ownedFilesInfo disk fileName fileInfo file (Int.ofNat i)
      hown hdisk hopen hseek hread (Int.ofNat_nonneg i) hlt
    rw [htc, hlaw', hoff] at h
    have hmin : min (lawLength file.content.length (chunkCount file.content.length) i)
        (file.content.drop (i * 524288)).length
        = min 524288 (file.content.drop (i * 524288)).length := by
      rw [List.length_drop]
      exact lawLength_min file.content.length i hi
    have htake : (file.content.drop (i * 524288)).take
        (lawLength file.content.length (chunkCount file.content.length) i)
        = (file.content.drop (i * 524288)).take 524288 := List.take_eq_take.mpr hmin
    rw [htake] at h
    exact h
  · rw [hlaw', List.length_take, List.length_drop]
    unfold lawLength chunkCount at *
    split <;> omega

/-- A chunk of the expected, positive length that the chunk server sends is accepted
    by the downloader against its own digest. -/
theorem fetchFrom_served (sha1 : Bytes → String) (chunk : Bytes) (expected : Nat)
    (hlen : chunk.length = expected) (hpos : 1 ≤ expected) :
    fetchFrom sha1 (sha1 chunk) expected (serverAttempt (.chunk chunk)) = some chunk := by
  have hne : chunk ≠ [] := by
    intro h; subst h; simp at hlen; omega
  have hempty : chunk.isEmpty = false := by
    cases chunk with
    | nil => exact absurd rfl hne
    | cons a r => rfl
  have htake : List.take expected chunk = chunk := List.take_of_length_le (by omega)
  have hloop : recvLoop expected [.data chunk] [] = (chunk, false) := by
    rw [recvLoop]
    simp only [List.length_nil, Nat.sub_zero, List.nil_append, hempty, Bool.false_eq_true,
      if_false, htake]
    rw [if_pos (by omega), recvLoop, hlen]
    simp
  simp only [fetchFrom, serverAttempt, wireBytes, hloop, hlen]
  simp

/-- A worker whose first holder delivers a verified chunk stores that chunk. -/
theorem downloadChunk_first_holder (sha1 : Bytes → String) (chunkInfoList : List ChunkInfo)
    (totalChunks downloadFileSize : Int) (attempt : Nat → Attempt) (listIndex : Nat)
    (chunkData : List (Int × Bytes)) (chunkInfo : ChunkInfo) (chunk : Bytes)
    (hget : chunkInfoList.get? listIndex = some chunkInfo)
    (hholder : chunkInfo.peersWithChunk ≠ [])
    (hfetch : fetchFrom sha1 chunkInfo.expectedSha1
      (expectedChunkSize chunkInfo.chunkIndex totalChunks downloadFileSize) (attempt 0)
        = some chunk) :
    (downloadChunk sha1 chunkInfoList totalChunks downloadFileSize attempt listIndex
      chunkData).1 = mapInsert chunkInfo.chunkIndex chunk chunkData := by
  cases hpeers : chunkInfo.peersWithChunk with
  | nil => exact absurd hpeers hholder
  | cons peer rest =>
    have htry : tryHolders sha1 chunkInfo.expectedSha1
        (expectedChunkSize chunkInfo.chunkIndex totalChunks downloadFileSize) attempt 0
        (peer :: rest) = (some chunk, [peer]) := by
      simp only [tryHolders, hfetch]
    simp only [downloadChunk, hget, hpeers, htry]

/-- When the first holder of every plan entry delivers the chunk of that entry, the
    chunk map filled by the workers holds, under every index, the chunk of that
    index, and holds the chunk of every entry whose worker has run. -/
theorem runWorkers_collects (sha1 : Bytes → String) (chunkInfoList : List ChunkInfo)
    (totalChunks downloadFileSize : Int) (attempts : Nat → Nat → Attempt)
    (chunkOf : Int → Bytes)
    (hplan : ∀ l c, chunkInfoList.get? l = some c →
      c.peersWithChunk ≠ [] ∧
      fetchFrom sha1 c.expectedSha1
        (expectedChunkSize c.chunkIndex totalChunks downloadFileSize) (attempts l 0)
          = some (chunkOf c.chunkIndex)) :
    ∀ (order : List Nat) (chunkData : List (Int × Bytes)),
      (∀ idx b, mapFind chunkData idx = some b → b = chunkOf idx) →
      (∀ idx b, mapFind (runWorkers sha1 chunkInfoList totalChunks downloadFileSize attempts
          order chunkData) idx = some b → b = chunkOf idx) ∧
      (∀ idx, (mapFind chunkData idx = some (chunkOf idx) ∨
          ∃ l ∈ order, ∃ c, chunkInfoList.get? l = some c ∧ c.chunkIndex = idx) →
        mapFind (runWorkers sha1 chunkInfoList totalChunks downloadFileSize attempts
          order chunkData) idx = some (chunkOf idx)) := by
  intro order
  induction order with
  | nil =>
    intro chunkData hgood
    refine ⟨hgood, ?_⟩
    intro idx h
    rcases h with h | ⟨l, hl, _⟩
    · exact h
    · simp at hl
  | cons l rest ih =>
    intro chunkData hgood
    have hstep : runWorkers sha1 chunkInfoList totalChunks downloadFileSize attempts
        (l :: rest) chunkData
        = runWorkers sha1 chunkInfoList totalChunks downloadFileSize attempts rest
          (downloadChunk sha1 chunkInfoList totalChunks downloadFileSize (attempts l) l
            chunkData).1 := rfl
    rw [hstep]
    cases hget : chunkInfoList.get? l with
    | none =>
      have hsame : (downloadChunk sha1 chunkInfoList totalChunks downloadFileSize (attempts l) l
          chunkData).1 = chunkData := by
        simp only [downloadChunk, hget]
      rw [hsame]
      obtain ⟨ih1, ih2⟩ := ih chunkData hgood
      refine ⟨ih1, ?_⟩
      intro idx h
      apply ih2
      rcases h with h | ⟨l', hl', c, hc, hidx⟩
      · exact Or.inl h
      · rcases List.mem_cons.mp hl' with heq | hmem
        · subst heq
          rw [hget] at hc
          exact absurd hc (by simp)
        · exact Or.inr ⟨l', hmem, c, hc, hidx⟩
    | some c0 =>
      obtain ⟨hholder, hfetch⟩ := hplan l c0 hget
      rw [downloadChunk_first_holder sha1 chunkInfoList totalChunks downloadFileSize
        (attempts l) l chunkData c0 (chunkOf c0.chunkIndex) hget hholder hfetch]
      have hgood' : ∀ idx b,
          mapFind (mapInsert c0.chunkIndex (chunkOf c0.chunkIndex) chunkData) idx = some b →
            b = chunkOf idx := by
        intro idx b hb
        rw [mapFind_mapInsert] at hb
        split at hb
        · rename_i hidx
          injection hb with hb
          rw [← hb, hidx]
        · exact hgood idx b hb
      obtain ⟨ih1, ih2⟩ := ih _ hgood'
      refine ⟨ih1, ?_⟩
      intro idx h
      apply ih2
      rcases h with h | ⟨l', hl', c, hc, hidx⟩
      · left
        rw [mapFind_mapInsert]
        split
        · rename_i heq; rw [heq]
        · exact h
      · rcases List.mem_cons.mp hl' with heq | hmem
        · subst heq
          rw [hget] at hc
          injection hc with hc
          subst hc
          left
          rw [← hidx]
          exact mapFind_mapInsert_self _ _ _
        · exact Or.inr ⟨l', hmem, c, hc, hidx⟩

theorem filterMap_eq_map_of_some {α β : Type} (f : α → Option β) (g : α → β) :
    ∀ l : List α, (∀ x ∈ l, f x = some (g x)) → l.filterMap f = l.map g := by
  intro l
  induction l with
  | nil => intro _; rfl
  | cons a rest ih =>
    intro h
    rw [List.filterMap_cons_some (h a (List.mem_cons_self a rest)), List.map_cons,
      ih (fun x hx => h x (List.mem_cons_of_mem a hx))]

theorem readChunks_eq_map (content : Bytes) :
    readChunks (content.length + 1) content
      = (List.range (chunkCount content.length)).map
          (fun i => (content.drop (i * 524288)).take 524288) := by
  apply List.ext_getElem?
  intro i
  by_cases hi : i < chunkCount content.length
  · rw [readChunks_get _ _ i (Nat.le_succ _) hi, List.getElem?_map,
      List.getElem?_range hi]
    rfl
  · rw [List.getElem?_eq_none (by rw [readChunks_length _ _ (Nat.le_succ _)]; omega),
      List.getElem?_eq_none (by simp; omega)]

/-- When the first holder of every plan entry delivers the chunk of that entry and
    the workers that ran cover every chunk index, the reassembly rebuilds the
    file. -/
theorem download_rebuilds (sha1 : Bytes → String) (chunkInfoList : List ChunkInfo)
    (downloadFileSize : Int) (attempts : Nat → Nat → Attempt) (order : List Nat)
    (content : Bytes)
    (hplan : ∀ l c, chunkInfoList.get? l = some c →
      c.peersWithChunk ≠ [] ∧
      fetchFrom sha1 c.expectedSha1
        (expectedChunkSize c.chunkIndex (Int.ofNat (chunkCount content.length))
          downloadFileSize) (attempts l 0)
        = some ((content.drop (c.chunkIndex.toNat * 524288)).take 524288))
    (hcover : ∀ i, i < chunkCount content.length →
      ∃ l ∈ order, ∃ c, chunkInfoList.get? l = some c ∧ c.chunkIndex = Int.ofNat i) :
    reassemble sha1 (sha1 content) (Int.ofNat (chunkCount content.length))
        (runWorkers sha1 chunkInfoList (Int.ofNat (chunkCount content.length))
          downloadFileSize attempts order [])
        false (fun _ => false)
      = some { content := content, missing := [], writeFailed := false, verified := true } := by
  obtain ⟨_, hhas⟩ := runWorkers_collects sha1 chunkInfoList
    (Int.ofNat (chunkCount content.length)) downloadFileSize attempts
    (fun idx : Int => (content.drop (idx.toNat * 524288)).take 524288)
    hplan order [] (by intro idx b hb; simp [mapFind] at hb)
  have hpresent : ∀ idx ∈ chunkIndices (Int.ofNat (chunkCount content.length)),
      mapFind (runWorkers sha1 chunkInfoList (Int.ofNat (chunkCount content.length))
        downloadFileSize attempts order []) idx
        = some ((content.drop (idx.toNat * 524288)).take 524288) := by
    intro idx hidx
    simp only [chunkIndices, Int.toNat_ofNat, List.mem_map, List.mem_range] at hidx
    obtain ⟨i, hi, rfl⟩ := hidx
    exact hhas (Int.ofNat i) (Or.inr (hcover i hi))
  rw [reassemble_closed_form _ _ _ _ _ (fun _ => rfl)]
  have hcontent : ((chunkIndices (Int.ofNat (chunkCount content.length))).filterMap
      (mapFind (runWorkers sha1 chunkInfoList (Int.ofNat (chunkCount content.length))
        downloadFileSize attempts order []))).flatten = content := by
    rw [filterMap_eq_map_of_some _
      (fun idx : Int => (content.drop (idx.toNat * 524288)).take 524288) _ hpresent]
    have : (chunkIndices (Int.ofNat (chunkCount content.length))).map
        (fun idx : Int => (content.drop (idx.toNat * 524288)).take 524288)
        = readChunks (content.length + 1) content := by
      rw [readChunks_eq_map]
      simp [chunkIndices, Function.comp]
    rw [this, readChunks_flatten _ _ (Nat.le_succ _)]
  have hmissing : (chunkIndices (Int.ofNat (chunkCount content.length))).filter
      (fun i => (mapFind (runWorkers sha1 chunkInfoList
        (Int.ofNat (chunkCount content.length)) downloadFileSize attempts order []) i).isNone)
      = [] := by
    rw [List.filter_eq_nil_iff]
    intro idx hidx
    rw [hpresent idx hidx]
    simp
  rw [hcontent, hmissing]
  simp

/-- C30: a file of `2^31 + 1` bytes has 4097 chunks, a count that fits a 32-bit
    `int`. The product `(totalChunks - 1) * CHUNK_SIZE` is `2^31`, which as an `int`
    wraps to `-2^31`, so the length computed for the final chunk 4096 is
    4294967297 and not the mathematical value 1. -/
theorem final_chunk_length_overflows :
    chunkCount 2147483649 = 4097 ∧
    ((4097 : Int) - 1) * CHUNK_SIZE = 2147483648 ∧
    wrapInt32 (((4097 : Int) - 1) * CHUNK_SIZE) = -2147483648 ∧
    expectedChunkSize 4096 4097 2147483649 = 4294967297 ∧
    (2147483649 : Int) - ((4097 : Int) - 1) * 524288 = 1 := by
  decide

/-- A decimal digit is not a blank. -/
theorem digit_not_space (c : Char) (h : c.isDigit = true) : isSpace c = false := by
  unfold Char.isDigit at h
  unfold isSpace
  simp only [Bool.and_eq_true, decide_eq_true_eq, ge_iff_le] at h
  have h1 : 48 ≤ c.toNat := by
    have := h.1
    exact this
  simp
  omega

/-- The character of a digit below ten is a decimal digit with that value. -/
theorem digitChar_spec (k : Nat) (hk : k < 10) :
    (Nat.digitChar k).isDigit = true ∧ ((Nat.digitChar k).toNat : Int) - 48 = k := by
  interval_cases k <;> decide

/-- A decimal digit is not a sign. -/
theorem digit_not_sign (c : Char) (h : c.isDigit = true) : c ≠ '-' ∧ c ≠ '+' := by
  constructor <;> (intro hc; subst hc; exact absurd h (by decide))

/-- The digits printed for a number are decimal digits, most significant first. -/
theorem toDigitsCore_spec : ∀ (fuel n : Nat) (ds : List Char), n < fuel →
    ∃ pre : List Char, Nat.toDigitsCore 10 fuel n ds = pre ++ ds ∧ pre ≠ [] ∧
      (∀ c ∈ pre, c.isDigit = true) ∧
      ∀ acc : Int, pre.foldl (fun acc c => acc * 10 + ((c.toNat : Int) - 48)) acc
        = acc * 10 ^ pre.length + (n : Int) := by
  intro fuel
  induction fuel with
  | zero => intro n ds h; omega
  | succ fuel ih =>
    intro n ds hn
    obtain ⟨hd, hv⟩ := digitChar_spec (n % 10) (Nat.mod_lt _ (by decide))
    simp only [Nat.toDigitsCore]
    by_cases hz : n / 10 = 0
    · rw [if_pos hz]
      refine ⟨[Nat.digitChar (n % 10)], rfl, by simp, ?_, ?_⟩
      · intro c hc
        rw [List.mem_singleton.mp hc]
        exact hd
      · intro acc
        simp only [List.foldl_cons, List.foldl_nil, List.length_singleton, pow_one]
        rw [hv]
        have : n % 10 = n := by omega
        rw [this]
    · rw [if_neg hz]
      obtain ⟨pre, hpre, hne, hdig, hval⟩ := ih (n / 10) (Nat.digitChar (n % 10) :: ds) (by omega)
      refine ⟨pre ++ [Nat.digitChar (n % 10)], by rw [hpre]; simp, by simp, ?_, ?_⟩
      · intro c hc
        rcases List.mem_append.mp hc with hc | hc
        · exact hdig c hc
        · rw [List.mem_singleton.mp hc]
          exact hd
      · intro acc
        rw [List.foldl_append, hval acc]
        simp only [List.foldl_cons, List.foldl_nil, List.length_append, List.length_singleton]
        rw [hv, pow_succ]
        have hsplit : (n : Int) = 10 * ((n / 10 : Nat) : Int) + ((n % 10 : Nat) : Int) := by omega
        rw [hsplit]
        push_cast
        ring

/-- The decimal print of a natural number is a non-empty string of digits whose
    value is the number. -/
theorem toString_nat_spec (n : Nat) :
    (toString n).data ≠ [] ∧ (∀ c ∈ (toString n).data, c.isDigit = true) ∧
    decimalValue (toString n).data = (n : Int) := by
  obtain ⟨pre, hpre, hne, hdig, hval⟩ := toDigitsCore_spec (n + 1) n [] (by omega)
  have hdata : (toString n).data = pre := by
    show Nat.toDigits 10 n = pre
    unfold Nat.toDigits
    rw [hpre, List.append_nil]
  rw [hdata]
  refine ⟨hne, hdig, ?_⟩
  unfold decimalValue
  rw [hval 0]
  simp

/-- The value of a string of decimal digits is not negative. -/
theorem decimalValue_nonneg (digits : List Char) (hd : ∀ c ∈ digits, c.isDigit = true) :
    0 ≤ decimalValue digits := by
  have h : ∀ (ds : List Char) (acc : Int), (∀ c ∈ ds, c.isDigit = true) → 0 ≤ acc →
      0 ≤ ds.foldl (fun acc c => acc * 10 + ((c.toNat : Int) - 48)) acc := by
    intro ds
    induction ds with
    | nil => intro acc _ hacc; exact hacc
    | cons d rest ih =>
      intro acc hds hacc
      simp only [List.foldl_cons]
      apply ih _ (fun c hc => hds c (List.mem_cons_of_mem _ hc))
      have hdig : d.isDigit = true := hds d (List.mem_cons_self _ _)
      unfold Char.isDigit at hdig
      simp only [Bool.and_eq_true, decide_eq_true_eq, ge_iff_le] at hdig
      have h48 : 48 ≤ d.toNat := hdig.1
      omega
  exact h digits 0 hd (le_refl 0)

/-- The plan of `Tracker.droppedOwner` at the peer: the response line lists the
    logged-out owner `a` with an empty ip, so that the parse reads `0` as the ip of
    `a`, fails at `b` where it expects the port, and reads nothing of the live
    holder `b`. -/
theorem dropped_owner_plan_loses_live_holder :
    Tracker.responseAfter Tracker.droppedOwner ["download_file", "g", "f"] 5
      = "download_info 10 1 524288 s 0 2 c0 a  0 b 127.0.0.1 6002 " ∧
    receiveDownloadInfo freshVars 0
        (Tracker.responseAfter Tracker.droppedOwner ["download_file", "g", "f"] 5 ++ "\n") 58
      = some (.plan { downloadFileSize := 10, totalChunks := 1, chunkSize := 524288,
                      downloadFileSha1 := "s",
                      chunkInfoList :=
                        [ { chunkIndex := 0, availability := 2, expectedSha1 := "c0",
                            peersWithChunk :=
                              [ { userId := "a", ip := "0", port := 0 },
                                { userId := "", ip := "", port := 0 } ] } ] }) := by
  refine ⟨by decide, by decide⟩

end Client

/-! ## The port of a login -/

namespace Tracker

/-- C19: `login uid pwd ip port` answers `Login successful.` exactly when `uid`
    exists, `pwd` is the stored password and `uid` is not logged in; then `uid` is
    marked logged in with endpoint `(ip, port)`, in its record and in
    `userIpPortMap`, and the socket is bound to `uid`. The port recorded is the
    value `myAtoi` gives the port token, and for the decimal print of every `int`
    that value is the number itself. Otherwise the answer is the error of the first
    failing check (no such user, wrong password, already logged in) and the tables
    are unchanged. -/
theorem handleLogin_contract (s : TrackerState) (clientSock : Int)
    (t userId password ip portTok : String) :
    ((handleLogin [t, userId, password, ip, portTok] clientSock s).2 = "Login successful." ↔
      ∃ u, mapFind s.users userId = some u ∧ u.password = password ∧ u.isLoggedIn = false) ∧
    (∀ u, mapFind s.users userId = some u → u.password = password → u.isLoggedIn = false →
      mapFind (handleLogin [t, userId, password, ip, portTok] clientSock s).1.users userId
        = some { u with isLoggedIn := true, ip := ip, port := myAtoi portTok } ∧
      mapFind (handleLogin [t, userId, password, ip, portTok] clientSock s).1.clientUserMap
        clientSock = some userId ∧
      mapFind (handleLogin [t, userId, password, ip, portTok] clientSock s).1.userIpPortMap
        userId = some (ip, myAtoi portTok)) ∧
    (∀ (u : UserInfo) (port : Int), mapFind s.users userId = some u → u.password = password →
      u.isLoggedIn = false → -2147483648 ≤ port → port ≤ 2147483647 →
      (handleLogin [t, userId, password, ip, toString port] clientSock s).2
        = "Login successful." ∧
      mapFind (handleLogin [t, userId, password, ip, toString port] clientSock s).1.users userId
        = some { u with isLoggedIn := true, ip := ip, port := port } ∧
      mapFind (handleLogin [t, userId, password, ip, toString port] clientSock s).1.clientUserMap
        clientSock = some userId ∧
      mapFind (handleLogin [t, userId, password, ip, toString port] clientSock s).1.userIpPortMap
        userId = some (ip, port)) ∧
    (mapFind s.users userId = none →
      handleLogin [t, userId, password, ip, portTok] clientSock s
        = (s, "Error: User does not exist.")) ∧
    (∀ u, mapFind s.users userId = some u → u.password ≠ password →
      handleLogin [t, userId, password, ip, portTok] clientSock s
        = (s, "Error: Incorrect password.")) ∧
    (∀ u, mapFind s.users userId = some u → u.password = password → u.isLoggedIn = true →
      handleLogin [t, userId, password, ip, portTok] clientSock s
        = (s, "Error: User already logged in.")) := by
  refine ⟨?_, ?_, ?_, ?_, ?_, ?_⟩
  · cases hfind : mapFind s.users userId with
    | none => simp [handleLogin, hfind]
    | some u =>
      by_cases hpw : u.password = password
      · cases hl : u.isLoggedIn <;> simp [handleLogin, hfind, hpw, hl]
      · simp [handleLogin, hfind, hpw]
  · intro u hfind hpw hl
    simp [handleLogin, hfind, hpw, hl, mapFind_mapInsert_self]
  · intro u port hfind hpw hl hlo hhi
    have hport : myAtoi (toString port) = port := by
      cases port with
      | ofNat m =>
        obtain ⟨hne, hd, hv⟩ := Client.toString_nat_spec m
        have hnn := Client.decimalValue_nonneg (toString m).data hd
        have hs : toString (Int.ofNat m) = String.mk (toString m).data := rfl
        rw [hs]
        generalize (toString m).data = ds at hne hd hv hnn
        cases ds with
        | nil => exact absurd rfl hne
        | cons d rest =>
          have hdd : d.isDigit = true := hd d (List.mem_cons_self _ _)
          have hsp : isSpaceChar d = false := Client.digit_not_space d hdd
          obtain ⟨hm, hp⟩ := Client.digit_not_sign d hdd
          have hdrop : (String.mk (d :: rest)).toList.dropWhile isSpaceChar = d :: rest := by
            show (d :: rest).dropWhile isSpaceChar = d :: rest
            simp [List.dropWhile, hsp]
          have htake : (d :: rest).takeWhile Char.isDigit = d :: rest :=
            List.takeWhile_eq_self_iff.mpr hd
          have hsigned : (match d :: rest with
              | '-' :: r => (true, r)
              | '+' :: r => (false, r)
              | r => (false, r)) = (false, d :: rest) := by
            split
            · rename_i heq; injection heq with h _; exact absurd h hm
            · rename_i heq; injection heq with h _; exact absurd h hp
            · rfl
          have hhi' : (m : Int) ≤ 2147483647 := hhi
          unfold Client.decimalValue at hv hnn
          simp only [myAtoi, hdrop, hsigned, htake]
          simp only [List.isEmpty_cons, Bool.false_eq_true, if_false]
          rw [if_neg (by omega)]
          exact hv
      | negSucc m =>
        obtain ⟨hne, hd, hv⟩ := Client.toString_nat_spec (m + 1)
        have hs : toString (Int.negSucc m) = String.mk ('-' :: (toString (m + 1)).data) := rfl
        rw [hs]
        generalize (toString (m + 1)).data = ds at hne hd hv
        have hsp : isSpaceChar '-' = false := by decide
        have hdrop : (String.mk ('-' :: ds)).toList.dropWhile isSpaceChar = '-' :: ds := by
          show ('-' :: ds).dropWhile isSpaceChar = '-' :: ds
          simp [List.dropWhile, hsp]
        have htake : ds.takeWhile Char.isDigit = ds := List.takeWhile_eq_self_iff.mpr hd
        have hempty : ds.isEmpty = false := by
          cases ds with
          | nil => exact absurd rfl hne
          | cons d rest => rfl
        have hlo' : -2147483648 ≤ -((m : Int) + 1) := hlo
        have hneg : Int.negSucc m = -((m : Int) + 1) := rfl
        unfold Client.decimalValue at hv
        simp only [myAtoi, hdrop, htake, hempty]
        simp only [Bool.false_eq_true, if_false, if_true]
        rw [if_neg (by push_cast at hv; omega), hv, hneg]
        push_cast
        rfl
    simp [handleLogin, hfind, hpw, hl, mapFind_mapInsert_self, hport]
  · intro hfind
    simp [handleLogin, hfind]
  · intro u hfind hpw
    simp [handleLogin, hfind, hpw]
  · intro u hfind hpw hl
    simp [handleLogin, hfind, hpw, hl]

/-- The contract of `login` at the state in which user `a` exists and is not logged
    in: `myAtoi` reads the port tokens `6001` and `-1` as those numbers, and the
    login `login a pw 127.0.0.1 6001` on socket 4 puts the endpoint
    `("127.0.0.1", 6001)` on record. -/
theorem handleLogin_contract_witness :
    myAtoi "6001" = 6001 ∧ myAtoi "-1" = -1 ∧
    handleLogin ["login", "a", "pw", "127.0.0.1", "6001"] 4
        (run init [ .command ["create_user", "a", "pw"] 4 ])
      = ({ users := [("a", { userId := "a", password := "pw", isLoggedIn := true,
                             ip := "127.0.0.1", port := 6001 })],
           groups := [], clientUserMap := [(4, "a")], groupFiles := [],
           userIpPortMap := [("a", ("127.0.0.1", 6001))], serverRunning := true },
         "Login successful.") ∧
    mapFind (handleLogin ["login", "a", "pw", "127.0.0.1", "6001"] 4
        (run init [ .command ["create_user", "a", "pw"] 4 ])).1.userIpPortMap "a"
      = some ("127.0.0.1", 6001) :=
  ⟨by decide, by decide, by decide,
   ((handleLogin_contract (run init [ .command ["create_user", "a", "pw"] 4 ]) 4
      "login" "a" "pw" "127.0.0.1" "6001").2.2.1
      { userId := "a", password := "pw", isLoggedIn := false, ip := "", port := 0 } 6001
      (by decide) rfl rfl (by decide) (by decide)).2.2.2⟩

end Tracker

/-! ## Plans that the peer does not read back -/

namespace Client

end Client

end P2P
